import Mathlib

/-!
# Agora uplink PHY: layout, gather and equalisation kernels

A shallow embedding of `src/agora/dofft.cpp` (`DoFFT::partial_transpose`),
`src/agora/dodemul.cc` (`DoDemul::Launch`) and of `compute_precoder` from
`test/benchmark/benchmark.cpp`, with the properties the specification states
about them.

Conventions.
* A `complex_float*` buffer is a total map `Nat → complex_float α`; the float
  type `α` is kept abstract (exact arithmetic), so every layout statement holds
  for any sample type.
* `reinterpret_cast<float*>` is `asFloats`; a buffer written through a float
  pointer is read back with `ofFloats`.  A SIMD register is a map from its lane
  number to a float.
* `for (i = 0; i < n; i += step)` is a left fold over `loopSteps n step`.
-/

namespace Agora

/-! ## Samples, float views and SIMD registers -/

/-- The sample type of the sources: `struct complex_float { float re; float im; }`. -/
structure complex_float (α : Type) where
  re : α
  im : α
deriving DecidableEq, Repr

/-- Complex product of two samples. -/
instance complex_float.instMul {α : Type} [Mul α] [Add α] [Sub α] : Mul (complex_float α) where
  mul a b := ⟨a.re * b.re - a.im * b.im, a.re * b.im + a.im * b.re⟩

/-- The floats of a sample array: `reinterpret_cast<float*>(buf)`; sample `k`
occupies the floats `2k` (real part) and `2k+1` (imaginary part). -/
def asFloats {α : Type} (buf : Nat → complex_float α) : Nat → α :=
  fun n => if n % 2 = 0 then (buf (n / 2)).re else (buf (n / 2)).im

/-- The sample array laid over a float array. -/
def ofFloats {α : Type} (f : Nat → α) : Nat → complex_float α :=
  fun k => ⟨f (2 * k), f (2 * k + 1)⟩

/-- The values `i` takes in `for (i = 0; i < n; i += step)`, in order. -/
def loopSteps (n step : Nat) : List Nat :=
  (List.range ((n + step - 1) / step)).map (fun t => t * step)

/-- `_mm256_load_ps(p)`: the eight floats at `p`. -/
def _mm256_load_ps {α : Type} (mem : Nat → α) (p : Nat) : Nat → α :=
  fun l => mem (p + l)

/-- `_mm256_store_ps(p, v)`: lanes 0..7 of `v` go to floats `p .. p+7`. -/
def _mm256_store_ps {α : Type} (mem : Nat → α) (p : Nat) (v : Nat → α) : Nat → α :=
  fun n => if p ≤ n ∧ n < p + 8 then v (n - p) else mem n

/-- `_mm256_stream_ps(p, v)`: a store with a non-temporal hint. -/
def _mm256_stream_ps {α : Type} (mem : Nat → α) (p : Nat) (v : Nat → α) : Nat → α :=
  _mm256_store_ps mem p v

/-- `_mm512_load_ps(p)`: the sixteen floats at `p`. -/
def _mm512_load_ps {α : Type} (mem : Nat → α) (p : Nat) : Nat → α :=
  fun l => mem (p + l)

/-- `_mm512_store_ps(p, v)`: lanes 0..15 of `v` go to floats `p .. p+15`. -/
def _mm512_store_ps {α : Type} (mem : Nat → α) (p : Nat) (v : Nat → α) : Nat → α :=
  fun n => if p ≤ n ∧ n < p + 16 then v (n - p) else mem n

/-- `_mm256_set_ps(e7, ..., e0)`: the last argument is lane 0. -/
def _mm256_set_ps {α : Type} (e7 e6 e5 e4 e3 e2 e1 e0 : α) : Nat → α :=
  fun l => match l with
    | 0 => e0 | 1 => e1 | 2 => e2 | 3 => e3 | 4 => e4 | 5 => e5 | 6 => e6 | _ => e7

/-- `_mm256_setr_epi32(e0, ..., e7)`: the first argument is lane 0. -/
def _mm256_setr_epi32 (e0 e1 e2 e3 e4 e5 e6 e7 : Nat) : Nat → Nat :=
  fun l => match l with
    | 0 => e0 | 1 => e1 | 2 => e2 | 3 => e3 | 4 => e4 | 5 => e5 | 6 => e6 | _ => e7

/-- `_mm512_setr_epi32(e0, ..., e15)`: the first argument is lane 0. -/
def _mm512_setr_epi32 (e0 e1 e2 e3 e4 e5 e6 e7 e8 e9 e10 e11 e12 e13 e14 e15 : Nat) :
    Nat → Nat :=
  fun l => match l with
    | 0 => e0 | 1 => e1 | 2 => e2 | 3 => e3 | 4 => e4 | 5 => e5 | 6 => e6 | 7 => e7
    | 8 => e8 | 9 => e9 | 10 => e10 | 11 => e11 | 12 => e12 | 13 => e13 | 14 => e14
    | _ => e15

/-- `_mm256_i32gather_ps(base, vindex, scale)`: lane `l` is the float at byte
offset `vindex[l] * scale` from `base`, i.e. float `base + vindex[l] * scale / 4`. -/
def _mm256_i32gather_ps {α : Type} (mem : Nat → α) (base : Nat) (vindex : Nat → Nat)
    (scale : Nat) : Nat → α :=
  fun l => mem (base + vindex l * scale / 4)

/-- `_mm512_i32gather_ps(vindex, base, scale)`: as the 256-bit gather, sixteen lanes. -/
def _mm512_i32gather_ps {α : Type} (mem : Nat → α) (vindex : Nat → Nat) (base : Nat)
    (scale : Nat) : Nat → α :=
  fun l => mem (base + vindex l * scale / 4)

/-- Modelled from the spec: `CommsLib::__m256_complex_cf32_mult` is not among the
sources.  Section 4.2 describes the pilot path as an elementwise multiply of the
FFT output by the reference pilot sign, so the call (made with flag `true`) is
taken to return, in each pair of lanes `(2m, 2m+1)`, the complex product of the
two samples held there.  The flag is passed through and not interpreted. -/
def CommsLib.__m256_complex_cf32_mult {α : Type} [Mul α] [Add α] [Sub α]
    (data1 data2 : Nat → α) (_conj : Bool) : Nat → α :=
  fun l =>
    let a : complex_float α := ⟨data1 (2 * (l / 2)), data1 (2 * (l / 2) + 1)⟩
    let b : complex_float α := ⟨data2 (2 * (l / 2)), data2 (2 * (l / 2) + 1)⟩
    if l % 2 = 0 then (a * b).re else (a * b).im

/-! ## Configuration and constants -/

/-- Subcarriers per cacheline.  `dofft.cpp` (l. 255-256): "load one cacheline =
16 float values = 8 subcarriers = kSCsPerCacheline". -/
def kSCsPerCacheline : Nat := 8

/-- Modelled from the spec: the flag `kUsePartialTrans` is declared outside the
sources; section 3 fixes the partially transposed layout
`data[sc_block*B_tr*A + ant*B_tr + sc_in_block]`, so the flag is on. -/
def kUsePartialTrans : Bool := true

/-- `static constexpr bool kUseSIMDGather = true;` (`dodemul.cc` l. 11). -/
def kUseSIMDGather : Bool := true

/-- The symbol classes `DoFFT::launch` dispatches on; `kUnknown` stands for every
other enumerator. -/
inductive SymbolType where
  | kPilot | kUL | kCalDL | kCalUL | kUnknown
deriving DecidableEq, Repr

/-- The fields of `Config` the kernels read.  `kTransposeBlockSize` (`B_tr`) is a
compile-time constant declared outside the sources and kept as a parameter here;
the accessors `BsAntNum()`, `OfdmDataNum()` of `dodemul.cc` read `BS_ANT_NUM`,
`OFDM_DATA_NUM`. -/
structure Config where
  kTransposeBlockSize : Nat
  OFDM_DATA_NUM : Nat
  OFDM_DATA_START : Nat
  BS_ANT_NUM : Nat
  DemulBlockSize : Nat
deriving DecidableEq, Repr

/-! ## `DoFFT::partial_transpose` (dofft.cpp l. 227-316) -/

/-- The body of the inner loop of `DoFFT::partial_transpose` for one cacheline
`(block_idx, sc_j)`: two 256-bit loads from `fft_inout`, the pilot multiply for
pilot symbols, two streaming stores to `out_buf` (the `#else` branch, AVX2). -/
def partial_transpose_cacheline {α : Type} [Mul α] [Add α] [Sub α] (cfg : Config)
    (pilots_sgn_ fft_inout : Nat → complex_float α) (out_buf : Nat → complex_float α)
    (ant_id : Nat) (symbol_type : SymbolType) (block_idx sc_j : Nat) :
    Nat → complex_float α :=
  let block_base_offset := block_idx * (cfg.kTransposeBlockSize * cfg.BS_ANT_NUM)
  let sc_idx := block_idx * cfg.kTransposeBlockSize + sc_j
  let src := sc_idx + cfg.OFDM_DATA_START
  let dst :=
    if symbol_type = SymbolType.kCalDL ∨ symbol_type = SymbolType.kCalUL then sc_idx
    else if kUsePartialTrans then
      block_base_offset + ant_id * cfg.kTransposeBlockSize + sc_j
    else cfg.OFDM_DATA_NUM * ant_id + sc_j + block_idx * cfg.kTransposeBlockSize
  let fft_result0 := _mm256_load_ps (asFloats fft_inout) (2 * src)
  let fft_result1 := _mm256_load_ps (asFloats fft_inout) (2 * (src + 4))
  let pilot_tx0 := _mm256_set_ps
    (pilots_sgn_ (sc_idx + 3)).im (pilots_sgn_ (sc_idx + 3)).re
    (pilots_sgn_ (sc_idx + 2)).im (pilots_sgn_ (sc_idx + 2)).re
    (pilots_sgn_ (sc_idx + 1)).im (pilots_sgn_ (sc_idx + 1)).re
    (pilots_sgn_ sc_idx).im (pilots_sgn_ sc_idx).re
  let pilot_tx1 := _mm256_set_ps
    (pilots_sgn_ (sc_idx + 7)).im (pilots_sgn_ (sc_idx + 7)).re
    (pilots_sgn_ (sc_idx + 6)).im (pilots_sgn_ (sc_idx + 6)).re
    (pilots_sgn_ (sc_idx + 5)).im (pilots_sgn_ (sc_idx + 5)).re
    (pilots_sgn_ (sc_idx + 4)).im (pilots_sgn_ (sc_idx + 4)).re
  let fft_result0 :=
    if symbol_type = SymbolType.kPilot then
      CommsLib.__m256_complex_cf32_mult fft_result0 pilot_tx0 true
    else fft_result0
  let fft_result1 :=
    if symbol_type = SymbolType.kPilot then
      CommsLib.__m256_complex_cf32_mult fft_result1 pilot_tx1 true
    else fft_result1
  ofFloats
    (_mm256_stream_ps (_mm256_stream_ps (asFloats out_buf) (2 * dst) fft_result0)
      (2 * (dst + 4)) fft_result1)

/-- `DoFFT::partial_transpose(out_buf, ant_id, symbol_type)`: the buffer `out_buf`
after the call, `fft_inout` being the FFT output of the packet. -/
def partial_transpose {α : Type} [Mul α] [Add α] [Sub α] (cfg : Config)
    (pilots_sgn_ fft_inout : Nat → complex_float α) (out_buf : Nat → complex_float α)
    (ant_id : Nat) (symbol_type : SymbolType) : Nat → complex_float α :=
  let num_blocks := cfg.OFDM_DATA_NUM / cfg.kTransposeBlockSize
  (List.range num_blocks).foldl
    (fun buf block_idx =>
      (loopSteps cfg.kTransposeBlockSize kSCsPerCacheline).foldl
        (fun buf sc_j =>
          partial_transpose_cacheline cfg pilots_sgn_ fft_inout buf ant_id symbol_type
            block_idx sc_j)
        buf)
    out_buf

/-! ## `DoDemul::Launch`, step 1: the gather (dodemul.cc l. 109-195) -/

/-- Antennas per SIMD gather: `kAntNumPerSimd` is 8 when the build defines
`__AVX512F__` and 4 otherwise (dodemul.cc l. 122-126). -/
def kAntNumPerSimd (avx512 : Bool) : Nat := if avx512 then 8 else 4

/-- The AVX2 gather index of `DoDemul::Launch` (dodemul.cc l. 164-167): the two
floats of the samples at sample offsets `0, B_tr, 2 B_tr, 3 B_tr`. -/
def Launch_index (cfg : Config) : Nat → Nat :=
  _mm256_setr_epi32
    0 1 (cfg.kTransposeBlockSize * 2) (cfg.kTransposeBlockSize * 2 + 1)
    (cfg.kTransposeBlockSize * 4) (cfg.kTransposeBlockSize * 4 + 1)
    (cfg.kTransposeBlockSize * 6) (cfg.kTransposeBlockSize * 6 + 1)

/-- The AVX-512 gather index of `DoDemul::Launch` (dodemul.cc l. 139-146). -/
def Launch_index512 (cfg : Config) : Nat → Nat :=
  _mm512_setr_epi32
    0 1 (cfg.kTransposeBlockSize * 2) (cfg.kTransposeBlockSize * 2 + 1)
    (cfg.kTransposeBlockSize * 4) (cfg.kTransposeBlockSize * 4 + 1)
    (cfg.kTransposeBlockSize * 6) (cfg.kTransposeBlockSize * 6 + 1)
    (cfg.kTransposeBlockSize * 8) (cfg.kTransposeBlockSize * 8 + 1)
    (cfg.kTransposeBlockSize * 10) (cfg.kTransposeBlockSize * 10 + 1)
    (cfg.kTransposeBlockSize * 12) (cfg.kTransposeBlockSize * 12 + 1)
    (cfg.kTransposeBlockSize * 14) (cfg.kTransposeBlockSize * 14 + 1)

/-- The body of the `j` loop of the SIMD gather (dodemul.cc l. 149-159 with
`__AVX512F__`, l. 170-175 without): one gather from the floats of `data_buf` at
`src`, one store to the floats `mem` of `data_gather_buffer_` at `dst`.  The
alignment assertions concern addresses and are not modelled. -/
def Launch_simd_gather_sc {α : Type} (cfg : Config) (avx512 : Bool)
    (data_buf : Nat → complex_float α) (src dst : Nat) (mem : Nat → α) (j : Nat) : Nat → α :=
  if avx512 then
    let data_rx :=
      if cfg.kTransposeBlockSize = 1 then
        _mm512_load_ps (asFloats data_buf) (src + j * cfg.BS_ANT_NUM * 2)
      else _mm512_i32gather_ps (asFloats data_buf) (Launch_index512 cfg) (src + j * 2) 4
    _mm512_store_ps mem (dst + j * cfg.BS_ANT_NUM * 2) data_rx
  else
    let data_rx := _mm256_i32gather_ps (asFloats data_buf) (src + j * 2) (Launch_index cfg) 4
    _mm256_store_ps mem (dst + j * cfg.BS_ANT_NUM * 2) data_rx

/-- The body of the `ant_i` loop of the SIMD gather: the `j` loop, then
`src += kAntNumPerSimd * kTransposeBlockSize * 2; dst += kAntNumPerSimd * 2`.
The loop state is the pair of float pointers `src`, `dst` (float offsets into
`data_buf` and `data_gather_buffer_`) and the floats of the gather buffer. -/
def Launch_simd_gather_ants {α : Type} (cfg : Config) (avx512 : Bool)
    (data_buf : Nat → complex_float α) (st : Nat × Nat × (Nat → α)) : Nat × Nat × (Nat → α) :=
  (st.1 + kAntNumPerSimd avx512 * cfg.kTransposeBlockSize * 2,
   st.2.1 + kAntNumPerSimd avx512 * 2,
   (List.range kSCsPerCacheline).foldl
     (fun mem j => Launch_simd_gather_sc cfg avx512 data_buf st.1 st.2.1 mem j) st.2.2)

/-- The SIMD branch of step 1 (dodemul.cc l. 131-179): `src` starts at sample
`cur_sc_offset` of `data_buf`, `dst` at the start of `data_gather_buffer_`. -/
def Launch_simd_gather {α : Type} (cfg : Config) (avx512 : Bool)
    (data_buf data_gather_buffer_ : Nat → complex_float α) (cur_sc_offset : Nat) :
    Nat → complex_float α :=
  let final :=
    (loopSteps cfg.BS_ANT_NUM (kAntNumPerSimd avx512)).foldl
      (fun (st : Nat × Nat × (Nat → α)) _ant_i => Launch_simd_gather_ants cfg avx512 data_buf st)
      (2 * cur_sc_offset, 0, asFloats data_gather_buffer_)
  ofFloats final.2.2

/-- The scalar branch of step 1 (dodemul.cc l. 183-195): `dst` starts at
`data_gather_buffer_ + ant_start` and advances by one sample per copy. -/
def Launch_scalar_gather {α : Type} (cfg : Config)
    (data_buf data_gather_buffer_ : Nat → complex_float α)
    (partial_transpose_block_base base_sc_id i ant_start : Nat) : Nat → complex_float α :=
  let final :=
    (List.range kSCsPerCacheline).foldl
      (fun (st : Nat × (Nat → complex_float α)) j =>
        (List.range' ant_start (cfg.BS_ANT_NUM - ant_start)).foldl
          (fun (st : Nat × (Nat → complex_float α)) ant_i =>
            (st.1 + 1,
             Function.update st.2 st.1
              (if kUsePartialTrans then
                data_buf (partial_transpose_block_base + ant_i * cfg.kTransposeBlockSize
                  + (base_sc_id + i + j) % cfg.kTransposeBlockSize)
               else data_buf (ant_i * cfg.OFDM_DATA_NUM + base_sc_id + i + j))))
          st)
      (ant_start, data_gather_buffer_)
  final.2

/-- Step 1 of one cacheline iteration `i` of `DoDemul::Launch`: the contents of
`data_gather_buffer_` after the gather. -/
def Launch_gather {α : Type} (cfg : Config) (avx512 : Bool)
    (data_buf data_gather_buffer_ : Nat → complex_float α) (base_sc_id i : Nat) :
    Nat → complex_float α :=
  let partial_transpose_block_base :=
    ((base_sc_id + i) / cfg.kTransposeBlockSize) * (cfg.kTransposeBlockSize * cfg.BS_ANT_NUM)
  let simd : Nat × (Nat → complex_float α) :=
    if kUseSIMDGather && kUsePartialTrans
        && (cfg.BS_ANT_NUM % kAntNumPerSimd avx512 == 0) then
      let cur_sc_offset :=
        partial_transpose_block_base + (base_sc_id + i) % cfg.kTransposeBlockSize
      (cfg.BS_ANT_NUM - cfg.BS_ANT_NUM % kAntNumPerSimd avx512,
       Launch_simd_gather cfg avx512 data_buf data_gather_buffer_ cur_sc_offset)
    else (0, data_gather_buffer_)
  let ant_start := simd.1
  if ant_start < cfg.BS_ANT_NUM then
    Launch_scalar_gather cfg data_buf simd.2 partial_transpose_block_base base_sc_id i
      ant_start
  else simd.2

/-- The data buffer of one uplink symbol after `DoFFT::launch` has handled the
packets of the antennas `ants`, in the order of the list, packet `a` having FFT
output `fft a` (dofft.cpp l. 188-190). -/
def fill_data_buffer {α : Type} [Mul α] [Add α] [Sub α] (cfg : Config)
    (pilots_sgn_ : Nat → complex_float α) (fft : Nat → Nat → complex_float α)
    (ants : List Nat) (data_buf : Nat → complex_float α) : Nat → complex_float α :=
  ants.foldl
    (fun buf ant_id => partial_transpose cfg pilots_sgn_ (fft ant_id) buf ant_id SymbolType.kUL)
    data_buf

/-- The CSI buffer of one pilot symbol after `DoFFT::launch` has handled the
packets of the antennas `ants`, in the order of the list (dofft.cpp l. 180-187). -/
def fill_csi_buffer {α : Type} [Mul α] [Add α] [Sub α] (cfg : Config)
    (pilots_sgn_ : Nat → complex_float α) (fft : Nat → Nat → complex_float α)
    (ants : List Nat) (csi_buf : Nat → complex_float α) : Nat → complex_float α :=
  ants.foldl
    (fun buf ant_id =>
      partial_transpose cfg pilots_sgn_ (fft ant_id) buf ant_id SymbolType.kPilot)
    csi_buf

/-! ## Expected contents of the buffers (used to state the results) -/

/-- The sample `partial_transpose` places at index `k` of its output buffer for
the packet with FFT output `fft`: subcarrier `(k / (B_tr*A)) * B_tr + k % B_tr` of
the data band, times its pilot sign for a pilot symbol. -/
def transposed_sample {α : Type} [Mul α] [Add α] [Sub α] (cfg : Config)
    (pilots_sgn_ fft : Nat → complex_float α) (st : SymbolType) (k : Nat) : complex_float α :=
  if st = SymbolType.kPilot then
    fft (k / (cfg.kTransposeBlockSize * cfg.BS_ANT_NUM) * cfg.kTransposeBlockSize
          + k % cfg.kTransposeBlockSize + cfg.OFDM_DATA_START)
      * pilots_sgn_ (k / (cfg.kTransposeBlockSize * cfg.BS_ANT_NUM) * cfg.kTransposeBlockSize
          + k % cfg.kTransposeBlockSize)
  else
    fft (k / (cfg.kTransposeBlockSize * cfg.BS_ANT_NUM) * cfg.kTransposeBlockSize
          + k % cfg.kTransposeBlockSize + cfg.OFDM_DATA_START)

/-- The index `k` lies in the eight samples stored by the cacheline
`(block, sc_j)` of antenna `ant`. -/
def cacheline_writes (cfg : Config) (ant block sc_j k : Nat) : Prop :=
  block * (cfg.kTransposeBlockSize * cfg.BS_ANT_NUM) + ant * cfg.kTransposeBlockSize + sc_j ≤ k ∧
    k < block * (cfg.kTransposeBlockSize * cfg.BS_ANT_NUM) + ant * cfg.kTransposeBlockSize
      + sc_j + 8

/-- The sample the scalar gather places at index `k` of `data_gather_buffer_`:
row `k / A` (subcarrier `base_sc_id + i + k / A`), column `k % A` (antenna). -/
def gathered_sample {α : Type} (cfg : Config) (data_buf : Nat → complex_float α)
    (base_sc_id i k : Nat) : complex_float α :=
  data_buf ((base_sc_id + i) / cfg.kTransposeBlockSize
      * (cfg.kTransposeBlockSize * cfg.BS_ANT_NUM)
    + k % cfg.BS_ANT_NUM * cfg.kTransposeBlockSize
    + (base_sc_id + i + k / cfg.BS_ANT_NUM) % cfg.kTransposeBlockSize)

/-! ## `DoDemul::Launch`: the block of subcarriers (dodemul.cc l. 105-109, 201-202) -/

/-- Subtraction of two `size_t` values: modulo `2^64`. -/
def size_t_sub (a b : Nat) : Nat := (a % 2 ^ 64 + 2 ^ 64 - b % 2 ^ 64) % 2 ^ 64

/-- The line `size_t max_sc_ite = std::min(cfg_->DemulBlockSize(),
cfg_->OfdmDataNum() - base_sc_id);`. -/
def max_sc_ite (cfg : Config) (base_sc_id : Nat) : Nat :=
  min cfg.DemulBlockSize (size_t_sub cfg.OFDM_DATA_NUM base_sc_id)

/-- The subcarriers `cur_sc_id = base_sc_id + i + j` that `DoDemul::Launch`
equalizes, in order; `none` when `assert(max_sc_ite % kSCsPerCacheline == 0)`
fails. -/
def Launch_cur_sc_ids (cfg : Config) (base_sc_id : Nat) : Option (List Nat) :=
  if max_sc_ite cfg base_sc_id % kSCsPerCacheline = 0 then
    some ((loopSteps (max_sc_ite cfg base_sc_id) kSCsPerCacheline).flatMap
      (fun i => (List.range kSCsPerCacheline).map (fun j => base_sc_id + i + j)))
  else none

/-! ## `compute_precoder` (test/benchmark/benchmark.cpp l. 269-291) -/

/-- Modelled from the spec: `rt_assert` is declared outside the sources; the spec
(section 4.2, "unknown symbol type is fatal") treats a failed `rt_assert` as
fatal, so `rt_assert(false)` ends the call with an error. -/
def rt_assert (condition : Bool) : Except String Unit :=
  if condition then Except.ok () else Except.error "rt_assert failed"

/-- Armadillo's `arma::inv_sympd` (a library routine, not repository code), in
exact arithmetic and on the Gram matrices `compute_precoder` hands to it: the
inverse when the matrix is invertible, `std::runtime_error` otherwise.  (A Gram
matrix `Hᴴ H` is positive definite exactly when it is invertible.) -/
def arma.inv_sympd {n : Nat} {K : Type} [Field K] [DecidableEq K]
    (M : Matrix (Fin n) (Fin n) K) : Except String (Matrix (Fin n) (Fin n) K) :=
  if M.det = 0 then Except.error "inv_sympd(): matrix is singular or not positive definite"
  else Except.ok (M.det⁻¹ • M.adjugate)

/-- What one call of `compute_precoder` leaves behind: the warnings logged with
`MLPD_WARN`, and either the exception that ends the call or the matrices written
to `_mat_ul_zf` and `_mat_dl_zf` on a normal return. -/
structure PrecoderRun (K : Type) (U A : Nat) where
  log : List String
  result : Except String (Matrix (Fin U) (Fin A) K × Matrix (Fin U) (Fin A) K)

/-- The function `compute_precoder(mat_csi, _mat_ul_zf, _mat_dl_zf)`.  `pinv` is
`arma::pinv(., ., 1e-2, "dc")` and `abs_max m` is `abs(m).max()`, both library
routines taken as parameters.  `mat_csi.t()` is the Hermitian transpose. -/
def compute_precoder {K : Type} [Field K] [StarRing K] [DecidableEq K] {A U : Nat}
    (pinv : Matrix (Fin A) (Fin U) K → Matrix (Fin U) (Fin A) K)
    (abs_max : Matrix (Fin U) (Fin A) K → K)
    (mat_csi : Matrix (Fin A) (Fin U) K) : PrecoderRun K U A :=
  let downlink := fun (mat_ul_zf : Matrix (Fin U) (Fin A) K) =>
    let mat_dl_zf := mat_ul_zf
    (mat_ul_zf, mat_dl_zf.map (fun x => x / abs_max mat_dl_zf))
  match arma.inv_sympd (mat_csi.conjTranspose * mat_csi) with
  | Except.ok inv => ⟨[], Except.ok (downlink (inv * mat_csi.conjTranspose))⟩
  | Except.error _ =>
    -- the handler: MLPD_WARN, rt_assert(false), arma::pinv
    ⟨["Failed to invert channel matrix, falling back to pinv()\n"],
      (rt_assert false).bind (fun _ => Except.ok (downlink (pinv mat_csi)))⟩

/-! ## `DoDemul::Launch`: phase tracking and EVM (dodemul.cc l. 235-290) -/

/-- The configuration values read by the phase-tracking step: the number of
spatial streams, `Frame().ClientUlPilotSymbols()` (`P_ul`) and the frame window
`kFrameWnd` (`W`, a compile-time constant declared outside the sources). -/
structure PhaseConfig where
  SpatialStreamsNum : Nat
  ClientUlPilotSymbols : Nat
  kFrameWnd : Nat
deriving DecidableEq, Repr

/-- One invocation `phy_stats_->UpdateEvm(frame_id, data_symbol_idx_ul, cur_sc_id,
mat_equaled.col(0), ue_list)`; `eq` lists the `SpatialStreamsNum` entries of the
vector passed. -/
structure EvmCall where
  frame_id : Nat
  data_symbol_idx_ul : Nat
  cur_sc_id : Nat
  eq : List ℂ
  ue_list : List Nat

/-- The state the phase-tracking step reads and writes: the table
`ue_spec_pilot_buffer_` (the PhaseBuffer: slot, then flat index `symbol * S +
stream`), the equalized vector `mat_equaled` of the current subcarrier, and the
`UpdateEvm` invocations made so far, oldest first. -/
structure PhaseState where
  ue_spec_pilot_buffer_ : Nat → Nat → ℂ
  mat_equaled : Nat → ℂ
  evm_calls : List EvmCall

/-- Armadillo's `arma::sign` on a complex number: `z / |z|`, and `0` at `0`. -/
noncomputable def arma.sign (z : ℂ) : ℂ := if z = 0 then 0 else z / (Complex.abs z : ℂ)

/-- `static_cast<int>` of a `size_t`: the low 32 bits, read as two's complement. -/
def static_cast_int (x : Nat) : Int :=
  if x % 2 ^ 32 < 2 ^ 31 then (x % 2 ^ 32 : Nat) else ((x % 2 ^ 32 : Nat) : Int) - 2 ^ 32

/-- `theta_mat = arg(pilot_corr_mat)`: entry `(s, k)` of the `S x P_ul`
column-major matrix laid over the PhaseBuffer slot of the frame. -/
noncomputable def theta_mat (cfg : PhaseConfig) (buf : Nat → Nat → ℂ) (frame_id : Nat)
    (s k : Nat) : ℝ :=
  Complex.arg (buf (frame_id % cfg.kFrameWnd) (k * cfg.SpatialStreamsNum + s))

/-- `theta_inc` after the loop `for (s = 1; s < ClientUlPilotSymbols(); s++)
theta_inc += theta_mat.col(s) - theta_mat.col(s - 1);` and the division by
`(float)std::max(1, static_cast<int>(ClientUlPilotSymbols() - 1))`. -/
noncomputable def theta_inc (cfg : PhaseConfig) (buf : Nat → Nat → ℂ) (frame_id : Nat)
    (s : Nat) : ℝ :=
  (List.range' 1 (cfg.ClientUlPilotSymbols - 1)).foldl
      (fun acc k => acc + (theta_mat cfg buf frame_id s k - theta_mat cfg buf frame_id s (k - 1)))
      0
    / ((max 1 (static_cast_int (size_t_sub cfg.ClientUlPilotSymbols 1)) : Int) : ℝ)

/-- The phase-tracking and EVM part of the body of the `j` loop of
`DoDemul::Launch` (l. 235-290, built without `TIME_EXCLUSIVE`) for one
subcarrier `cur_sc_id`, after `mat_equaled` has been computed.
`ue_pilot_data_ u sc` is entry `(u, sc)` of `ue_pilot_data_`; `ue_list s` is the
UE scheduled on stream `s`. -/
noncomputable def Launch_phase (cfg : PhaseConfig) (ue_pilot_data_ : Nat → Nat → ℂ)
    (ue_list : Nat → Nat) (frame_id symbol_idx_ul cur_sc_id : Nat) (st : PhaseState) :
    PhaseState :=
  if symbol_idx_ul < cfg.ClientUlPilotSymbols then
    -- Calc new phase shift
    let buf1 : Nat → Nat → ℂ :=
      if symbol_idx_ul = 0 ∧ cur_sc_id = 0 then
        -- Reset previous frame
        Function.update st.ue_spec_pilot_buffer_ (size_t_sub frame_id 1 % cfg.kFrameWnd)
          (fun n =>
            if n < cfg.SpatialStreamsNum * cfg.ClientUlPilotSymbols then 0
            else st.ue_spec_pilot_buffer_ (size_t_sub frame_id 1 % cfg.kFrameWnd) n)
      else st.ue_spec_pilot_buffer_
    let shift_sc : Nat → ℂ := fun s =>
      arma.sign (st.mat_equaled s
        * (starRingEnd ℂ) (ue_pilot_data_ (ue_list s) cur_sc_id))
    let buf2 : Nat → Nat → ℂ :=
      Function.update buf1 (frame_id % cfg.kFrameWnd)
        (fun n =>
          if symbol_idx_ul * cfg.SpatialStreamsNum ≤ n
              ∧ n < symbol_idx_ul * cfg.SpatialStreamsNum + cfg.SpatialStreamsNum then
            buf1 (frame_id % cfg.kFrameWnd) n
              + shift_sc (n - symbol_idx_ul * cfg.SpatialStreamsNum)
          else buf1 (frame_id % cfg.kFrameWnd) n)
    { st with ue_spec_pilot_buffer_ := buf2 }
  else if cfg.ClientUlPilotSymbols > 0 then
    -- apply previously calc'ed phase shift to data
    let cur_theta : Nat → ℝ := fun s =>
      theta_mat cfg st.ue_spec_pilot_buffer_ frame_id s 0
        + (symbol_idx_ul : ℝ) * theta_inc cfg st.ue_spec_pilot_buffer_ frame_id s
    let mat_phase_correct : Nat → ℂ := fun s =>
      ⟨Real.cos (-cur_theta s), Real.sin (-cur_theta s)⟩
    let mat_equaled : Nat → ℂ := fun s =>
      if s < cfg.SpatialStreamsNum then st.mat_equaled s * mat_phase_correct s
      else st.mat_equaled s
    let data_symbol_idx_ul := size_t_sub symbol_idx_ul cfg.ClientUlPilotSymbols
    -- Measure EVM from ground truth
    let evm_calls :=
      if symbol_idx_ul ≥ cfg.ClientUlPilotSymbols then
        st.evm_calls ++ [⟨frame_id, data_symbol_idx_ul, cur_sc_id,
          (List.range cfg.SpatialStreamsNum).map mat_equaled,
          (List.range cfg.SpatialStreamsNum).map ue_list⟩]
      else st.evm_calls
    { st with mat_equaled := mat_equaled, evm_calls := evm_calls }
  else st

/-! ## Concrete inputs used to instantiate the results -/

/-- A small configuration: `B_tr = 8`, `N_d = 16`, `DATA_START = 3`, `A = 4`,
`B_dem = 8`. -/
def exampleConfig : Config := ⟨8, 16, 3, 4, 8⟩

/-- As `exampleConfig`, with three antennas (not a multiple of `kAntNumPerSimd`). -/
def exampleConfig3 : Config := ⟨8, 16, 3, 3, 8⟩

/-- A configuration whose last demodulation block is clipped: `N_d = 40`,
`B_dem = 16`. -/
def exampleConfigClip : Config := ⟨8, 40, 3, 4, 16⟩

/-- FFT output of the packet of antenna `a`: sample `n` is `a + n i`. -/
def exampleFft (a n : Nat) : complex_float Int := ⟨a, n⟩

/-- Pilot signs: `+1` on even subcarriers, `-1` on odd ones. -/
def examplePilots (n : Nat) : complex_float Int := ⟨if n % 2 = 0 then 1 else -1, 0⟩

/-- A buffer holding `-1 - i` everywhere. -/
def exampleBuf (_ : Nat) : complex_float Int := ⟨-1, -1⟩

/-- A channel with one user and two antennas, `H = (1, 2)ᵀ`; `Hᴴ H = (5)`. -/
def exampleChannel : Matrix (Fin 2) (Fin 1) ℚ := fun i _ => if i = 0 then 1 else 2

/-- A rank-3 channel with four users and four antennas (scenario 3 of the spec):
the diagonal matrix `diag(1, 1, 1, 0)`. -/
def singularChannel : Matrix (Fin 4) (Fin 4) ℚ :=
  Matrix.diagonal (fun i => if i = 3 then 0 else 1)

/-- A configuration without uplink pilot symbols: `S = 1`, `P_ul = 0`, `W = 4`. -/
def exampleNoPilots : PhaseConfig := ⟨1, 0, 4⟩

/-- A configuration with two uplink pilot symbols: `S = 1`, `P_ul = 2`, `W = 4`. -/
def exampleTwoPilots : PhaseConfig := ⟨1, 2, 4⟩

/-- A state with an all-ones PhaseBuffer, equalized samples `1` and no EVM update
made yet. -/
noncomputable def examplePhaseState : PhaseState := ⟨fun _ _ => 1, fun _ => 1, []⟩

/-! ## The lazy reset seen on its own -/

/-- The PhaseBuffer after the lines "Reset previous frame" of the step
(dodemul.cc l. 238-246): when `symbol_idx_ul == 0 && cur_sc_id == 0`, the
`S x P_ul` matrix laid over slot `(frame_id - 1) % kFrameWnd` is filled with
zeros; otherwise nothing changes.  (Used to state what the pilot branch of
`Launch_phase` does; `Launch_phase` computes the same buffer first.) -/
noncomputable def Launch_phase_reset (cfg : PhaseConfig) (frame_id symbol_idx_ul cur_sc_id : Nat)
    (buf : Nat → Nat → ℂ) : Nat → Nat → ℂ :=
  if symbol_idx_ul = 0 ∧ cur_sc_id = 0 then
    Function.update buf (size_t_sub frame_id 1 % cfg.kFrameWnd)
      (fun n =>
        if n < cfg.SpatialStreamsNum * cfg.ClientUlPilotSymbols then 0
        else buf (size_t_sub frame_id 1 % cfg.kFrameWnd) n)
  else buf

/-- A configuration with one uplink pilot symbol: `S = 2`, `P_ul = 1`, `W = 4`. -/
def exampleOnePilot : PhaseConfig := ⟨2, 1, 4⟩

/-- A state with an all-zero PhaseBuffer, equalized samples `1 + i` and no EVM
update made yet. -/
noncomputable def exampleZeroPhaseState : PhaseState := ⟨fun _ _ => 0, fun _ => ⟨1, 1⟩, []⟩

/-! ## `PhyStats` (millipede/phy_stats.cpp) -/

/-- The configuration values `PhyStats` reads.  `TASK_BUFFER_FRAME_NUM` (the frame
window of the statistics buffers) is a compile-time constant declared outside the
sources and kept as a parameter. -/
structure PhyStatsConfig where
  UE_NUM : Nat
  UE_ANT_NUM : Nat
  OFDM_CA_NUM : Nat
  OFDM_DATA_NUM : Nat
  OFDM_DATA_START : Nat
  OFDM_DATA_STOP : Nat
  UL_PILOT_SYMS : Nat
  ul_data_symbol_num_perframe : Nat
  TASK_BUFFER_FRAME_NUM : Nat
deriving DecidableEq, Repr

/-- An Armadillo complex matrix `cx_fmat`: its dimensions and its entries
`at row col`. -/
structure cx_fmat where
  n_rows : Nat
  n_cols : Nat
  «at» : Nat → Nat → ℂ

/-- The member `ul_gt_mat` as the constructor `PhyStats::PhyStats` leaves it
(phy_stats.cpp l. 15-18): the `OFDM_CA_NUM x UE_ANT_NUM` column-major matrix laid
over `ul_iq_f[UL_PILOT_SYMS]`, transposed, restricted to the columns
`OFDM_DATA_START .. OFDM_DATA_STOP - 1` (for `OFDM_DATA_START < OFDM_DATA_STOP ≤
OFDM_CA_NUM`, as the configuration has it). -/
def PhyStats.ul_gt_mat (cfg : PhyStatsConfig) (ul_iq_f : Nat → Nat → ℂ) : cx_fmat :=
  ⟨cfg.UE_ANT_NUM, cfg.OFDM_DATA_STOP - cfg.OFDM_DATA_START,
    fun u sc => ul_iq_f cfg.UL_PILOT_SYMS (u * cfg.OFDM_CA_NUM + (cfg.OFDM_DATA_START + sc))⟩

/-- `PhyStats::update_evm_stats(frame_id, sc_id, eq)` (phy_stats.cpp l. 59-66): the
table `evm_buffer_` after the call, in exact arithmetic.  Armadillo checks the
column index and the dimensions of the operands of `-` and `+=` and throws
`std::logic_error` when they do not fit; `evm % evm` is the entrywise square of
`abs(eq - ul_gt_mat.col(sc_id))`. -/
noncomputable def PhyStats.update_evm_stats (cfg : PhyStatsConfig) (ul_gt_mat : cx_fmat)
    (evm_buffer_ : Nat → Nat → ℝ) (frame_id sc_id : Nat) (eq : cx_fmat) :
    Except String (Nat → Nat → ℝ) :=
  if ¬ sc_id < ul_gt_mat.n_cols then Except.error "Mat::col(): index out of bounds"
  else if ¬ (eq.n_rows = ul_gt_mat.n_rows ∧ eq.n_cols = 1) then
    Except.error "subtraction: incompatible matrix dimensions"
  else if ¬ cfg.UE_NUM = eq.n_rows then
    Except.error "addition: incompatible matrix dimensions"
  else
    let evm : Nat → ℝ := fun u => Complex.abs (eq.at u 0 - ul_gt_mat.at u sc_id)
    Except.ok
      (Function.update evm_buffer_ (frame_id % cfg.TASK_BUFFER_FRAME_NUM)
        (fun u =>
          if u < cfg.UE_NUM then
            evm_buffer_ (frame_id % cfg.TASK_BUFFER_FRAME_NUM) u + evm u * evm u
          else evm_buffer_ (frame_id % cfg.TASK_BUFFER_FRAME_NUM) u))

/-- A statistics configuration: two single-antenna users, `N_ca = 16`, data
subcarriers `[4, 12)`, one pilot symbol, window 4. -/
def examplePhyStatsConfig : PhyStatsConfig := ⟨2, 2, 16, 8, 4, 12, 1, 3, 4⟩

/-- A column vector with two entries, both `1`. -/
def exampleEq : cx_fmat := ⟨2, 1, fun _ _ => 1⟩

/-! ## `DoDemul::Launch`: placement of the demodulated output (dodemul.cc l. 323-327) -/

/-- Modelled from the spec: `Demodulate` is declared outside the sources.  Section
4.4, step E: it writes `M` values per subcarrier, so for `num` subcarriers it
fills `M * num` entries from `demod_ptr` on. -/
def Demodulate_count (num mod_order_bits : Nat) : Nat := mod_order_bits * num

/-- The offset `n` of `demod_buffers_[frame_slot][symbol_idx_ul][ss_id]` is written
by the work item `base_sc_id`: the launch passes
`assert(max_sc_ite % kSCsPerCacheline == 0)` (dodemul.cc l. 107; a launch that
fails it ends there and writes nothing), `demod_ptr` is the buffer plus
`ModOrderBits * base_sc_id`, and `Demodulate` is called on `max_sc_ite`
subcarriers. -/
def Launch_demod_writes (cfg : Config) (ModOrderBits base_sc_id n : Nat) : Prop :=
  max_sc_ite cfg base_sc_id % kSCsPerCacheline = 0 ∧
    ModOrderBits * base_sc_id ≤ n ∧
    n < ModOrderBits * base_sc_id + Demodulate_count (max_sc_ite cfg base_sc_id) ModOrderBits

/-- The work items of one uplink symbol: `base_sc_id = 0, B_dem, 2 B_dem, ...` below
`N_d` (one per step of `B_dem`; the loop of `main` in benchmark.cpp l. 589). -/
def demul_work_items (cfg : Config) : List Nat :=
  loopSteps cfg.OFDM_DATA_NUM cfg.DemulBlockSize

/-! ## `DoDemul::Launch`: the per-stream transpose (dodemul.cc l. 301-327) -/

/-- Where step 2 stores the equalized `S`-vector of subcarrier `cur_sc_id`
(dodemul.cc l. 205-215): the sample offset into `equal_buffer_[total_data_symbol_idx_ul]`
when `kExportConstellation` is set, into `equaled_buffer_temp_` otherwise.
(`cur_sc_id ≥ base_sc_id`, so the `size_t` difference does not wrap.) -/
def Launch_equal_offset (kExportConstellation : Bool) (SpatialStreamsNum base_sc_id
    cur_sc_id : Nat) : Nat :=
  if kExportConstellation then cur_sc_id * SpatialStreamsNum
  else (cur_sc_id - base_sc_id) * SpatialStreamsNum

/-- The gather index `index2` (dodemul.cc l. 301-304): the two floats of the
samples at sample offsets `0, S, 2 S, 3 S`. -/
def Launch_index2 (SpatialStreamsNum : Nat) : Nat → Nat :=
  _mm256_setr_epi32
    0 1 (SpatialStreamsNum * 2) (SpatialStreamsNum * 2 + 1)
    (SpatialStreamsNum * 4) (SpatialStreamsNum * 4 + 1)
    (SpatialStreamsNum * 6) (SpatialStreamsNum * 6 + 1)

/-- `size_t k_num_double_in_sim_d256 = sizeof(__m256) / sizeof(double);  // == 4`. -/
def k_num_double_in_sim_d256 : Nat := 4

/-- The transpose loop of stream `ss_id` (dodemul.cc l. 306-321): the contents of
`equaled_buffer_temp_transposed_` when `Demodulate` is called.  The loop state is
the pair of float pointers `equal_t_ptr` (offset into the transposed buffer) and
`equal_ptr` (offset into the buffer of equalized samples) and the floats of the
transposed buffer.  `kExportConstellation` is a compile-time flag declared
outside the sources and kept as a parameter; `equal_buffer_row` is
`equal_buffer_[total_data_symbol_idx_ul]`. -/
def Launch_transpose_stream {α : Type} (kExportConstellation : Bool) (SpatialStreamsNum : Nat)
    (equal_buffer_row equaled_buffer_temp_ equaled_buffer_temp_transposed_ :
      Nat → complex_float α)
    (base_sc_id max_sc_ite ss_id : Nat) : Nat → complex_float α :=
  let equal : Nat → complex_float α :=
    if kExportConstellation then equal_buffer_row else equaled_buffer_temp_
  let equal_ptr : Nat :=
    if kExportConstellation then 2 * (base_sc_id * SpatialStreamsNum + ss_id) else 2 * ss_id
  let final :=
    (List.range (max_sc_ite / k_num_double_in_sim_d256)).foldl
      (fun (st : Nat × Nat × (Nat → α)) _j =>
        let equal_t_temp :=
          _mm256_i32gather_ps (asFloats equal) st.2.1 (Launch_index2 SpatialStreamsNum) 4
        (st.1 + 8, st.2.1 + SpatialStreamsNum * k_num_double_in_sim_d256 * 2,
         _mm256_store_ps st.2.2 st.1 equal_t_temp))
      (0, equal_ptr, asFloats equaled_buffer_temp_transposed_)
  ofFloats final.2.2

/-- Equalized samples of a block with two streams: sample `n` is `n + 0 i`. -/
def exampleEqualized (n : Nat) : complex_float Int := ⟨n, 0⟩

/-! ## `Doer::TryLaunch` (doer.h l. 20-61) -/

/-- The event descriptor `EventData` (message.h, outside the sources): an event
type, the number of tags in use and the tag array `std::array<size_t, kMaxTags>`.
The array is a total map; its bound `kMaxTags` is checked by `array_at`. -/
structure EventData (ε : Type) where
  event_type_ : ε
  num_tags_ : Nat
  tags_ : Nat → Nat

/-- The constructor `EventData(event_type, tag)` used by the stage doers: one tag,
stored at index 0; the other array entries are those of `fill`. -/
def EventData.mk1 {ε : Type} (fill : Nat → Nat) (event_type : ε) (tag : Nat) : EventData ε :=
  ⟨event_type, 1, Function.update fill 0 tag⟩

/-- `std::array::at`: the element, or `std::out_of_range`. -/
def array_at (kMaxTags : Nat) (a : Nat → Nat) (i : Nat) : Except String Nat :=
  if i < kMaxTags then Except.ok (a i) else Except.error "std::out_of_range"

/-- `RtAssert(condition, msg)`: a failed assertion is fatal. -/
def RtAssert (condition : Bool) (msg : String) : Except String Unit :=
  if condition then Except.ok () else Except.error msg

/-- The loop body of `TryLaunch` over the tag indices still to be handled
(doer.h l. 43-51): read the request tag, call the virtual `Launch` (which may
change the doer's state `σ` and may be fatal), check `num_tags_ == 1`, store the
returned tag at index `i` of the response, check the event type. -/
def Doer.TryLaunch_loop {σ ε : Type} [DecidableEq ε] (kMaxTags : Nat)
    (Launch : σ → Nat → Except String (σ × EventData ε)) (req_event : EventData ε) :
    List Nat → σ → EventData ε → Except String (σ × EventData ε)
  | [], s, resp_event => Except.ok (s, resp_event)
  | i :: is, s, resp_event =>
    match array_at kMaxTags req_event.tags_ i with
    | Except.error e => Except.error e
    | Except.ok tag =>
      match Launch s tag with
      | Except.error e => Except.error e
      | Except.ok (s1, doer_comp) =>
        match RtAssert (decide (doer_comp.num_tags_ = 1)) "Invalid num_tags in resp" with
        | Except.error e => Except.error e
        | Except.ok _ =>
          match array_at kMaxTags doer_comp.tags_ 0 with
          | Except.error e => Except.error e
          | Except.ok t0 =>
            let resp1 : EventData ε :=
              ⟨resp_event.event_type_, resp_event.num_tags_,
                Function.update resp_event.tags_ i t0⟩
            match RtAssert (decide (resp1.event_type_ = doer_comp.event_type_))
                "Invalid event type in resp" with
            | Except.error e => Except.error e
            | Except.ok _ => Doer.TryLaunch_loop kMaxTags Launch req_event is s1 resp1

/-- Modelled from the spec: a queue of descriptors is a list, and `try_dequeue`
takes its head when there is one (the queue library is outside the sources). -/
def try_dequeue {ε : Type} (queue : List (EventData ε)) :
    Option (EventData ε × List (EventData ε)) :=
  match queue with
  | [] => none
  | event :: rest => some (event, rest)

/-- Modelled from the spec: `TryEnqueueFallback` appends the descriptor to the
queue (concurrent_queue_wrapper.h is outside the sources). -/
def TryEnqueueFallback {ε : Type} (queue : List (EventData ε)) (event : EventData ε) :
    List (EventData ε) :=
  queue ++ [event]

/-- `Doer::TryLaunch`.  `resp0` is the default-constructed `EventData`; the result
is the returned flag, the doer's state, the task queue and the completion
queue. -/
def Doer.TryLaunch {σ ε : Type} [DecidableEq ε] (kMaxTags : Nat) (resp0 : EventData ε)
    (Launch : σ → Nat → Except String (σ × EventData ε)) (s : σ)
    (task_queue complete_task_queue : List (EventData ε)) :
    Except String (Bool × σ × List (EventData ε) × List (EventData ε)) :=
  match try_dequeue task_queue with
  | some (req_event, rest) =>
    let resp_event : EventData ε := ⟨req_event.event_type_, req_event.num_tags_, resp0.tags_⟩
    match Doer.TryLaunch_loop kMaxTags Launch req_event (List.range req_event.num_tags_) s
        resp_event with
    | Except.error e => Except.error e
    | Except.ok (s1, resp) =>
      Except.ok (true, s1, rest, TryEnqueueFallback complete_task_queue resp)
  | none => Except.ok (false, s, task_queue, complete_task_queue)

/-- The calls `Launch(t)` for the tags `t` of a list, one after the other in list
order, with the completion each call returned. -/
def Doer.run_launches {σ ε : Type} (Launch : σ → Nat → Except String (σ × EventData ε)) :
    σ → List Nat → Except String (σ × List (EventData ε))
  | s, [] => Except.ok (s, [])
  | s, t :: ts =>
    match Launch s t with
    | Except.error e => Except.error e
    | Except.ok (s1, c) =>
      match Doer.run_launches Launch s1 ts with
      | Except.error e => Except.error e
      | Except.ok (s2, cs) => Except.ok (s2, c :: cs)

/-- A worker's sequence of `TryLaunch` calls.  Before each call the requests of
one entry of `arrivals` are added to the task queue (by the dispatcher).  The
result lists the flag each call returned. -/
def Doer.TryLaunch_seq {σ ε : Type} [DecidableEq ε] (kMaxTags : Nat) (resp0 : EventData ε)
    (Launch : σ → Nat → Except String (σ × EventData ε)) :
    List (List (EventData ε)) → σ → List (EventData ε) → List (EventData ε) →
      Except String (List Bool × σ × List (EventData ε) × List (EventData ε))
  | [], s, task_queue, complete_task_queue =>
    Except.ok ([], s, task_queue, complete_task_queue)
  | arrived :: later, s, task_queue, complete_task_queue =>
    match Doer.TryLaunch kMaxTags resp0 Launch s (task_queue ++ arrived) complete_task_queue with
    | Except.error e => Except.error e
    | Except.ok (b, s1, tq1, cq1) =>
      match Doer.TryLaunch_seq kMaxTags resp0 Launch later s1 tq1 cq1 with
      | Except.error e => Except.error e
      | Except.ok (bs, s2, tq2, cq2) => Except.ok (b :: bs, s2, tq2, cq2)

/-- The event types the stage doers of the sources use (`enum class EventType`,
message.h; its other members play no part here). -/
inductive EventType
  | kFFT
  | kDemul
  | kIFFT
  deriving DecidableEq, Repr

/-- A doer whose state is the log of the tags `Launch` was called with and whose
`Launch` answers tag `t` with a `kDemul` completion carrying `t + 100`. -/
def exampleLaunch (log : List Nat) (tag : Nat) : Except String (List Nat × EventData EventType) :=
  Except.ok (log ++ [tag], EventData.mk1 (fun _ => 0) EventType.kDemul (tag + 100))

/-- A request with two tags, `7` and `9`. -/
def exampleRequest : EventData EventType :=
  ⟨EventType.kDemul, 2, fun i => if i = 0 then 7 else if i = 1 then 9 else 0⟩

/-- The default-constructed descriptor of the examples. -/
def exampleResp0 : EventData EventType := ⟨EventType.kFFT, 0, fun _ => 0⟩

/-! ## `DoFFT::launch` (dofft.cpp l. 88-225) and the descriptors the doers return -/

/-- The tag words of message.h (outside the sources), kept as parameters: the
fields `tid` and `offset` of `fft_req_tag_t(tag)`, the word
`gen_tag_t::frm_sym(frame_id, symbol_id)._tag` and the field `sc_id_` of
`gen_tag_t(tag)`. -/
structure TagCodec where
  fft_req_tag_tid : Nat → Nat
  fft_req_tag_offset : Nat → Nat
  gen_tag_frm_sym : Nat → Nat → Nat
  gen_tag_sc_id : Nat → Nat

/-- The header of a received packet (`struct Packet`). -/
structure Packet where
  frame_id : Nat
  symbol_id : Nat
  ant_id : Nat
deriving DecidableEq, Repr

/-- The configuration `DoFFT::launch` reads besides the fields of `Config`.
`kFrameWnd` and `TX_FRAME_DELTA` are compile-time constants declared outside the
sources; `get_symbol_type`, `get_pilot_symbol_idx` are the schedule lookups of
`Config`, and `get_data_buf` gives the row of `data_buffer_` that
`cfg->get_data_buf(data_buffer_, frame_id, symbol_id)` points to. -/
structure DoFFTConfig extends Config where
  kFrameWnd : Nat
  TX_FRAME_DELTA : Nat
  ref_ant : Nat
  ant_per_group : Nat
  ant_group_num : Nat
  get_symbol_type : Nat → Nat → SymbolType
  get_pilot_symbol_idx : Nat → Nat → Nat
  get_data_buf : Nat → Nat → Nat

/-- The shared buffers `DoFFT::launch` writes: the status flags of the packet
slots, the data buffer (one row per uplink data symbol), the CSI buffers
`csi_buffers_[frame_slot][ue_id]` and the two calibration buffers (one row per
slot of the frame-group window). -/
structure DoFFTState (α : Type) where
  socket_buffer_status_ : Nat → Nat → Int
  data_buffer_ : Nat → Nat → complex_float α
  csi_buffers_ : Nat → Nat → Nat → complex_float α
  calib_dl_buffer_ : Nat → Nat → complex_float α
  calib_ul_buffer_ : Nat → Nat → complex_float α

/-- A routine that writes through the pointer `&row[off]`: it sees the row from
`off` on, and the row below `off` is out of its reach. -/
def at_offset {γ : Type} (row : Nat → γ) (off : Nat) (f : (Nat → γ) → (Nat → γ)) : Nat → γ :=
  fun n => if off ≤ n then f (fun m => row (off + m)) (n - off) else row n

/-- `rt_assert(condition, msg)` of dofft.cpp: a failed assertion is fatal and
reports `msg`. -/
def rt_assert_msg (condition : Bool) (msg : String) : Except String Unit :=
  if condition then Except.ok () else Except.error msg

/-- `DoFFT::launch`.  `socket_buffer_ tid offset` is the header of the packet in
slot `offset` of socket thread `tid`; `fft_inout_of pkt sym_type` is the content
of `fft_inout` after the sample conversion and the forward FFT (library
routines; the sample offset depends on the symbol type).  The dispatch on the
symbol type (l. 180-217) is followed by the reset of the slot's status flag and
the `kFFT` completion.  The unsigned divisions by `ant_per_group` and
`ant_group_num` end the call when the divisor is 0.  Timing statistics and the
optional SNR statistics (`kCollectPhyStats`) are not part of the state. -/
def DoFFT.launch {α : Type} [Mul α] [Add α] [Sub α] (cfg : DoFFTConfig) (codec : TagCodec)
    (pilots_sgn_ : Nat → complex_float α) (socket_buffer_ : Nat → Nat → Packet)
    (fft_inout_of : Packet → SymbolType → Nat → complex_float α) (fill : Nat → Nat)
    (st : DoFFTState α) (tag : Nat) : Except String (DoFFTState α × EventData EventType) :=
  let socket_thread_id := codec.fft_req_tag_tid tag
  let buf_offset := codec.fft_req_tag_offset tag
  let pkt := socket_buffer_ socket_thread_id buf_offset
  let frame_id := pkt.frame_id
  let frame_slot := frame_id % cfg.kFrameWnd
  let symbol_id := pkt.symbol_id
  let ant_id := pkt.ant_id
  let sym_type := cfg.get_symbol_type frame_id symbol_id
  let fft_inout := fft_inout_of pkt sym_type
  let dispatched : Except String (DoFFTState α) :=
    if sym_type = SymbolType.kPilot then
      let ue_id := cfg.get_pilot_symbol_idx frame_id symbol_id
      Except.ok { st with
        csi_buffers_ := Function.update st.csi_buffers_ frame_slot
          (Function.update (st.csi_buffers_ frame_slot) ue_id
            (partial_transpose cfg.toConfig pilots_sgn_ fft_inout
              (st.csi_buffers_ frame_slot ue_id) ant_id SymbolType.kPilot)) }
    else if sym_type = SymbolType.kUL then
      let row := cfg.get_data_buf frame_id symbol_id
      Except.ok { st with
        data_buffer_ := Function.update st.data_buffer_ row
          (partial_transpose cfg.toConfig pilots_sgn_ fft_inout (st.data_buffer_ row) ant_id
            SymbolType.kUL) }
    else if sym_type = SymbolType.kCalUL ∧ ant_id ≠ cfg.ref_ant then
      if cfg.TX_FRAME_DELTA ≤ frame_id then
        if cfg.ant_per_group = 0 ∨ cfg.ant_group_num = 0 then
          Except.error "division by zero"
        else if ant_id / cfg.ant_per_group
            = (frame_id - cfg.TX_FRAME_DELTA) % cfg.ant_group_num then
          let frame_grp_id := (frame_id - cfg.TX_FRAME_DELTA) / cfg.ant_group_num
          let frame_grp_slot := frame_grp_id % cfg.kFrameWnd
          Except.ok { st with
            calib_ul_buffer_ := Function.update st.calib_ul_buffer_ frame_grp_slot
              (at_offset (st.calib_ul_buffer_ frame_grp_slot) (ant_id * cfg.OFDM_DATA_NUM)
                (fun out_buf =>
                  partial_transpose cfg.toConfig pilots_sgn_ fft_inout out_buf ant_id sym_type)) }
        else Except.ok st
      else Except.ok st
    else if sym_type = SymbolType.kCalDL ∧ ant_id = cfg.ref_ant then
      if cfg.TX_FRAME_DELTA ≤ frame_id then
        if cfg.ant_group_num = 0 then Except.error "division by zero"
        else
          let frame_grp_id := (frame_id - cfg.TX_FRAME_DELTA) / cfg.ant_group_num
          let frame_grp_slot := frame_grp_id % cfg.kFrameWnd
          let cur_ant := frame_id - frame_grp_id * cfg.ant_group_num
          Except.ok { st with
            calib_dl_buffer_ := Function.update st.calib_dl_buffer_ frame_grp_slot
              (at_offset (st.calib_dl_buffer_ frame_grp_slot) (cur_ant * cfg.OFDM_DATA_NUM)
                (fun out_buf =>
                  partial_transpose cfg.toConfig pilots_sgn_ fft_inout out_buf ant_id sym_type)) }
      else Except.ok st
    else
      match rt_assert_msg false "Unknown or unsupported symbol type" with
      | Except.error e => Except.error e
      | Except.ok _ => Except.ok st
  match dispatched with
  | Except.error e => Except.error e
  | Except.ok st1 =>
    Except.ok
      ({ st1 with
          socket_buffer_status_ := Function.update st1.socket_buffer_status_ socket_thread_id
            (Function.update (st1.socket_buffer_status_ socket_thread_id) buf_offset 0) },
        EventData.mk1 fill EventType.kFFT (codec.gen_tag_frm_sym pkt.frame_id pkt.symbol_id))

/-- The dispatch of `DoFFT::launch` has a branch for a packet of symbol type
`sym_type` from antenna `ant_id` (dofft.cpp l. 180-214). -/
def DoFFT.supported (cfg : DoFFTConfig) (sym_type : SymbolType) (ant_id : Nat) : Prop :=
  sym_type = SymbolType.kPilot ∨ sym_type = SymbolType.kUL ∨
  (sym_type = SymbolType.kCalUL ∧ ant_id ≠ cfg.ref_ant) ∨
  (sym_type = SymbolType.kCalDL ∧ ant_id = cfg.ref_ant)

/-- The descriptor `DoDemul::Launch(tag)` returns (dodemul.cc l. 84-87, 105-107,
366): `base_sc_id` is decoded from the tag, the call ends at its assertion when
`max_sc_ite` is not a multiple of `kSCsPerCacheline`, and otherwise returns
`EventData(EventType::kDemul, tag)`.  (What the call writes to the buffers is the
subject of `Launch_gather`, `Launch_phase` and `Launch_transpose_stream`.) -/
def DoDemul.Launch_event (cfg : Config) (codec : TagCodec) (fill : Nat → Nat) (tag : Nat) :
    Except String (EventData EventType) :=
  let base_sc_id := codec.gen_tag_sc_id tag
  if max_sc_ite cfg base_sc_id % kSCsPerCacheline = 0 then
    Except.ok (EventData.mk1 fill EventType.kDemul tag)
  else Except.error "assert(max_sc_ite % kSCsPerCacheline == 0)"

/-- The descriptor `DoIFFT::launch(tag)` returns (dofft.cpp l. 342-347, 428):
`Event_data(EventType::kIFFT, tag)`; the call has no failing path. -/
def DoIFFT.launch_event (fill : Nat → Nat) (tag : Nat) : EventData EventType :=
  EventData.mk1 fill EventType.kIFFT tag

/-- A configuration for `DoFFT::launch`: window 4, `TX_FRAME_DELTA = 2`, reference
antenna 0, two groups of two antennas; symbol 0 is the pilot, symbol 1 uplink
data, symbol 2 uplink calibration, symbol 3 downlink calibration. -/
def exampleDoFFTConfig : DoFFTConfig :=
  { toConfig := exampleConfig, kFrameWnd := 4, TX_FRAME_DELTA := 2, ref_ant := 0,
    ant_per_group := 2, ant_group_num := 2,
    get_symbol_type := fun _ symbol_id =>
      if symbol_id = 0 then SymbolType.kPilot else if symbol_id = 1 then SymbolType.kUL
      else if symbol_id = 2 then SymbolType.kCalUL else if symbol_id = 3 then SymbolType.kCalDL
      else SymbolType.kUnknown,
    get_pilot_symbol_idx := fun _ _ => 0,
    get_data_buf := fun frame_id _ => frame_id % 4 }

/-- As `exampleConfig`, with `DATA_START = 4`: the loads of `partial_transpose`
from `fft_inout` at `sc_idx + DATA_START` are then at multiples of four samples
(32 bytes). -/
def exampleAlignedConfig : Config := ⟨8, 16, 4, 4, 8⟩

/-- As `exampleDoFFTConfig`, over `exampleAlignedConfig`. -/
def exampleAlignedDoFFTConfig : DoFFTConfig :=
  { toConfig := exampleAlignedConfig, kFrameWnd := 4, TX_FRAME_DELTA := 2, ref_ant := 0,
    ant_per_group := 2, ant_group_num := 2,
    get_symbol_type := fun _ symbol_id =>
      if symbol_id = 0 then SymbolType.kPilot else if symbol_id = 1 then SymbolType.kUL
      else if symbol_id = 2 then SymbolType.kCalUL else if symbol_id = 3 then SymbolType.kCalDL
      else SymbolType.kUnknown,
    get_pilot_symbol_idx := fun _ _ => 0,
    get_data_buf := fun frame_id _ => frame_id % 4 }

/-- Tag words of the examples: a request tag is `16 * offset + tid`, a completion
tag `frm_sym` is `1000 * frame_id + symbol_id`. -/
def exampleCodec : TagCodec :=
  ⟨fun tag => tag % 16, fun tag => tag / 16, fun f s => 1000 * f + s, fun tag => tag % 1000⟩

/-- Buffers of the examples: every flag is 1, every sample `-1 - i`. -/
def exampleDoFFTState : DoFFTState Int :=
  ⟨fun _ _ => 1, fun _ => exampleBuf, fun _ _ => exampleBuf, fun _ => exampleBuf,
    fun _ => exampleBuf⟩

/-- A socket buffer in which every slot holds the uplink-calibration packet of
frame 5 from the reference antenna. -/
def exampleCalULSocket (_ _ : Nat) : Packet := ⟨5, 2, 0⟩

/-- A socket buffer in which every slot holds the pilot packet of frame `f` from
antenna 1. -/
def examplePilotSocket (f : Nat) (_ _ : Nat) : Packet := ⟨f, 0, 1⟩

/-- A socket buffer in which every slot holds the uplink-calibration packet of
frame 1 (a frame before `TX_FRAME_DELTA`) from antenna 1. -/
def exampleSkippedSocket (_ _ : Nat) : Packet := ⟨1, 2, 1⟩

/-! ## The shared locations a `DoDemul::Launch` work item writes -/

/-- Offset `n` of `equal_buffer_[total_data_symbol_idx_ul]` is written by the work
item `base_sc_id` (build with `kExportConstellation`): step 2 stores the `S`
equalized samples of every subcarrier `cur_sc_id` of the block at
`cur_sc_id * S`, and the phase correction rescales them in place. -/
def Launch_equal_writes (cfg : Config) (SpatialStreamsNum base_sc_id n : Nat) : Prop :=
  ∃ ids, Launch_cur_sc_ids cfg base_sc_id = some ids ∧
    ∃ sc ∈ ids, ∃ s, s < SpatialStreamsNum ∧
      n = Launch_equal_offset true SpatialStreamsNum base_sc_id sc + s

/-- Entry `(slot, n)` of the PhaseBuffer is written by the phase-tracking step of
subcarrier `cur_sc_id`: there is a state in which the step changes it. -/
def Launch_phase_writes (cfg : PhaseConfig) (ue_pilot_data_ : Nat → Nat → ℂ)
    (ue_list : Nat → Nat) (frame_id symbol_idx_ul cur_sc_id slot n : Nat) : Prop :=
  ∃ st : PhaseState,
    (Launch_phase cfg ue_pilot_data_ ue_list frame_id symbol_idx_ul cur_sc_id
        st).ue_spec_pilot_buffer_ slot n ≠ st.ue_spec_pilot_buffer_ slot n

/-- Entry `(slot, n)` of the PhaseBuffer is written by the work item
`base_sc_id`: by the phase-tracking step of one of its subcarriers. -/
def Launch_item_phase_writes (cfg : Config) (pcfg : PhaseConfig)
    (ue_pilot_data_ : Nat → Nat → ℂ) (ue_list : Nat → Nat)
    (frame_id symbol_idx_ul base_sc_id slot n : Nat) : Prop :=
  ∃ ids, Launch_cur_sc_ids cfg base_sc_id = some ids ∧
    ∃ sc ∈ ids, Launch_phase_writes pcfg ue_pilot_data_ ue_list frame_id symbol_idx_ul sc slot n

/-- Entry `(slot, u)` of `evm_buffer_` is written by an EVM update of frame
`frame_id` for subcarrier `sc_id`: some call `update_evm_stats(frame_id, sc_id,
eq)` returns and changes it. -/
def update_evm_writes (cfg : PhyStatsConfig) (ul_gt_mat : cx_fmat)
    (frame_id sc_id slot u : Nat) : Prop :=
  ∃ (evm_buffer_ : Nat → Nat → ℝ) (eq : cx_fmat) (evm' : Nat → Nat → ℝ),
    PhyStats.update_evm_stats cfg ul_gt_mat evm_buffer_ frame_id sc_id eq = Except.ok evm' ∧
    evm' slot u ≠ evm_buffer_ slot u

/-- Entry `(slot, u)` of `evm_buffer_` is written by the work item `base_sc_id` of
an uplink data symbol (`P_ul > 0`, `sym_idx_ul ≥ P_ul`): by the EVM update the
item makes for one of its subcarriers (dodemul.cc l. 283-288, with the EVM
update of phy_stats.cpp). -/
def Launch_item_evm_writes (cfg : Config) (pcfg : PhaseConfig) (scfg : PhyStatsConfig)
    (ul_gt_mat : cx_fmat) (frame_id symbol_idx_ul base_sc_id slot u : Nat) : Prop :=
  0 < pcfg.ClientUlPilotSymbols ∧ pcfg.ClientUlPilotSymbols ≤ symbol_idx_ul ∧
  ∃ ids, Launch_cur_sc_ids cfg base_sc_id = some ids ∧
    ∃ sc ∈ ids, update_evm_writes scfg ul_gt_mat frame_id sc slot u

/-! ## The scheduler's ring of frame slots (spec, sections 3 and 5) -/

/-- Modelled from the spec: the scheduler is not among the sources.  Its events on
the ring of frame slots are the admission of a new frame (which acquires slot
`frame mod W`) and the retirement of a frame ("retire the frame, free its ring
slot"). -/
inductive SchedEvent where
  | acquire (frame_id : Nat)
  | retire (frame_id : Nat)
deriving DecidableEq, Repr

/-- Modelled from the spec: one step of the scheduler on the FrameState ring,
which records for each slot the frame occupying it (`none` when retired).  "The
scheduler must refuse to admit a new frame whose slot is not retired": an
admission is taken only when slot `frame mod W` is retired; a frame is retired
only while it occupies its slot.  `none` means the event is refused. -/
def Scheduler.step (W : Nat) (ring : Nat → Option Nat) :
    SchedEvent → Option (Nat → Option Nat)
  | SchedEvent.acquire frame_id =>
    if ring (frame_id % W) = none then
      some (Function.update ring (frame_id % W) (some frame_id))
    else none
  | SchedEvent.retire frame_id =>
    if ring (frame_id % W) = some frame_id then
      some (Function.update ring (frame_id % W) none)
    else none

/-- Modelled from the spec: an execution of the scheduler is a sequence of events
each of which is taken; `none` when one of them is refused. -/
def Scheduler.run (W : Nat) : (Nat → Option Nat) → List SchedEvent → Option (Nat → Option Nat)
  | ring, [] => some ring
  | ring, e :: es =>
    match Scheduler.step W ring e with
    | none => none
    | some ring1 => Scheduler.run W ring1 es

/-! ## `partial_transposeGather` (test/benchmark/benchmark.cpp l. 226-267) -/

/-- `_mm256_storeu_ps(p, v)`: the store without alignment requirement. -/
def _mm256_storeu_ps {α : Type} (mem : Nat → α) (p : Nat) (v : Nat → α) : Nat → α :=
  _mm256_store_ps mem p v

/-- The assignment `*cx_dst = v` of one sample through a `complex_float*` at float
offset `p`. -/
def write_complex_float {α : Type} (mem : Nat → α) (p : Nat) (v : complex_float α) : Nat → α :=
  fun n => if n = p then v.re else if n = p + 1 then v.im else mem n

/-- `partial_transposeGather(cur_sc_id, src, dst, bs_ant_num)`.  `src` is the
sample array the parameter `src` points to on entry and `dst` the sample array
the reference parameter `dst` points to on entry; pointers are float offsets
into these.  The result is the final value of the reference parameter `dst` and
the memory at the destination.  `kTransposeBlockSize` is a field of `cfg`.
The SIMD branch advances `src` and `dst`; the scalar branch then takes
`cx_src = (complex_float*)src` and `cx_dst = (complex_float*)dst + ant_start`
from the pointers as they are at that point. -/
def partial_transposeGather {α : Type} (cfg : Config) (cur_sc_id : Nat)
    (src dst : Nat → complex_float α) (bs_ant_num : Nat) : Nat × (Nat → complex_float α) :=
  -- ant_start, src, dst, floats at the destination
  let simd : Nat × Nat × Nat × (Nat → α) :=
    if bs_ant_num ≥ 4 then
      let index := _mm256_setr_epi32 0 1 (cfg.kTransposeBlockSize * 2)
        (cfg.kTransposeBlockSize * 2 + 1) (cfg.kTransposeBlockSize * 4)
        (cfg.kTransposeBlockSize * 4 + 1) (cfg.kTransposeBlockSize * 6)
        (cfg.kTransposeBlockSize * 6 + 1)
      let transpose_block_id := cur_sc_id / cfg.kTransposeBlockSize
      let sc_inblock_idx := cur_sc_id % cfg.kTransposeBlockSize
      let offset_in_src_buffer :=
        transpose_block_id * bs_ant_num * cfg.kTransposeBlockSize + sc_inblock_idx
      let final :=
        (loopSteps bs_ant_num 4).foldl
          (fun (st : Nat × Nat × (Nat → α)) _ant_idx =>
            -- fetch 4 complex floats for 4 ants
            let t := _mm256_i32gather_ps (asFloats src) st.1 index 4
            (st.1 + 8 * cfg.kTransposeBlockSize, st.2.1 + 8,
             _mm256_storeu_ps st.2.2 st.2.1 t))
          (offset_in_src_buffer * 2, 0, asFloats dst)
      (bs_ant_num / 4 * 4, final)
    else (0, 0, 0, asFloats dst)
  let ant_start := simd.1
  let src_ptr := simd.2.1
  let dst_ptr := simd.2.2.1
  if ant_start < bs_ant_num then
    let pt_base_offset :=
      (cur_sc_id / cfg.kTransposeBlockSize) * (cfg.kTransposeBlockSize * bs_ant_num)
    let cx_src : Nat → complex_float α := fun k =>
      ⟨asFloats src (src_ptr + 2 * k), asFloats src (src_ptr + 2 * k + 1)⟩
    let final :=
      (List.range' ant_start (bs_ant_num - ant_start)).foldl
        (fun (st : Nat × (Nat → α)) ant_i =>
          (st.1 + 2,
           write_complex_float st.2 st.1
            (cx_src (pt_base_offset + ant_i * cfg.kTransposeBlockSize
              + cur_sc_id % cfg.kTransposeBlockSize))))
        (dst_ptr + 2 * ant_start, simd.2.2.2)
    (dst_ptr, ofFloats final.2)
  else (dst_ptr, ofFloats simd.2.2.2)

/-- The all-scalar gather of the same routine (its scalar branch run from
`ant_start = 0` on the pointers as passed): the reference the comment "The SIMD
and non-SIMD methods are equivalent" compares with. -/
def partial_transposeGather_scalar {α : Type} (cfg : Config) (cur_sc_id : Nat)
    (src dst : Nat → complex_float α) (bs_ant_num : Nat) : Nat → complex_float α :=
  let pt_base_offset :=
    (cur_sc_id / cfg.kTransposeBlockSize) * (cfg.kTransposeBlockSize * bs_ant_num)
  let final :=
    (List.range' 0 bs_ant_num).foldl
      (fun (st : Nat × (Nat → complex_float α)) ant_i =>
        (st.1 + 1,
         Function.update st.2 st.1
          (src (pt_base_offset + ant_i * cfg.kTransposeBlockSize
            + cur_sc_id % cfg.kTransposeBlockSize))))
      (0, dst)
  final.2

/-! ## The partially transposed index map -/

/-- The offset in `out_buf` at which `DoFFT::partial_transpose` stores subcarrier
`j` of block `block_idx` for antenna `ant_id` (dofft.cpp l. 244-252:
`block_base_offset + ant_id * kTransposeBlockSize + sc_j`, with
`block_base_offset = block_idx * (kTransposeBlockSize * BS_ANT_NUM)`, plus the
position within the cacheline). -/
def partial_transpose_dst (cfg : Config) (block_idx ant_id j : Nat) : Nat :=
  block_idx * (cfg.kTransposeBlockSize * cfg.BS_ANT_NUM) + ant_id * cfg.kTransposeBlockSize + j

/-! ## `PhyStats::update_bit_errors` (millipede/phy_stats.cpp l. 68-78) -/

/-- The local `bit_errors` after the loop of `update_bit_errors`:
`uint8_t xor_byte(tx_byte ^ rx_byte)`, then eight times
`bit_errors += xor_byte & 1; xor_byte >>= 1;` (`xor_byte` is narrowed to 8 bits at
each assignment). -/
def PhyStats.bit_errors (tx_byte rx_byte : Nat) : Nat :=
  let xor_byte := (tx_byte ^^^ rx_byte) % 2 ^ 8
  ((List.range 8).foldl
    (fun (st : Nat × Nat) _j => (st.1 + (st.2 &&& 1), (st.2 >>> 1) % 2 ^ 8))
    (0, xor_byte)).1

/-- `PhyStats::update_bit_errors(ue_id, offset, tx_byte, rx_byte)`: the table
`bit_error_count_` (of `size_t` counters) after the call. -/
def PhyStats.update_bit_errors (bit_error_count_ : Nat → Nat → Nat)
    (ue_id offset tx_byte rx_byte : Nat) : Nat → Nat → Nat :=
  Function.update bit_error_count_ ue_id
    (Function.update (bit_error_count_ ue_id) offset
      ((bit_error_count_ ue_id offset + PhyStats.bit_errors tx_byte rx_byte) % 2 ^ 64))

/-- The number of set bits of a byte. -/
def popcount8 (x : Nat) : Nat := (List.range 8).countP (fun j => x.testBit j)

/-- The Hamming distance of two bytes: the number of bit positions `0 .. 7` in
which they differ. -/
def hamming_distance8 (a b : Nat) : Nat :=
  (List.range 8).countP (fun j => a.testBit j != b.testBit j)

/-! ## `DoIFFT::launch`: staging of the IFFT input (dofft.cpp l. 363-388) -/

/-- The configuration values the staging reads. -/
structure IFFTConfig where
  OFDM_CA_NUM : Nat
  OFDM_DATA_NUM : Nat
  OFDM_DATA_START : Nat
  OFDM_DATA_STOP : Nat
deriving DecidableEq, Repr

/-- The flag `static constexpr bool kUseOutOfPlaceIFFT = false;` (dofft.cpp l. 10). -/
def kUseOutOfPlaceIFFT : Bool := false

/-- The flag `static constexpr bool kMemcpyBeforeIFFT = true;` (dofft.cpp l. 11). -/
def kMemcpyBeforeIFFT : Bool := true

/-- `std::memset(mem + p, 0, sizeof(float) * n)` on a float array: the `n` floats
from `p` on become `0`. -/
def memset_zero {α : Type} [Zero α] (mem : Nat → α) (p n : Nat) : Nat → α :=
  fun i => if p ≤ i ∧ i < p + n then 0 else mem i

/-- `std::memcpy(dst + dp, src + sp, sizeof(float) * n)` between two float arrays. -/
def memcpy {α : Type} (dst : Nat → α) (dp : Nat) (src : Nat → α) (sp n : Nat) : Nat → α :=
  fun i => if dp ≤ i ∧ i < dp + n then src (sp + (i - dp)) else dst i

/-- The staging part of `DoIFFT::launch`, up to the call of `DftiComputeBackward`.
`ifft_in` are the floats of `dl_ifft_buffer_[offset]` and `ifft_out` those of the
member `ifft_out`.  The result is the two arrays after the staging and the array
the inverse FFT takes as its input. -/
def DoIFFT.launch_staging {α : Type} [Zero α] (cfg : IFFTConfig) (ifft_in ifft_out : Nat → α) :
    (Nat → α) × (Nat → α) × (Nat → α) :=
  if kMemcpyBeforeIFFT then
    let out1 := memset_zero ifft_out 0 (cfg.OFDM_DATA_START * 2)
    let out2 := memset_zero out1 (cfg.OFDM_DATA_STOP * 2) (cfg.OFDM_DATA_START * 2)
    let out3 := memcpy out2 (cfg.OFDM_DATA_START * 2) ifft_in (cfg.OFDM_DATA_START * 2)
      (cfg.OFDM_DATA_NUM * 2)
    (ifft_in, out3, out3)
  else if kUseOutOfPlaceIFFT then
    (ifft_in, ifft_out, ifft_in)
  else
    let in1 := memset_zero ifft_in 0 (cfg.OFDM_DATA_START * 2)
    let in2 := memset_zero in1 (cfg.OFDM_DATA_STOP * 2) (cfg.OFDM_DATA_START * 2)
    (in2, ifft_out, in2)

/-- A downlink configuration: `N_ca = 16`, data subcarriers `[4, 12)`. -/
def exampleIFFTConfig : IFFTConfig := ⟨16, 8, 4, 12⟩

/-! ## `PhyStats::print_evm_stats` (millipede/phy_stats.cpp l. 47-57) -/

/-- `PhyStats::print_evm_stats(frame_id)`, in exact arithmetic: the table
`evm_buffer_` after the call and the numbers printed (`100 * evm_mat.st()` and
`-10 * log10(evm_mat.st())`).  `evm_mat` is laid over the row
`evm_buffer_[frame_id % TASK_BUFFER_FRAME_NUM]` without a copy
(`copy_aux_mem = false`), so the assignment
`evm_mat = sqrt(evm_mat) / config_->OFDM_DATA_NUM` stores into the table. -/
noncomputable def PhyStats.print_evm_stats (cfg : PhyStatsConfig)
    (evm_buffer_ : Nat → Nat → ℝ) (frame_id : Nat) :
    (Nat → Nat → ℝ) × List ℝ × List ℝ :=
  let slot := frame_id % cfg.TASK_BUFFER_FRAME_NUM
  let evm_mat : Nat → ℝ := fun u => Real.sqrt (evm_buffer_ slot u) / (cfg.OFDM_DATA_NUM : ℝ)
  (Function.update evm_buffer_ slot
      (fun u => if u < cfg.UE_NUM then evm_mat u else evm_buffer_ slot u),
    (List.range cfg.UE_NUM).map (fun u => 100 * evm_mat u),
    (List.range cfg.UE_NUM).map (fun u => -10 * Real.logb 10 (evm_mat u)))

/-! # Theorems -/

/-! ## Float views and registers -/

theorem ofFloats_asFloats {α : Type} (buf : Nat → complex_float α) :
    ofFloats (asFloats buf) = buf := by
  funext k
  have h1 : (2 * k) % 2 = 0 := by omega
  have h2 : (2 * k + 1) % 2 = 1 := by omega
  have h3 : (2 * k) / 2 = k := by omega
  have h4 : (2 * k + 1) / 2 = k := by omega
  simp [ofFloats, asFloats, h1, h2, h3, h4]

theorem asFloats_even {α : Type} (buf : Nat → complex_float α) (k : Nat) :
    asFloats buf (2 * k) = (buf k).re := by
  have h1 : (2 * k) % 2 = 0 := by omega
  have h3 : (2 * k) / 2 = k := by omega
  simp [asFloats, h1, h3]

theorem asFloats_odd {α : Type} (buf : Nat → complex_float α) (k : Nat) :
    asFloats buf (2 * k + 1) = (buf k).im := by
  have h2 : (2 * k + 1) % 2 = 1 := by omega
  have h4 : (2 * k + 1) / 2 = k := by omega
  simp [asFloats, h2, h4]

/-- A 256-bit store at an even float offset writes four whole samples. -/
theorem ofFloats_mm256_store {α : Type} (mem : Nat → α) (d : Nat) (v : Nat → α) (k : Nat) :
    ofFloats (_mm256_store_ps mem (2 * d) v) k =
      if d ≤ k ∧ k < d + 4 then ⟨v (2 * (k - d)), v (2 * (k - d) + 1)⟩ else ofFloats mem k := by
  by_cases h : d ≤ k ∧ k < d + 4
  · have h1 : 2 * d ≤ 2 * k ∧ 2 * k < 2 * d + 8 := by omega
    have h2 : 2 * d ≤ 2 * k + 1 ∧ 2 * k + 1 < 2 * d + 8 := by omega
    have h3 : 2 * k - 2 * d = 2 * (k - d) := by omega
    have h4 : 2 * k + 1 - 2 * d = 2 * (k - d) + 1 := by omega
    simp only [ofFloats, _mm256_store_ps]
    rw [if_pos h1, if_pos h2, if_pos h, h3, h4]
  · have h1 : ¬ (2 * d ≤ 2 * k ∧ 2 * k < 2 * d + 8) := by omega
    have h2 : ¬ (2 * d ≤ 2 * k + 1 ∧ 2 * k + 1 < 2 * d + 8) := by omega
    simp only [ofFloats, _mm256_store_ps]
    rw [if_neg h1, if_neg h2, if_neg h]

/-- A 512-bit store at an even float offset writes eight whole samples. -/
theorem ofFloats_mm512_store {α : Type} (mem : Nat → α) (d : Nat) (v : Nat → α) (k : Nat) :
    ofFloats (_mm512_store_ps mem (2 * d) v) k =
      if d ≤ k ∧ k < d + 8 then ⟨v (2 * (k - d)), v (2 * (k - d) + 1)⟩ else ofFloats mem k := by
  by_cases h : d ≤ k ∧ k < d + 8
  · have h1 : 2 * d ≤ 2 * k ∧ 2 * k < 2 * d + 16 := by omega
    have h2 : 2 * d ≤ 2 * k + 1 ∧ 2 * k + 1 < 2 * d + 16 := by omega
    have h3 : 2 * k - 2 * d = 2 * (k - d) := by omega
    have h4 : 2 * k + 1 - 2 * d = 2 * (k - d) + 1 := by omega
    simp only [ofFloats, _mm512_store_ps]
    rw [if_pos h1, if_pos h2, if_pos h, h3, h4]
  · have h1 : ¬ (2 * d ≤ 2 * k ∧ 2 * k < 2 * d + 16) := by omega
    have h2 : ¬ (2 * d ≤ 2 * k + 1 ∧ 2 * k + 1 < 2 * d + 16) := by omega
    simp only [ofFloats, _mm512_store_ps]
    rw [if_neg h1, if_neg h2, if_neg h]

theorem mm256_load_even {α : Type} (buf : Nat → complex_float α) (s m : Nat) :
    _mm256_load_ps (asFloats buf) (2 * s) (2 * m) = (buf (s + m)).re := by
  have h : 2 * s + 2 * m = 2 * (s + m) := by omega
  simp [_mm256_load_ps, h, asFloats_even]

theorem mm256_load_odd {α : Type} (buf : Nat → complex_float α) (s m : Nat) :
    _mm256_load_ps (asFloats buf) (2 * s) (2 * m + 1) = (buf (s + m)).im := by
  have h : 2 * s + (2 * m + 1) = 2 * (s + m) + 1 := by omega
  simp [_mm256_load_ps, h, asFloats_odd]

/-- Lanes `2m`, `2m+1` of the lane-wise complex product hold the product of the
samples in lanes `2m`, `2m+1` of the operands. -/
theorem complex_cf32_mult_pair {α : Type} [Mul α] [Add α] [Sub α] (d1 d2 : Nat → α)
    (c : Bool) (m : Nat) :
    (⟨CommsLib.__m256_complex_cf32_mult d1 d2 c (2 * m),
      CommsLib.__m256_complex_cf32_mult d1 d2 c (2 * m + 1)⟩ : complex_float α) =
      (⟨d1 (2 * m), d1 (2 * m + 1)⟩ : complex_float α) * ⟨d2 (2 * m), d2 (2 * m + 1)⟩ := by
  have h1 : (2 * m) % 2 = 0 := by omega
  have h2 : (2 * m + 1) % 2 = 1 := by omega
  have h3 : (2 * m) / 2 = m := by omega
  have h4 : (2 * m + 1) / 2 = m := by omega
  simp [CommsLib.__m256_complex_cf32_mult, h1, h2, h3, h4]

/-! ## Loops of writes -/

/-- A loop whose every iteration `i` overwrites the positions `W i` with the
values of one target map `e` and leaves the other positions alone: afterwards a
position holds `e` if some iteration wrote it, and its initial value otherwise. -/
theorem foldl_writes {ι β : Type} (step : ι → (Nat → β) → (Nat → β)) (W : ι → Nat → Prop)
    (e : Nat → β) (k : Nat) (l : List ι)
    (hW : ∀ i ∈ l, ∀ buf, W i k → step i buf k = e k)
    (hN : ∀ i ∈ l, ∀ buf, ¬ W i k → step i buf k = buf k)
    (init : Nat → β) :
    ((∃ i ∈ l, W i k) → l.foldl (fun b i => step i b) init k = e k) ∧
    ((∀ i ∈ l, ¬ W i k) → l.foldl (fun b i => step i b) init k = init k) := by
  induction l generalizing init with
  | nil => simp
  | cons i l ih =>
    have ih1 := ih (fun i' hi' => hW i' (List.mem_cons_of_mem _ hi'))
      (fun i' hi' => hN i' (List.mem_cons_of_mem _ hi')) (step i init)
    simp only [List.foldl_cons]
    by_cases hex : ∃ i' ∈ l, W i' k
    · refine ⟨fun _ => ih1.1 hex, fun hall => ?_⟩
      obtain ⟨i', hi', hWi'⟩ := hex
      exact absurd hWi' (hall i' (List.mem_cons_of_mem _ hi'))
    · have hnone : ∀ i' ∈ l, ¬ W i' k := fun i' hi' hWi' => hex ⟨i', hi', hWi'⟩
      rw [ih1.2 hnone]
      refine ⟨fun hany => ?_, fun hall => ?_⟩
      · obtain ⟨i', hi', hWi'⟩ := hany
        rcases List.mem_cons.1 hi' with h | h
        · subst h
          exact hW i' (List.mem_cons_self _ _) init hWi'
        · exact absurd hWi' (hnone i' h)
      · exact hN i (List.mem_cons_self _ _) init (hall i (List.mem_cons_self _ _))

theorem mem_loopSteps {n step x : Nat} :
    x ∈ loopSteps n step ↔ ∃ t, t < (n + step - 1) / step ∧ x = t * step := by
  simp only [loopSteps, List.mem_map, List.mem_range]
  constructor
  · rintro ⟨t, ht, rfl⟩
    exact ⟨t, ht, rfl⟩
  · rintro ⟨t, ht, rfl⟩
    exact ⟨t, ht, rfl⟩

/-- With `step` dividing `n`, the loop variable runs over the multiples of `step`
below `n`. -/
theorem mem_loopSteps_of_dvd {n step x : Nat} (hs : 0 < step) (hd : step ∣ n) :
    x ∈ loopSteps n step ↔ x < n ∧ step ∣ x := by
  obtain ⟨q, rfl⟩ := hd
  have hq : (step * q + step - 1) / step = q := by
    have : step * q + step - 1 = step - 1 + step * q := by omega
    rw [this, Nat.add_mul_div_left _ _ hs, Nat.div_eq_of_lt (by omega)]
    simp
  rw [mem_loopSteps, hq]
  constructor
  · rintro ⟨t, ht, rfl⟩
    refine ⟨?_, Dvd.intro_left t rfl⟩
    rw [Nat.mul_comm]
    exact Nat.mul_lt_mul_of_pos_left ht hs
  · rintro ⟨hx, ⟨t, rfl⟩⟩
    refine ⟨t, ?_, Nat.mul_comm _ _⟩
    exact Nat.lt_of_mul_lt_mul_left hx

/-! ## One cacheline of the partial transpose -/

theorem mm256_set_ps_pair {α : Type} (p : Nat → complex_float α) (s m : Nat) (hm : m < 4) :
    (⟨_mm256_set_ps (p (s + 3)).im (p (s + 3)).re (p (s + 2)).im (p (s + 2)).re
        (p (s + 1)).im (p (s + 1)).re (p s).im (p s).re (2 * m),
      _mm256_set_ps (p (s + 3)).im (p (s + 3)).re (p (s + 2)).im (p (s + 2)).re
        (p (s + 1)).im (p (s + 1)).re (p s).im (p s).re (2 * m + 1)⟩ : complex_float α)
      = p (s + m) := by
  interval_cases m <;> rfl

/-- One cacheline of `partial_transpose` for a pilot or uplink symbol: the eight
samples at `dst = block*B_tr*A + ant*B_tr + sc_j` receive the FFT outputs of
subcarriers `block*B_tr + sc_j ..+7` (times the pilot sign for a pilot symbol);
nothing else changes. -/
theorem partial_transpose_cacheline_apply {α : Type} [Mul α] [Add α] [Sub α] (cfg : Config)
    (p fft out : Nat → complex_float α) (ant : Nat) (st : SymbolType)
    (hst : st = SymbolType.kPilot ∨ st = SymbolType.kUL) (block sc_j k : Nat) :
    partial_transpose_cacheline cfg p fft out ant st block sc_j k =
      if block * (cfg.kTransposeBlockSize * cfg.BS_ANT_NUM) + ant * cfg.kTransposeBlockSize
            + sc_j ≤ k ∧
          k < block * (cfg.kTransposeBlockSize * cfg.BS_ANT_NUM)
            + ant * cfg.kTransposeBlockSize + sc_j + 8 then
        (if st = SymbolType.kPilot then
          fft (block * cfg.kTransposeBlockSize + sc_j + cfg.OFDM_DATA_START
                + (k - (block * (cfg.kTransposeBlockSize * cfg.BS_ANT_NUM)
                  + ant * cfg.kTransposeBlockSize + sc_j)))
            * p (block * cfg.kTransposeBlockSize + sc_j
                + (k - (block * (cfg.kTransposeBlockSize * cfg.BS_ANT_NUM)
                  + ant * cfg.kTransposeBlockSize + sc_j)))
         else
          fft (block * cfg.kTransposeBlockSize + sc_j + cfg.OFDM_DATA_START
                + (k - (block * (cfg.kTransposeBlockSize * cfg.BS_ANT_NUM)
                  + ant * cfg.kTransposeBlockSize + sc_j))))
      else out k := by
  have hcal : ¬ (st = SymbolType.kCalDL ∨ st = SymbolType.kCalUL) := by
    rcases hst with h | h <;> simp [h]
  simp only [partial_transpose_cacheline, if_neg hcal, kUsePartialTrans, if_true,
    _mm256_stream_ps]
  generalize block * (cfg.kTransposeBlockSize * cfg.BS_ANT_NUM)
    + ant * cfg.kTransposeBlockSize + sc_j = dst
  generalize block * cfg.kTransposeBlockSize + sc_j = sc
  rw [ofFloats_mm256_store, ofFloats_mm256_store, ofFloats_asFloats]
  by_cases h1 : dst + 4 ≤ k ∧ k < dst + 4 + 4
  · have h2 : dst ≤ k ∧ k < dst + 8 := by omega
    rw [if_pos h1, if_pos h2]
    obtain ⟨m, hm, rfl⟩ : ∃ m, m < 4 ∧ k = dst + 4 + m := ⟨k - (dst + 4), by omega, by omega⟩
    have e1 : dst + 4 + m - (dst + 4) = m := by omega
    have e2 : dst + 4 + m - dst = 4 + m := by omega
    rw [e1, e2]
    rcases hst with h | h
    · subst h
      simp only [if_true]
      rw [complex_cf32_mult_pair, mm256_load_even, mm256_load_odd, mm256_set_ps_pair _ _ _ hm]
      simp only [Nat.add_assoc, Nat.add_comm, Nat.add_left_comm]
    · subst h
      simp only [reduceCtorEq, if_false]
      rw [mm256_load_even, mm256_load_odd]
      simp only [Nat.add_assoc, Nat.add_comm, Nat.add_left_comm]
  · rw [if_neg h1]
    by_cases h3 : dst ≤ k ∧ k < dst + 4
    · have h2 : dst ≤ k ∧ k < dst + 8 := by omega
      rw [if_pos h3, if_pos h2]
      obtain ⟨m, hm, rfl⟩ : ∃ m, m < 4 ∧ k = dst + m := ⟨k - dst, by omega, by omega⟩
      have e1 : dst + m - dst = m := by omega
      rw [e1]
      rcases hst with h | h
      · subst h
        simp only [if_true]
        rw [complex_cf32_mult_pair, mm256_load_even, mm256_load_odd,
          mm256_set_ps_pair _ _ _ hm]
      · subst h
        simp only [reduceCtorEq, if_false]
        rw [mm256_load_even, mm256_load_odd]
    · have h2 : ¬ (dst ≤ k ∧ k < dst + 8) := by omega
      rw [if_neg h3, if_neg h2]

/-! ## The partially transposed index map -/

/-- Decomposition of a partially transposed index `k = block*(B*A) + ant*B + j`. -/
theorem layout_decomp {B A block ant j k : Nat} (hj : j < B) (hant : ant < A)
    (hk : k = block * (B * A) + ant * B + j) :
    k / (B * A) = block ∧ k % (B * A) / B = ant ∧ k % B = j := by
  have hB : 0 < B := by omega
  have h1 : ant * B + j < B * A := by
    have : (ant + 1) * B ≤ A * B := Nat.mul_le_mul_right B hant
    rw [Nat.mul_comm B A]
    calc ant * B + j < ant * B + B := by omega
      _ = (ant + 1) * B := by ring
      _ ≤ A * B := this
  have hBA : 0 < B * A := by omega
  have hk1 : k = (ant * B + j) + (B * A) * block := by rw [hk]; ring
  have hk2 : k = j + B * (block * A + ant) := by rw [hk]; ring
  have hr : k % (B * A) = ant * B + j := by
    rw [hk1, Nat.add_mul_mod_self_left, Nat.mod_eq_of_lt h1]
  refine ⟨?_, ?_, ?_⟩
  · rw [hk1, Nat.add_mul_div_left _ _ hBA, Nat.div_eq_of_lt h1, Nat.zero_add]
  · rw [hr, Nat.add_comm, Nat.mul_comm, Nat.add_mul_div_left _ _ hB, Nat.div_eq_of_lt hj,
      Nat.zero_add]
  · rw [hk2, Nat.add_mul_mod_self_left, Nat.mod_eq_of_lt hj]

/-- Every index whose antenna coordinate is `ant` is of the partially transposed
form. -/
theorem layout_recompose {B A ant k : Nat} (h : k % (B * A) / B = ant) :
    k = k / (B * A) * (B * A) + ant * B + k % B := by
  have h1 : k % (B * A) % B = k % B := Nat.mod_mod_of_dvd k (Dvd.intro A rfl)
  have h2 := Nat.div_add_mod (k % (B * A)) B
  have h3 := Nat.div_add_mod k (B * A)
  rw [h, h1] at h2
  have h4 : B * ant = ant * B := Nat.mul_comm _ _
  have h5 : B * A * (k / (B * A)) = k / (B * A) * (B * A) := Nat.mul_comm _ _
  omega

/-! ## `DoFFT::partial_transpose` as a map on the output buffer -/

theorem cacheline_writes_decomp {cfg : Config} {ant block sc_j k : Nat}
    (hB : kSCsPerCacheline ∣ cfg.kTransposeBlockSize) (hant : ant < cfg.BS_ANT_NUM)
    (hsc : sc_j ∈ loopSteps cfg.kTransposeBlockSize kSCsPerCacheline)
    (hw : cacheline_writes cfg ant block sc_j k) :
    k / (cfg.kTransposeBlockSize * cfg.BS_ANT_NUM) = block ∧
      k % (cfg.kTransposeBlockSize * cfg.BS_ANT_NUM) / cfg.kTransposeBlockSize = ant ∧
      k % cfg.kTransposeBlockSize
        = sc_j + (k - (block * (cfg.kTransposeBlockSize * cfg.BS_ANT_NUM)
            + ant * cfg.kTransposeBlockSize + sc_j)) := by
  rw [mem_loopSteps_of_dvd (by decide) hB] at hsc
  obtain ⟨hlt, t, ht⟩ := hsc
  obtain ⟨q, hq⟩ := hB
  unfold cacheline_writes at hw
  simp only [kSCsPerCacheline] at ht hq
  apply layout_decomp (j := sc_j + (k - (block * (cfg.kTransposeBlockSize * cfg.BS_ANT_NUM)
            + ant * cfg.kTransposeBlockSize + sc_j))) _ hant
  · omega
  · omega

/-- The effect of one call of `partial_transpose` for a pilot or uplink symbol,
index by index. -/
theorem partial_transpose_apply {α : Type} [Mul α] [Add α] [Sub α] (cfg : Config)
    (p fft out : Nat → complex_float α) (ant : Nat) (st : SymbolType)
    (hst : st = SymbolType.kPilot ∨ st = SymbolType.kUL)
    (hB : kSCsPerCacheline ∣ cfg.kTransposeBlockSize) (hant : ant < cfg.BS_ANT_NUM) (k : Nat) :
    partial_transpose cfg p fft out ant st k =
      if k / (cfg.kTransposeBlockSize * cfg.BS_ANT_NUM)
            < cfg.OFDM_DATA_NUM / cfg.kTransposeBlockSize ∧
          k % (cfg.kTransposeBlockSize * cfg.BS_ANT_NUM) / cfg.kTransposeBlockSize = ant then
        transposed_sample cfg p fft st k
      else out k := by
  -- the inner loop of one block
  have inner : ∀ (block : Nat) (buf : Nat → complex_float α),
      ((∃ sc_j ∈ loopSteps cfg.kTransposeBlockSize kSCsPerCacheline,
          cacheline_writes cfg ant block sc_j k) →
        (loopSteps cfg.kTransposeBlockSize kSCsPerCacheline).foldl
          (fun buf sc_j => partial_transpose_cacheline cfg p fft buf ant st block sc_j) buf k
          = transposed_sample cfg p fft st k) ∧
      ((∀ sc_j ∈ loopSteps cfg.kTransposeBlockSize kSCsPerCacheline,
          ¬ cacheline_writes cfg ant block sc_j k) →
        (loopSteps cfg.kTransposeBlockSize kSCsPerCacheline).foldl
          (fun buf sc_j => partial_transpose_cacheline cfg p fft buf ant st block sc_j) buf k
          = buf k) := by
    intro block buf
    apply foldl_writes
      (fun sc_j buf => partial_transpose_cacheline cfg p fft buf ant st block sc_j)
      (fun sc_j k => cacheline_writes cfg ant block sc_j k)
    · intro sc_j hsc buf' hw
      obtain ⟨h1, -, h3⟩ := cacheline_writes_decomp hB hant hsc hw
      have hw' := hw
      unfold cacheline_writes at hw'
      simp only [partial_transpose_cacheline_apply cfg p fft buf' ant st hst, if_pos hw',
        transposed_sample, h1, h3]
      rcases hst with h | h <;> subst h <;>
        simp only [if_true, reduceCtorEq, if_false, Nat.add_assoc, Nat.add_comm,
          Nat.add_left_comm]
    · intro sc_j _ buf' hw
      have hw' := hw
      unfold cacheline_writes at hw'
      simp only [partial_transpose_cacheline_apply cfg p fft buf' ant st hst, if_neg hw']
  -- the loop over the blocks
  have outer := foldl_writes
    (fun block buf => (loopSteps cfg.kTransposeBlockSize kSCsPerCacheline).foldl
      (fun buf sc_j => partial_transpose_cacheline cfg p fft buf ant st block sc_j) buf)
    (fun block k => ∃ sc_j ∈ loopSteps cfg.kTransposeBlockSize kSCsPerCacheline,
      cacheline_writes cfg ant block sc_j k)
    (transposed_sample cfg p fft st) k
    (List.range (cfg.OFDM_DATA_NUM / cfg.kTransposeBlockSize))
    (fun block _ buf hw => (inner block buf).1 hw)
    (fun block _ buf hw => (inner block buf).2 (fun sc_j hsc h => hw ⟨sc_j, hsc, h⟩))
    out
  unfold partial_transpose
  by_cases hk : k / (cfg.kTransposeBlockSize * cfg.BS_ANT_NUM)
            < cfg.OFDM_DATA_NUM / cfg.kTransposeBlockSize ∧
          k % (cfg.kTransposeBlockSize * cfg.BS_ANT_NUM) / cfg.kTransposeBlockSize = ant
  · rw [if_pos hk]
    apply outer.1
    obtain ⟨hk1, hk2⟩ := hk
    have hB0 : 0 < cfg.kTransposeBlockSize := by
      rcases Nat.eq_zero_or_pos cfg.kTransposeBlockSize with h | h
      · rw [h] at hk1; simp at hk1
      · exact h
    have hrec := layout_recompose hk2
    have hmod : k % cfg.kTransposeBlockSize < cfg.kTransposeBlockSize := Nat.mod_lt _ hB0
    refine ⟨k / (cfg.kTransposeBlockSize * cfg.BS_ANT_NUM), List.mem_range.2 hk1,
      k % cfg.kTransposeBlockSize / 8 * 8, ?_, ?_⟩
    · rw [mem_loopSteps_of_dvd (by decide) hB]
      refine ⟨?_, Dvd.intro_left _ rfl⟩
      omega
    · unfold cacheline_writes
      omega
  · rw [if_neg hk]
    apply outer.2
    rintro block hblock ⟨sc_j, hsc, hw⟩
    obtain ⟨h1, h2, -⟩ := cacheline_writes_decomp hB hant hsc hw
    exact hk ⟨by rw [h1]; exact List.mem_range.1 hblock, h2⟩

/-! ## Step 1 of `DoDemul::Launch`: the scalar gather -/

/-- One row of the scalar copy loop: `n` consecutive copies through `*dst++`. -/
theorem scalar_row {β : Type} (v : Nat → β) (n : Nat) :
    ∀ (s dst : Nat) (buf : Nat → β),
      (List.range' s n).foldl
          (fun (st : Nat × (Nat → β)) a => (st.1 + 1, Function.update st.2 st.1 (v a)))
          (dst, buf)
        = (dst + n, fun k => if dst ≤ k ∧ k < dst + n then v (s + (k - dst)) else buf k) := by
  induction n with
  | zero =>
    intro s dst buf
    simp only [List.range'_zero, List.foldl_nil, Nat.add_zero, Prod.mk.injEq, true_and]
    funext k
    rw [if_neg (by omega)]
  | succ n ih =>
    intro s dst buf
    simp only [List.range'_succ, List.foldl_cons, ih, Prod.mk.injEq]
    refine ⟨by omega, ?_⟩
    funext k
    by_cases h1 : dst + 1 ≤ k ∧ k < dst + 1 + n
    · rw [if_pos h1, if_pos (by omega)]
      congr 1
      omega
    · rw [if_neg h1]
      by_cases h2 : k = dst
      · subst h2
        rw [if_pos (by omega)]
        simp
      · rw [if_neg (by omega), Function.update_noteq h2]

/-- The scalar gather with `ant_start = 0` (the all-scalar path), index by index. -/
theorem Launch_scalar_gather_apply {α : Type} (cfg : Config)
    (data_buf g : Nat → complex_float α) (base_sc_id i k : Nat) :
    Launch_scalar_gather cfg data_buf g
        ((base_sc_id + i) / cfg.kTransposeBlockSize
          * (cfg.kTransposeBlockSize * cfg.BS_ANT_NUM)) base_sc_id i 0 k
      = if k < kSCsPerCacheline * cfg.BS_ANT_NUM then gathered_sample cfg data_buf base_sc_id i k
        else g k := by
  have rows : ∀ m : Nat,
      (List.range m).foldl
        (fun (st : Nat × (Nat → complex_float α)) j =>
          (List.range' 0 (cfg.BS_ANT_NUM - 0)).foldl
            (fun (st : Nat × (Nat → complex_float α)) ant_i =>
              (st.1 + 1,
               Function.update st.2 st.1
                (if kUsePartialTrans then
                  data_buf ((base_sc_id + i) / cfg.kTransposeBlockSize
                      * (cfg.kTransposeBlockSize * cfg.BS_ANT_NUM)
                    + ant_i * cfg.kTransposeBlockSize
                    + (base_sc_id + i + j) % cfg.kTransposeBlockSize)
                 else data_buf (ant_i * cfg.OFDM_DATA_NUM + base_sc_id + i + j))))
            st)
        (0, g)
      = (m * cfg.BS_ANT_NUM,
          fun k => if k < m * cfg.BS_ANT_NUM then gathered_sample cfg data_buf base_sc_id i k
            else g k) := by
    intro m
    induction m with
    | zero => simp
    | succ m ih =>
      rw [List.range_succ, List.foldl_append, ih]
      simp only [List.foldl_cons, List.foldl_nil, Nat.sub_zero]
      rw [scalar_row (fun ant_i =>
        (if kUsePartialTrans then
                  data_buf ((base_sc_id + i) / cfg.kTransposeBlockSize
                      * (cfg.kTransposeBlockSize * cfg.BS_ANT_NUM)
                    + ant_i * cfg.kTransposeBlockSize
                    + (base_sc_id + i + m) % cfg.kTransposeBlockSize)
                 else data_buf (ant_i * cfg.OFDM_DATA_NUM + base_sc_id + i + m)))]
      simp only [Prod.mk.injEq]
      refine ⟨by ring, ?_⟩
      funext k
      have hsucc : (m + 1) * cfg.BS_ANT_NUM = m * cfg.BS_ANT_NUM + cfg.BS_ANT_NUM := by ring
      rw [hsucc]
      by_cases h1 : m * cfg.BS_ANT_NUM ≤ k ∧ k < m * cfg.BS_ANT_NUM + cfg.BS_ANT_NUM
      · have h3 : k < m * cfg.BS_ANT_NUM + cfg.BS_ANT_NUM := h1.2
        rw [if_pos h1, if_pos h3]
        have hA : 0 < cfg.BS_ANT_NUM := by omega
        obtain ⟨r, hr, rfl⟩ : ∃ r, r < cfg.BS_ANT_NUM ∧ k = m * cfg.BS_ANT_NUM + r :=
          ⟨k - m * cfg.BS_ANT_NUM, by omega, by omega⟩
        have e1 : (m * cfg.BS_ANT_NUM + r) / cfg.BS_ANT_NUM = m := by
          rw [Nat.add_comm, Nat.mul_comm, Nat.add_mul_div_left _ _ hA, Nat.div_eq_of_lt hr,
            Nat.zero_add]
        have e2 : (m * cfg.BS_ANT_NUM + r) % cfg.BS_ANT_NUM = r := by
          rw [Nat.add_comm, Nat.mul_comm, Nat.add_mul_mod_self_left, Nat.mod_eq_of_lt hr]
        have e3 : m * cfg.BS_ANT_NUM + r - m * cfg.BS_ANT_NUM = r := by omega
        simp only [gathered_sample, e1, e2, e3, kUsePartialTrans, if_true, Nat.zero_add]
      · rw [if_neg h1]
        by_cases h2 : k < m * cfg.BS_ANT_NUM
        · have h3 : k < m * cfg.BS_ANT_NUM + cfg.BS_ANT_NUM := by omega
          rw [if_pos h2, if_pos h3]
        · have h3 : ¬ k < m * cfg.BS_ANT_NUM + cfg.BS_ANT_NUM := by omega
          rw [if_neg h2, if_neg h3]
  unfold Launch_scalar_gather
  simp only [rows]

/-! ## Step 1 of `DoDemul::Launch`: the SIMD gather -/

theorem Launch_index_even (cfg : Config) (m : Nat) (hm : m < 4) :
    Launch_index cfg (2 * m) = 2 * (m * cfg.kTransposeBlockSize) := by
  interval_cases m <;> simp [Launch_index, _mm256_setr_epi32] <;> ring

theorem Launch_index_odd (cfg : Config) (m : Nat) (hm : m < 4) :
    Launch_index cfg (2 * m + 1) = 2 * (m * cfg.kTransposeBlockSize) + 1 := by
  interval_cases m <;> simp [Launch_index, _mm256_setr_epi32] <;> ring

theorem Launch_index512_even (cfg : Config) (m : Nat) (hm : m < 8) :
    Launch_index512 cfg (2 * m) = 2 * (m * cfg.kTransposeBlockSize) := by
  interval_cases m <;> simp [Launch_index512, _mm512_setr_epi32] <;> ring

theorem Launch_index512_odd (cfg : Config) (m : Nat) (hm : m < 8) :
    Launch_index512 cfg (2 * m + 1) = 2 * (m * cfg.kTransposeBlockSize) + 1 := by
  interval_cases m <;> simp [Launch_index512, _mm512_setr_epi32] <;> ring

/-- One gather and store of the SIMD branch, seen on samples: with `src`, `dst`
at samples `s`, `d`, the `kAntNumPerSimd` samples of row `j` from column `d` on
receive the samples of `data_buf` at `s + j`, `s + j + B_tr`, `s + j + 2 B_tr`, ... -/
theorem Launch_simd_gather_sc_apply {α : Type} (cfg : Config) (avx512 : Bool)
    (data_buf : Nat → complex_float α) (hB1 : cfg.kTransposeBlockSize ≠ 1)
    (s d : Nat) (mem : Nat → α) (j k : Nat) :
    ofFloats (Launch_simd_gather_sc cfg avx512 data_buf (2 * s) (2 * d) mem j) k =
      if d + j * cfg.BS_ANT_NUM ≤ k ∧ k < d + j * cfg.BS_ANT_NUM + kAntNumPerSimd avx512 then
        data_buf (s + j + (k - (d + j * cfg.BS_ANT_NUM)) * cfg.kTransposeBlockSize)
      else ofFloats mem k := by
  have hd : 2 * d + j * cfg.BS_ANT_NUM * 2 = 2 * (d + j * cfg.BS_ANT_NUM) := by ring
  cases avx512 with
  | false =>
    simp only [Launch_simd_gather_sc, Bool.false_eq_true, if_false, kAntNumPerSimd, hd]
    rw [ofFloats_mm256_store]
    by_cases h : d + j * cfg.BS_ANT_NUM ≤ k ∧ k < d + j * cfg.BS_ANT_NUM + 4
    · rw [if_pos h, if_pos h]
      have hm : k - (d + j * cfg.BS_ANT_NUM) < 4 := by omega
      simp only [_mm256_i32gather_ps, Launch_index_even cfg _ hm, Launch_index_odd cfg _ hm,
        Nat.mul_div_cancel _ (show 0 < 4 by decide)]
      have e1 : 2 * s + j * 2 + 2 * ((k - (d + j * cfg.BS_ANT_NUM)) * cfg.kTransposeBlockSize)
          = 2 * (s + j + (k - (d + j * cfg.BS_ANT_NUM)) * cfg.kTransposeBlockSize) := by ring
      have e2 : 2 * s + j * 2
            + (2 * ((k - (d + j * cfg.BS_ANT_NUM)) * cfg.kTransposeBlockSize) + 1)
          = 2 * (s + j + (k - (d + j * cfg.BS_ANT_NUM)) * cfg.kTransposeBlockSize) + 1 := by
        ring
      rw [e1, e2, asFloats_even, asFloats_odd]
    · rw [if_neg h, if_neg h]
  | true =>
    simp only [Launch_simd_gather_sc, if_true, if_neg hB1, kAntNumPerSimd, hd]
    rw [ofFloats_mm512_store]
    by_cases h : d + j * cfg.BS_ANT_NUM ≤ k ∧ k < d + j * cfg.BS_ANT_NUM + 8
    · rw [if_pos h, if_pos h]
      have hm : k - (d + j * cfg.BS_ANT_NUM) < 8 := by omega
      simp only [_mm512_i32gather_ps, Launch_index512_even cfg _ hm,
        Launch_index512_odd cfg _ hm, Nat.mul_div_cancel _ (show 0 < 4 by decide)]
      have e1 : 2 * s + j * 2 + 2 * ((k - (d + j * cfg.BS_ANT_NUM)) * cfg.kTransposeBlockSize)
          = 2 * (s + j + (k - (d + j * cfg.BS_ANT_NUM)) * cfg.kTransposeBlockSize) := by ring
      have e2 : 2 * s + j * 2
            + (2 * ((k - (d + j * cfg.BS_ANT_NUM)) * cfg.kTransposeBlockSize) + 1)
          = 2 * (s + j + (k - (d + j * cfg.BS_ANT_NUM)) * cfg.kTransposeBlockSize) + 1 := by
        ring
      rw [e1, e2, asFloats_even, asFloats_odd]
    · rw [if_neg h, if_neg h]

/-- A window of `w` columns from column `d` of row `m` in a row-major matrix with
`A` columns. -/
theorem row_window {A d w m k : Nat} (hw : 0 < w) (hdw : d + w ≤ A) :
    (d + m * A ≤ k ∧ k < d + m * A + w) ↔ (k / A = m ∧ d ≤ k % A ∧ k % A < d + w) := by
  have hA : 0 < A := by omega
  constructor
  · rintro ⟨h1, h2⟩
    obtain ⟨r, hr, rfl⟩ : ∃ r, r < A ∧ k = m * A + r := ⟨k - m * A, by omega, by omega⟩
    have e1 : (m * A + r) / A = m := by
      rw [Nat.add_comm, Nat.mul_comm, Nat.add_mul_div_left _ _ hA, Nat.div_eq_of_lt hr,
        Nat.zero_add]
    have e2 : (m * A + r) % A = r := by
      rw [Nat.add_comm, Nat.mul_comm, Nat.add_mul_mod_self_left, Nat.mod_eq_of_lt hr]
    rw [e1, e2]
    omega
  · rintro ⟨h1, h2, h3⟩
    have h4 := Nat.div_add_mod k A
    rw [h1, Nat.mul_comm] at h4
    omega

/-- The `j` loop of the SIMD gather for one group of antennas, index by index. -/
theorem Launch_simd_gather_rows {α : Type} (cfg : Config) (avx512 : Bool)
    (data_buf : Nat → complex_float α) (hB1 : cfg.kTransposeBlockSize ≠ 1)
    (s d : Nat) (hd : d + kAntNumPerSimd avx512 ≤ cfg.BS_ANT_NUM) (mem : Nat → α) (k : Nat) :
    ∀ rows : Nat,
      ofFloats ((List.range rows).foldl
          (fun mem j => Launch_simd_gather_sc cfg avx512 data_buf (2 * s) (2 * d) mem j) mem) k
        = if k / cfg.BS_ANT_NUM < rows ∧ d ≤ k % cfg.BS_ANT_NUM
              ∧ k % cfg.BS_ANT_NUM < d + kAntNumPerSimd avx512 then
            data_buf (s + k / cfg.BS_ANT_NUM + (k % cfg.BS_ANT_NUM - d) * cfg.kTransposeBlockSize)
          else ofFloats mem k := by
  have hw : 0 < kAntNumPerSimd avx512 := by cases avx512 <;> decide
  intro rows
  induction rows with
  | zero => simp
  | succ m ih =>
    rw [List.range_succ, List.foldl_append]
    simp only [List.foldl_cons, List.foldl_nil]
    rw [Launch_simd_gather_sc_apply cfg avx512 data_buf hB1, ih]
    by_cases h : d + m * cfg.BS_ANT_NUM ≤ k ∧ k < d + m * cfg.BS_ANT_NUM + kAntNumPerSimd avx512
    · rw [if_pos h]
      have h' := (row_window hw hd).1 h
      have hc : k / cfg.BS_ANT_NUM < m + 1 ∧ d ≤ k % cfg.BS_ANT_NUM
              ∧ k % cfg.BS_ANT_NUM < d + kAntNumPerSimd avx512 := ⟨by omega, h'.2⟩
      rw [if_pos hc]
      have h4 := Nat.div_add_mod k cfg.BS_ANT_NUM
      have e : k - (d + m * cfg.BS_ANT_NUM) = k % cfg.BS_ANT_NUM - d := by
        rw [h'.1, Nat.mul_comm] at h4
        omega
      rw [e, h'.1]
    · rw [if_neg h]
      by_cases h2 : k / cfg.BS_ANT_NUM < m ∧ d ≤ k % cfg.BS_ANT_NUM
              ∧ k % cfg.BS_ANT_NUM < d + kAntNumPerSimd avx512
      · have hc : k / cfg.BS_ANT_NUM < m + 1 ∧ d ≤ k % cfg.BS_ANT_NUM
              ∧ k % cfg.BS_ANT_NUM < d + kAntNumPerSimd avx512 := ⟨by omega, h2.2⟩
        rw [if_pos h2, if_pos hc]
      · have hc : ¬ (k / cfg.BS_ANT_NUM < m + 1 ∧ d ≤ k % cfg.BS_ANT_NUM
              ∧ k % cfg.BS_ANT_NUM < d + kAntNumPerSimd avx512) := by
          rintro ⟨c1, c2, c3⟩
          rcases Nat.lt_succ_iff_lt_or_eq.1 c1 with c | c
          · exact h2 ⟨c, c2, c3⟩
          · exact h ((row_window hw hd).2 ⟨c, c2, c3⟩)
        rw [if_neg h2, if_neg hc]

/-- The `ant_i` loop of the SIMD gather, started with `dst` at column `d` of the
gather buffer and `src` at sample `s0 + d * B_tr`: `n` iterations fill the
columns `d .. d + n * kAntNumPerSimd - 1` of every row. -/
theorem Launch_simd_gather_cols {α : Type} (cfg : Config) (avx512 : Bool)
    (data_buf : Nat → complex_float α) (hB1 : cfg.kTransposeBlockSize ≠ 1) (s0 k : Nat) :
    ∀ (l : List Nat) (d : Nat) (mem : Nat → α),
      d + l.length * kAntNumPerSimd avx512 ≤ cfg.BS_ANT_NUM →
      ofFloats (l.foldl
          (fun (st : Nat × Nat × (Nat → α)) _ant_i =>
            Launch_simd_gather_ants cfg avx512 data_buf st)
          (2 * (s0 + d * cfg.kTransposeBlockSize), 2 * d, mem)).2.2 k
        = if k / cfg.BS_ANT_NUM < kSCsPerCacheline ∧ d ≤ k % cfg.BS_ANT_NUM
              ∧ k % cfg.BS_ANT_NUM < d + l.length * kAntNumPerSimd avx512 then
            data_buf (s0 + k / cfg.BS_ANT_NUM + k % cfg.BS_ANT_NUM * cfg.kTransposeBlockSize)
          else ofFloats mem k := by
  intro l
  induction l with
  | nil =>
    intro d mem _
    have hc : ¬ (k / cfg.BS_ANT_NUM < kSCsPerCacheline ∧ d ≤ k % cfg.BS_ANT_NUM
              ∧ k % cfg.BS_ANT_NUM < d + ([] : List Nat).length * kAntNumPerSimd avx512) := by
      simp only [List.length_nil, Nat.zero_mul, Nat.add_zero]
      omega
    rw [if_neg hc]
    rfl
  | cons x l ih =>
    intro d mem hlen
    simp only [List.length_cons] at hlen
    have hlen' : d + l.length * kAntNumPerSimd avx512 + kAntNumPerSimd avx512
        ≤ cfg.BS_ANT_NUM := by
      have : (l.length + 1) * kAntNumPerSimd avx512
          = l.length * kAntNumPerSimd avx512 + kAntNumPerSimd avx512 := by ring
      omega
    have hsucc : (x :: l).length * kAntNumPerSimd avx512
        = l.length * kAntNumPerSimd avx512 + kAntNumPerSimd avx512 := by
      simp only [List.length_cons]; ring
    have e1 : 2 * (s0 + d * cfg.kTransposeBlockSize)
          + kAntNumPerSimd avx512 * cfg.kTransposeBlockSize * 2
        = 2 * (s0 + (d + kAntNumPerSimd avx512) * cfg.kTransposeBlockSize) := by ring
    have e2 : 2 * d + kAntNumPerSimd avx512 * 2 = 2 * (d + kAntNumPerSimd avx512) := by ring
    simp only [List.foldl_cons]
    rw [show Launch_simd_gather_ants cfg avx512 data_buf
          (2 * (s0 + d * cfg.kTransposeBlockSize), 2 * d, mem)
        = (2 * (s0 + (d + kAntNumPerSimd avx512) * cfg.kTransposeBlockSize),
            2 * (d + kAntNumPerSimd avx512),
            (List.range kSCsPerCacheline).foldl
              (fun mem j => Launch_simd_gather_sc cfg avx512 data_buf
                (2 * (s0 + d * cfg.kTransposeBlockSize)) (2 * d) mem j) mem) from by
      simp only [Launch_simd_gather_ants, e1, e2]]
    rw [ih _ _ (by omega), Launch_simd_gather_rows cfg avx512 data_buf hB1 _ _ (by omega), hsucc]
    by_cases h1 : k / cfg.BS_ANT_NUM < kSCsPerCacheline
    · by_cases h2 : d ≤ k % cfg.BS_ANT_NUM ∧ k % cfg.BS_ANT_NUM < d + kAntNumPerSimd avx512
      · have c1 : ¬ (k / cfg.BS_ANT_NUM < kSCsPerCacheline
            ∧ d + kAntNumPerSimd avx512 ≤ k % cfg.BS_ANT_NUM
            ∧ k % cfg.BS_ANT_NUM
              < d + kAntNumPerSimd avx512 + l.length * kAntNumPerSimd avx512) := by omega
        have c2 : k / cfg.BS_ANT_NUM < kSCsPerCacheline ∧ d ≤ k % cfg.BS_ANT_NUM
            ∧ k % cfg.BS_ANT_NUM < d + kAntNumPerSimd avx512 := ⟨h1, h2⟩
        have c3 : k / cfg.BS_ANT_NUM < kSCsPerCacheline ∧ d ≤ k % cfg.BS_ANT_NUM
            ∧ k % cfg.BS_ANT_NUM
              < d + (l.length * kAntNumPerSimd avx512 + kAntNumPerSimd avx512) := by omega
        rw [if_neg c1, if_pos c2, if_pos c3]
        congr 1
        have : d * cfg.kTransposeBlockSize + (k % cfg.BS_ANT_NUM - d) * cfg.kTransposeBlockSize
            = k % cfg.BS_ANT_NUM * cfg.kTransposeBlockSize := by
          rw [← Nat.add_mul]
          congr 1
          omega
        omega
      · have c2 : ¬ (k / cfg.BS_ANT_NUM < kSCsPerCacheline ∧ d ≤ k % cfg.BS_ANT_NUM
            ∧ k % cfg.BS_ANT_NUM < d + kAntNumPerSimd avx512) := fun c => h2 c.2
        by_cases h3 : d + kAntNumPerSimd avx512 ≤ k % cfg.BS_ANT_NUM
            ∧ k % cfg.BS_ANT_NUM
              < d + kAntNumPerSimd avx512 + l.length * kAntNumPerSimd avx512
        · have c1 : k / cfg.BS_ANT_NUM < kSCsPerCacheline
            ∧ d + kAntNumPerSimd avx512 ≤ k % cfg.BS_ANT_NUM
            ∧ k % cfg.BS_ANT_NUM
              < d + kAntNumPerSimd avx512 + l.length * kAntNumPerSimd avx512 := ⟨h1, h3⟩
          have c3 : k / cfg.BS_ANT_NUM < kSCsPerCacheline ∧ d ≤ k % cfg.BS_ANT_NUM
            ∧ k % cfg.BS_ANT_NUM
              < d + (l.length * kAntNumPerSimd avx512 + kAntNumPerSimd avx512) := by omega
          rw [if_pos c1, if_pos c3]
        · have c1 : ¬ (k / cfg.BS_ANT_NUM < kSCsPerCacheline
            ∧ d + kAntNumPerSimd avx512 ≤ k % cfg.BS_ANT_NUM
            ∧ k % cfg.BS_ANT_NUM
              < d + kAntNumPerSimd avx512 + l.length * kAntNumPerSimd avx512) := fun c => h3 c.2
          have c3 : ¬ (k / cfg.BS_ANT_NUM < kSCsPerCacheline ∧ d ≤ k % cfg.BS_ANT_NUM
            ∧ k % cfg.BS_ANT_NUM
              < d + (l.length * kAntNumPerSimd avx512 + kAntNumPerSimd avx512)) := by omega
          rw [if_neg c1, if_neg c2, if_neg c3]
    · have c1 : ¬ (k / cfg.BS_ANT_NUM < kSCsPerCacheline
            ∧ d + kAntNumPerSimd avx512 ≤ k % cfg.BS_ANT_NUM
            ∧ k % cfg.BS_ANT_NUM
              < d + kAntNumPerSimd avx512 + l.length * kAntNumPerSimd avx512) := fun c => h1 c.1
      have c2 : ¬ (k / cfg.BS_ANT_NUM < kSCsPerCacheline ∧ d ≤ k % cfg.BS_ANT_NUM
            ∧ k % cfg.BS_ANT_NUM < d + kAntNumPerSimd avx512) := fun c => h1 c.1
      have c3 : ¬ (k / cfg.BS_ANT_NUM < kSCsPerCacheline ∧ d ≤ k % cfg.BS_ANT_NUM
            ∧ k % cfg.BS_ANT_NUM
              < d + (l.length * kAntNumPerSimd avx512 + kAntNumPerSimd avx512)) := fun c => h1 c.1
      rw [if_neg c1, if_neg c2, if_neg c3]

/-- The subcarriers of one cacheline lie in one transpose block: for `x` and `B`
multiples of `c` and `j < c`, `x + j` has the block of `x` and the offset of `x`
plus `j`. -/
theorem cacheline_same_block {c B x j : Nat} (hB : c ∣ B) (hx : c ∣ x) (hj : j < c) :
    (x + j) / B = x / B ∧ (x + j) % B = x % B + j := by
  rcases Nat.eq_zero_or_pos B with h0 | hpos
  · subst h0; simp
  · obtain ⟨q, rfl⟩ := hB
    obtain ⟨y, rfl⟩ := hx
    have hc : 0 < c := by omega
    have hq : 0 < q := by
      rcases Nat.eq_zero_or_pos q with h | h
      · subst h; simp at hpos
      · exact h
    -- write y = q * (y / q) + y % q
    have hy := Nat.div_add_mod y q
    have hr : y % q < q := Nat.mod_lt _ hq
    have hlt : c * (y % q) + j < c * q := by
      have : c * (y % q + 1) ≤ c * q := Nat.mul_le_mul_left c hr
      have e : c * (y % q + 1) = c * (y % q) + c := by ring
      omega
    have hlt0 : c * (y % q) < c * q := by omega
    have e1 : c * y + j = (c * (y % q) + j) + c * q * (y / q) := by
      calc c * y + j = c * (q * (y / q) + y % q) + j := by rw [hy]
        _ = (c * (y % q) + j) + c * q * (y / q) := by ring
    have e2 : c * y = c * (y % q) + c * q * (y / q) := by
      calc c * y = c * (q * (y / q) + y % q) := by rw [hy]
        _ = c * (y % q) + c * q * (y / q) := by ring
    refine ⟨?_, ?_⟩
    · rw [e1, Nat.add_mul_div_left _ _ hpos, Nat.div_eq_of_lt hlt]
      conv_rhs => rw [e2, Nat.add_mul_div_left _ _ hpos, Nat.div_eq_of_lt hlt0]
    · rw [e1, Nat.add_mul_mod_self_left, Nat.mod_eq_of_lt hlt]
      conv_rhs => rw [e2, Nat.add_mul_mod_self_left, Nat.mod_eq_of_lt hlt0]

theorem loopSteps_length_of_dvd {n step : Nat} (hs : 0 < step) (hd : step ∣ n) :
    (loopSteps n step).length * step = n := by
  obtain ⟨q, rfl⟩ := hd
  have hq : (step * q + step - 1) / step = q := by
    have : step * q + step - 1 = step - 1 + step * q := by omega
    rw [this, Nat.add_mul_div_left _ _ hs, Nat.div_eq_of_lt (by omega)]
    simp
  simp only [loopSteps, List.length_map, List.length_range, hq]
  exact Nat.mul_comm _ _

/-- The SIMD gather, when the antenna count is a multiple of `kAntNumPerSimd`,
index by index. -/
theorem Launch_simd_gather_apply {α : Type} (cfg : Config) (avx512 : Bool)
    (data_buf g : Nat → complex_float α)
    (hB : kSCsPerCacheline ∣ cfg.kTransposeBlockSize)
    (hA : cfg.BS_ANT_NUM % kAntNumPerSimd avx512 = 0) (base_sc_id i : Nat)
    (hsc : kSCsPerCacheline ∣ base_sc_id + i) (k : Nat) :
    Launch_simd_gather cfg avx512 data_buf g
        ((base_sc_id + i) / cfg.kTransposeBlockSize
            * (cfg.kTransposeBlockSize * cfg.BS_ANT_NUM)
          + (base_sc_id + i) % cfg.kTransposeBlockSize) k
      = if k < kSCsPerCacheline * cfg.BS_ANT_NUM then gathered_sample cfg data_buf base_sc_id i k
        else g k := by
  have hw : 0 < kAntNumPerSimd avx512 := by cases avx512 <;> decide
  have hB1 : cfg.kTransposeBlockSize ≠ 1 := by
    intro h
    rw [h] at hB
    exact absurd (Nat.le_of_dvd (by decide) hB) (by decide)
  have hlen := loopSteps_length_of_dvd hw (Nat.dvd_of_mod_eq_zero hA)
  have h := Launch_simd_gather_cols cfg avx512 data_buf hB1
    ((base_sc_id + i) / cfg.kTransposeBlockSize
            * (cfg.kTransposeBlockSize * cfg.BS_ANT_NUM)
          + (base_sc_id + i) % cfg.kTransposeBlockSize) k
    (loopSteps cfg.BS_ANT_NUM (kAntNumPerSimd avx512)) 0 (asFloats g) (by omega)
  simp only [Nat.zero_mul, Nat.add_zero, Nat.mul_zero, Nat.zero_add, Nat.zero_le, true_and,
    hlen, ofFloats_asFloats] at h
  unfold Launch_simd_gather
  rw [h]
  rcases Nat.eq_zero_or_pos cfg.BS_ANT_NUM with h0 | hpos
  · have c1 : ¬ (k / cfg.BS_ANT_NUM < kSCsPerCacheline ∧ k % cfg.BS_ANT_NUM < cfg.BS_ANT_NUM) := by
      omega
    have c2 : ¬ (k < kSCsPerCacheline * cfg.BS_ANT_NUM) := by rw [h0]; omega
    rw [if_neg c1, if_neg c2]
  · have hmod : k % cfg.BS_ANT_NUM < cfg.BS_ANT_NUM := Nat.mod_lt _ hpos
    by_cases hk : k < kSCsPerCacheline * cfg.BS_ANT_NUM
    · have hdiv : k / cfg.BS_ANT_NUM < kSCsPerCacheline :=
        Nat.div_lt_of_lt_mul (by rw [Nat.mul_comm]; exact hk)
      rw [if_pos ⟨hdiv, hmod⟩, if_pos hk]
      have hsame := (cacheline_same_block hB hsc hdiv).2
      unfold gathered_sample
      congr 1
      omega
    · have hdiv : ¬ k / cfg.BS_ANT_NUM < kSCsPerCacheline := by
        intro hlt
        apply hk
        have := (Nat.div_lt_iff_lt_mul hpos).1 hlt
        exact this
      have c1 : ¬ (k / cfg.BS_ANT_NUM < kSCsPerCacheline ∧ k % cfg.BS_ANT_NUM < cfg.BS_ANT_NUM) :=
        fun c => hdiv c.1
      rw [if_neg c1, if_neg hk]

/-- Step 1 of `DoDemul::Launch`, index by index: whichever branch runs, rows
`0 .. kSCsPerCacheline-1`, columns `0 .. A-1` of `data_gather_buffer_` receive the
samples of the cacheline, and nothing else changes. -/
theorem Launch_gather_apply {α : Type} (cfg : Config) (avx512 : Bool)
    (data_buf g : Nat → complex_float α)
    (hB : kSCsPerCacheline ∣ cfg.kTransposeBlockSize) (base_sc_id i : Nat)
    (hsc : kSCsPerCacheline ∣ base_sc_id + i) (k : Nat) :
    Launch_gather cfg avx512 data_buf g base_sc_id i k
      = if k < kSCsPerCacheline * cfg.BS_ANT_NUM then gathered_sample cfg data_buf base_sc_id i k
        else g k := by
  unfold Launch_gather
  by_cases hA : cfg.BS_ANT_NUM % kAntNumPerSimd avx512 = 0
  · simp only [kUseSIMDGather, kUsePartialTrans, Bool.and_self, Bool.true_and, hA, beq_self_eq_true,
      if_true, Nat.sub_zero, Nat.lt_irrefl, if_false]
    exact Launch_simd_gather_apply cfg avx512 data_buf g hB hA base_sc_id i hsc k
  · have hbeq : (cfg.BS_ANT_NUM % kAntNumPerSimd avx512 == 0) = false := by
      simpa using hA
    simp only [kUseSIMDGather, kUsePartialTrans, Bool.and_self, Bool.true_and, hbeq,
      Bool.false_eq_true, if_false]
    have hpos : 0 < cfg.BS_ANT_NUM := by
      rcases Nat.eq_zero_or_pos cfg.BS_ANT_NUM with h | h
      · rw [h] at hA; simp at hA
      · exact h
    rw [if_pos hpos]
    exact Launch_scalar_gather_apply cfg data_buf g base_sc_id i k

/-! ## Buffers filled by a sequence of packets -/

/-- The buffer after the packets of the antennas `ants` (each below `A`), index by
index: an index of the first `N_d / B_tr` blocks whose antenna coordinate is in
`ants` holds the transposed sample of that antenna; every other index keeps its
initial value. -/
theorem fill_apply {α : Type} [Mul α] [Add α] [Sub α] (cfg : Config)
    (p : Nat → complex_float α) (fft : Nat → Nat → complex_float α) (st : SymbolType)
    (hst : st = SymbolType.kPilot ∨ st = SymbolType.kUL)
    (hB : kSCsPerCacheline ∣ cfg.kTransposeBlockSize) (ants : List Nat)
    (hants : ∀ a ∈ ants, a < cfg.BS_ANT_NUM) (init : Nat → complex_float α) (k : Nat) :
    ((k / (cfg.kTransposeBlockSize * cfg.BS_ANT_NUM) < cfg.OFDM_DATA_NUM / cfg.kTransposeBlockSize
        ∧ k % (cfg.kTransposeBlockSize * cfg.BS_ANT_NUM) / cfg.kTransposeBlockSize ∈ ants) →
      ants.foldl (fun buf ant_id => partial_transpose cfg p (fft ant_id) buf ant_id st) init k
        = transposed_sample cfg p
            (fft (k % (cfg.kTransposeBlockSize * cfg.BS_ANT_NUM) / cfg.kTransposeBlockSize))
            st k) ∧
    (¬ (k / (cfg.kTransposeBlockSize * cfg.BS_ANT_NUM)
          < cfg.OFDM_DATA_NUM / cfg.kTransposeBlockSize
        ∧ k % (cfg.kTransposeBlockSize * cfg.BS_ANT_NUM) / cfg.kTransposeBlockSize ∈ ants) →
      ants.foldl (fun buf ant_id => partial_transpose cfg p (fft ant_id) buf ant_id st) init k
        = init k) := by
  have h := foldl_writes
    (fun ant_id buf => partial_transpose cfg p (fft ant_id) buf ant_id st)
    (fun a k => k / (cfg.kTransposeBlockSize * cfg.BS_ANT_NUM)
          < cfg.OFDM_DATA_NUM / cfg.kTransposeBlockSize
        ∧ k % (cfg.kTransposeBlockSize * cfg.BS_ANT_NUM) / cfg.kTransposeBlockSize = a)
    (fun k => transposed_sample cfg p
      (fft (k % (cfg.kTransposeBlockSize * cfg.BS_ANT_NUM) / cfg.kTransposeBlockSize)) st k)
    k ants
    (fun a ha buf hw => by
      have hw' : k / (cfg.kTransposeBlockSize * cfg.BS_ANT_NUM)
            < cfg.OFDM_DATA_NUM / cfg.kTransposeBlockSize
          ∧ k % (cfg.kTransposeBlockSize * cfg.BS_ANT_NUM) / cfg.kTransposeBlockSize = a := hw
      show partial_transpose cfg p (fft a) buf a st k = transposed_sample cfg p
        (fft (k % (cfg.kTransposeBlockSize * cfg.BS_ANT_NUM) / cfg.kTransposeBlockSize)) st k
      rw [partial_transpose_apply cfg p (fft a) buf a st hst hB (hants a ha), if_pos hw', hw'.2])
    (fun a ha buf hw => by
      have hw' : ¬ (k / (cfg.kTransposeBlockSize * cfg.BS_ANT_NUM)
            < cfg.OFDM_DATA_NUM / cfg.kTransposeBlockSize
          ∧ k % (cfg.kTransposeBlockSize * cfg.BS_ANT_NUM) / cfg.kTransposeBlockSize = a) := hw
      show partial_transpose cfg p (fft a) buf a st k = buf k
      rw [partial_transpose_apply cfg p (fft a) buf a st hst hB (hants a ha), if_neg hw'])
    init
  refine ⟨fun hk => h.1 ⟨_, hk.2, hk.1, rfl⟩, fun hk => h.2 ?_⟩
  rintro a ha ⟨h1, h2⟩
  exact hk ⟨h1, h2 ▸ ha⟩

/-! ## The claims on the partial transpose and the gather -/

/-- C1. For a pilot-symbol call of `DoFFT::partial_transpose` for antenna
`ant < A` (with `B_cl` dividing `B_tr`), the output buffer afterwards satisfies,
for every `block < N_d / B_tr` and `j < B_tr`,
`csi[block*B_tr*A + ant*B_tr + j] = fft[DATA_START + block*B_tr + j] * pilot_sign[block*B_tr + j]`. -/
theorem partial_transpose_pilot_layout {α : Type} [Mul α] [Add α] [Sub α] (cfg : Config)
    (pilots_sgn_ fft_inout csi_buf : Nat → complex_float α) (ant block j : Nat)
    (hB : kSCsPerCacheline ∣ cfg.kTransposeBlockSize) (hant : ant < cfg.BS_ANT_NUM)
    (hblock : block < cfg.OFDM_DATA_NUM / cfg.kTransposeBlockSize)
    (hj : j < cfg.kTransposeBlockSize) :
    partial_transpose cfg pilots_sgn_ fft_inout csi_buf ant SymbolType.kPilot
        (block * cfg.kTransposeBlockSize * cfg.BS_ANT_NUM + ant * cfg.kTransposeBlockSize + j)
      = fft_inout (cfg.OFDM_DATA_START + block * cfg.kTransposeBlockSize + j)
          * pilots_sgn_ (block * cfg.kTransposeBlockSize + j) := by
  obtain ⟨h1, h2, h3⟩ := layout_decomp hj hant
    (show block * cfg.kTransposeBlockSize * cfg.BS_ANT_NUM + ant * cfg.kTransposeBlockSize + j
      = block * (cfg.kTransposeBlockSize * cfg.BS_ANT_NUM) + ant * cfg.kTransposeBlockSize + j
      by rw [Nat.mul_assoc])
  rw [partial_transpose_apply cfg pilots_sgn_ fft_inout csi_buf ant SymbolType.kPilot
    (Or.inl rfl) hB hant, if_pos ⟨by rw [h1]; exact hblock, h2⟩]
  simp only [transposed_sample, if_true, h1, h3]
  have e : block * cfg.kTransposeBlockSize + j + cfg.OFDM_DATA_START
      = cfg.OFDM_DATA_START + block * cfg.kTransposeBlockSize + j := by omega
  rw [e]

/-- C2. Round trip of partial transpose and gather for an uplink data symbol: if
the data buffer was filled by `partial_transpose` from `fft a` for every antenna
`a < A` (the packets arriving in any order `ants`), then after step 1 of
`DoDemul::Launch` for the cacheline starting at subcarrier `base_sc_id + i`
(`B_cl` dividing `B_tr` and `base_sc_id + i`, `B_tr` dividing `N_d`,
`base_sc_id + i + B_cl ≤ N_d`), the gather buffer holds
`data_gather_buffer[j*A + a] = fft a [DATA_START + base_sc_id + i + j]` for all
`j < B_cl`, `a < A`: the FFT output itself, without a pilot-sign factor. -/
theorem gather_partial_transpose_roundtrip {α : Type} [Mul α] [Add α] [Sub α] (cfg : Config)
    (avx512 : Bool) (pilots_sgn_ : Nat → complex_float α) (fft : Nat → Nat → complex_float α)
    (ants : List Nat) (data_buf data_gather_buffer_ : Nat → complex_float α)
    (base_sc_id i : Nat)
    (hB : kSCsPerCacheline ∣ cfg.kTransposeBlockSize)
    (hN : cfg.kTransposeBlockSize ∣ cfg.OFDM_DATA_NUM)
    (hants : ∀ a, a ∈ ants ↔ a < cfg.BS_ANT_NUM)
    (hsc : kSCsPerCacheline ∣ base_sc_id + i)
    (hle : base_sc_id + i + kSCsPerCacheline ≤ cfg.OFDM_DATA_NUM) :
    ∀ j a, j < kSCsPerCacheline → a < cfg.BS_ANT_NUM →
      Launch_gather cfg avx512 (fill_data_buffer cfg pilots_sgn_ fft ants data_buf)
          data_gather_buffer_ base_sc_id i (j * cfg.BS_ANT_NUM + a)
        = fft a (cfg.OFDM_DATA_START + base_sc_id + i + j) := by
  intro j a hj ha
  have hApos : 0 < cfg.BS_ANT_NUM := by omega
  have hk : j * cfg.BS_ANT_NUM + a < kSCsPerCacheline * cfg.BS_ANT_NUM := by
    have : (j + 1) * cfg.BS_ANT_NUM ≤ kSCsPerCacheline * cfg.BS_ANT_NUM :=
      Nat.mul_le_mul_right _ hj
    have e : (j + 1) * cfg.BS_ANT_NUM = j * cfg.BS_ANT_NUM + cfg.BS_ANT_NUM := by ring
    omega
  have e1 : (j * cfg.BS_ANT_NUM + a) / cfg.BS_ANT_NUM = j := by
    rw [Nat.add_comm, Nat.mul_comm, Nat.add_mul_div_left _ _ hApos, Nat.div_eq_of_lt ha,
      Nat.zero_add]
  have e2 : (j * cfg.BS_ANT_NUM + a) % cfg.BS_ANT_NUM = a := by
    rw [Nat.add_comm, Nat.mul_comm, Nat.add_mul_mod_self_left, Nat.mod_eq_of_lt ha]
  rw [Launch_gather_apply cfg avx512 _ _ hB base_sc_id i hsc, if_pos hk]
  simp only [gathered_sample, e1, e2]
  -- the subcarrier base_sc_id + i + j, its block and its offset in the block
  obtain ⟨hblk, hoff⟩ := cacheline_same_block hB hsc hj
  have hBpos : 0 < cfg.kTransposeBlockSize := by
    rcases Nat.eq_zero_or_pos cfg.kTransposeBlockSize with h | h
    · rw [h] at hN
      have := Nat.eq_zero_of_zero_dvd hN
      omega
    · exact h
  have hmodlt : (base_sc_id + i + j) % cfg.kTransposeBlockSize < cfg.kTransposeBlockSize :=
    Nat.mod_lt _ hBpos
  have hdm := Nat.div_add_mod (base_sc_id + i + j) cfg.kTransposeBlockSize
  rw [hblk] at hdm
  obtain ⟨d1, d2, d3⟩ := layout_decomp hmodlt ha (rfl :
    (base_sc_id + i) / cfg.kTransposeBlockSize * (cfg.kTransposeBlockSize * cfg.BS_ANT_NUM)
      + a * cfg.kTransposeBlockSize + (base_sc_id + i + j) % cfg.kTransposeBlockSize = _)
  have hblock : (base_sc_id + i) / cfg.kTransposeBlockSize
      < cfg.OFDM_DATA_NUM / cfg.kTransposeBlockSize := by
    rw [Nat.div_lt_iff_lt_mul hBpos, Nat.div_mul_cancel hN]
    have := Nat.mod_add_div (base_sc_id + i) cfg.kTransposeBlockSize
    omega
  have hfill := (fill_apply cfg pilots_sgn_ fft SymbolType.kUL (Or.inr rfl) hB
    ants (fun a ha => (hants a).1 ha) data_buf
    ((base_sc_id + i) / cfg.kTransposeBlockSize * (cfg.kTransposeBlockSize * cfg.BS_ANT_NUM)
      + a * cfg.kTransposeBlockSize + (base_sc_id + i + j) % cfg.kTransposeBlockSize)).1
    ⟨by rw [d1]; exact hblock, by rw [d2]; exact (hants a).2 ha⟩
  unfold fill_data_buffer
  rw [hfill]
  simp only [transposed_sample, reduceCtorEq, if_false, d1, d2, d3]
  congr 1
  rw [Nat.mul_comm] at hdm
  omega

/-- C3. Antenna arrival order does not matter: for a pilot symbol, handling the
packets of a list of antennas (each below `A`, `B_cl` dividing `B_tr`) in any
permuted order yields the same CSI buffer, in particular the one of the
increasing order; and the call for one antenna leaves alone every index whose
antenna coordinate is another antenna, so calls for distinct antennas write
disjoint index sets. -/
theorem fill_csi_buffer_order_irrelevant {α : Type} [Mul α] [Add α] [Sub α] (cfg : Config)
    (pilots_sgn_ : Nat → complex_float α) (fft : Nat → Nat → complex_float α)
    (csi_buf : Nat → complex_float α) (ants ants' : List Nat)
    (hB : kSCsPerCacheline ∣ cfg.kTransposeBlockSize)
    (hants : ∀ a ∈ ants, a < cfg.BS_ANT_NUM) (hperm : ants.Perm ants') :
    fill_csi_buffer cfg pilots_sgn_ fft ants csi_buf
        = fill_csi_buffer cfg pilots_sgn_ fft ants' csi_buf ∧
    ∀ a ∈ ants, ∀ (buf : Nat → complex_float α) (k : Nat),
      k % (cfg.kTransposeBlockSize * cfg.BS_ANT_NUM) / cfg.kTransposeBlockSize ≠ a →
      partial_transpose cfg pilots_sgn_ (fft a) buf a SymbolType.kPilot k = buf k := by
  refine ⟨?_, ?_⟩
  · funext k
    have hants' : ∀ a ∈ ants', a < cfg.BS_ANT_NUM := fun a ha => hants a (hperm.mem_iff.2 ha)
    have h1 := fill_apply cfg pilots_sgn_ fft SymbolType.kPilot (Or.inl rfl) hB ants hants
      csi_buf k
    have h2 := fill_apply cfg pilots_sgn_ fft SymbolType.kPilot (Or.inl rfl) hB ants' hants'
      csi_buf k
    unfold fill_csi_buffer
    by_cases hk : k / (cfg.kTransposeBlockSize * cfg.BS_ANT_NUM)
          < cfg.OFDM_DATA_NUM / cfg.kTransposeBlockSize
        ∧ k % (cfg.kTransposeBlockSize * cfg.BS_ANT_NUM) / cfg.kTransposeBlockSize ∈ ants
    · rw [h1.1 hk, h2.1 ⟨hk.1, hperm.mem_iff.1 hk.2⟩]
    · rw [h1.2 hk, h2.2 (fun c => hk ⟨c.1, hperm.mem_iff.2 c.2⟩)]
  · intro a ha buf k hk
    rw [partial_transpose_apply cfg pilots_sgn_ (fft a) buf a SymbolType.kPilot (Or.inl rfl) hB
      (hants a ha), if_neg (fun c => hk c.2)]

/-- C4. For every antenna count `A`, multiple of `kAntNumPerSimd` or not, the
gather buffer produced by step 1 of `DoDemul::Launch` is, entry by entry, the
buffer the all-scalar path produces, for every cacheline with `B_cl` dividing
`B_tr` and `base_sc_id + i`. -/
theorem Launch_gather_eq_scalar {α : Type} (cfg : Config) (avx512 : Bool)
    (data_buf data_gather_buffer_ : Nat → complex_float α) (base_sc_id i : Nat)
    (hB : kSCsPerCacheline ∣ cfg.kTransposeBlockSize)
    (hsc : kSCsPerCacheline ∣ base_sc_id + i) (k : Nat) :
    Launch_gather cfg avx512 data_buf data_gather_buffer_ base_sc_id i k
      = Launch_scalar_gather cfg data_buf data_gather_buffer_
          ((base_sc_id + i) / cfg.kTransposeBlockSize
            * (cfg.kTransposeBlockSize * cfg.BS_ANT_NUM)) base_sc_id i 0 k := by
  rw [Launch_gather_apply cfg avx512 data_buf data_gather_buffer_ hB base_sc_id i hsc,
    Launch_scalar_gather_apply]

theorem partial_transpose_pilot_layout_witness :
    (kSCsPerCacheline ∣ exampleConfig.kTransposeBlockSize ∧ 1 < exampleConfig.BS_ANT_NUM
      ∧ 1 < exampleConfig.OFDM_DATA_NUM / exampleConfig.kTransposeBlockSize
      ∧ 5 < exampleConfig.kTransposeBlockSize) ∧
    partial_transpose exampleConfig examplePilots (exampleFft 1) exampleBuf 1 SymbolType.kPilot
        (1 * exampleConfig.kTransposeBlockSize * exampleConfig.BS_ANT_NUM
          + 1 * exampleConfig.kTransposeBlockSize + 5)
      = exampleFft 1 (exampleConfig.OFDM_DATA_START + 1 * exampleConfig.kTransposeBlockSize + 5)
          * examplePilots (1 * exampleConfig.kTransposeBlockSize + 5) :=
  ⟨by decide,
   partial_transpose_pilot_layout exampleConfig examplePilots (exampleFft 1) exampleBuf 1 1 5
    (by decide) (by decide) (by decide) (by decide)⟩

theorem gather_partial_transpose_roundtrip_witness :
    (kSCsPerCacheline ∣ exampleConfig.kTransposeBlockSize
      ∧ exampleConfig.kTransposeBlockSize ∣ exampleConfig.OFDM_DATA_NUM
      ∧ (∀ a, a ∈ [2, 0, 3, 1] ↔ a < exampleConfig.BS_ANT_NUM)
      ∧ kSCsPerCacheline ∣ 8 + 0 ∧ 8 + 0 + kSCsPerCacheline ≤ exampleConfig.OFDM_DATA_NUM) ∧
    ∀ j a, j < kSCsPerCacheline → a < exampleConfig.BS_ANT_NUM →
      Launch_gather exampleConfig false
          (fill_data_buffer exampleConfig examplePilots exampleFft [2, 0, 3, 1] exampleBuf)
          exampleBuf 8 0 (j * exampleConfig.BS_ANT_NUM + a)
        = exampleFft a (exampleConfig.OFDM_DATA_START + 8 + 0 + j) :=
  have hants : ∀ a, a ∈ [2, 0, 3, 1] ↔ a < exampleConfig.BS_ANT_NUM := by
    intro a
    simp only [List.mem_cons, List.mem_singleton, List.not_mem_nil, or_false, exampleConfig]
    omega
  ⟨⟨by decide, by decide, hants, by decide, by decide⟩,
   gather_partial_transpose_roundtrip exampleConfig false examplePilots exampleFft [2, 0, 3, 1]
    exampleBuf exampleBuf 8 0 (by decide) (by decide) hants (by decide) (by decide)⟩

theorem fill_csi_buffer_order_irrelevant_witness :
    (kSCsPerCacheline ∣ exampleConfig.kTransposeBlockSize
      ∧ (∀ a ∈ [2, 0, 3, 1], a < exampleConfig.BS_ANT_NUM)
      ∧ [2, 0, 3, 1].Perm [0, 1, 2, 3]) ∧
    (fill_csi_buffer exampleConfig examplePilots exampleFft [2, 0, 3, 1] exampleBuf
        = fill_csi_buffer exampleConfig examplePilots exampleFft [0, 1, 2, 3] exampleBuf ∧
      ∀ a ∈ [2, 0, 3, 1], ∀ (buf : Nat → complex_float Int) (k : Nat),
        k % (exampleConfig.kTransposeBlockSize * exampleConfig.BS_ANT_NUM)
            / exampleConfig.kTransposeBlockSize ≠ a →
        partial_transpose exampleConfig examplePilots (exampleFft a) buf a SymbolType.kPilot k
          = buf k) :=
  ⟨⟨by decide, by decide, by decide⟩,
   fill_csi_buffer_order_irrelevant exampleConfig examplePilots exampleFft exampleBuf
    [2, 0, 3, 1] [0, 1, 2, 3] (by decide) (by decide) (by decide)⟩

theorem Launch_gather_eq_scalar_witness :
    (kSCsPerCacheline ∣ exampleConfig3.kTransposeBlockSize ∧ kSCsPerCacheline ∣ 8 + 0) ∧
    Launch_gather exampleConfig3 false
        (fill_data_buffer exampleConfig3 examplePilots exampleFft [0, 1, 2] exampleBuf) exampleBuf 8 0 7
      = Launch_scalar_gather exampleConfig3
          (fill_data_buffer exampleConfig3 examplePilots exampleFft [0, 1, 2] exampleBuf) exampleBuf
          ((8 + 0) / exampleConfig3.kTransposeBlockSize
            * (exampleConfig3.kTransposeBlockSize * exampleConfig3.BS_ANT_NUM)) 8 0 0 7 :=
  ⟨by decide,
   Launch_gather_eq_scalar exampleConfig3 false
    (fill_data_buffer exampleConfig3 examplePilots exampleFft [0, 1, 2] exampleBuf) exampleBuf 8 0
    (by decide) (by decide) 7⟩

/-! ## The block of subcarriers of one `DoDemul::Launch` -/

theorem size_t_sub_of_le {a b : Nat} (ha : a < 2 ^ 64) (hb : b ≤ a) : size_t_sub a b = a - b := by
  unfold size_t_sub
  rw [Nat.mod_eq_of_lt ha, Nat.mod_eq_of_lt (lt_of_le_of_lt hb ha)]
  have : a + 2 ^ 64 - b = (a - b) + 2 ^ 64 := by omega
  rw [this, Nat.add_mod_right, Nat.mod_eq_of_lt (by omega)]

theorem length_flatMap_rows (c : Nat) (f : Nat → Nat → Nat) (l : List Nat) :
    (l.flatMap (fun i => (List.range c).map (fun j => f i j))).length = l.length * c := by
  induction l with
  | nil => simp
  | cons x l ih =>
    rw [List.flatMap_cons, List.length_append, ih, List.length_map, List.length_range,
      List.length_cons]
    ring

theorem mem_Launch_cur_sc_ids {cfg : Config} {base_sc_id : Nat} {ids : List Nat}
    (h : Launch_cur_sc_ids cfg base_sc_id = some ids) :
    max_sc_ite cfg base_sc_id % kSCsPerCacheline = 0 ∧
      ids.length = max_sc_ite cfg base_sc_id ∧
      ∀ sc ∈ ids, base_sc_id ≤ sc ∧ sc < base_sc_id + max_sc_ite cfg base_sc_id := by
  unfold Launch_cur_sc_ids at h
  by_cases hm : max_sc_ite cfg base_sc_id % kSCsPerCacheline = 0
  · rw [if_pos hm] at h
    have hd : kSCsPerCacheline ∣ max_sc_ite cfg base_sc_id := Nat.dvd_of_mod_eq_zero hm
    injection h with h
    subst h
    refine ⟨hm, ?_, ?_⟩
    · have hlen := loopSteps_length_of_dvd (show 0 < kSCsPerCacheline by decide) hd
      rw [length_flatMap_rows, hlen]
    · intro sc hsc
      simp only [List.mem_flatMap, List.mem_map, List.mem_range] at hsc
      obtain ⟨i, hi, j, hj, rfl⟩ := hsc
      rw [mem_loopSteps_of_dvd (by decide) hd] at hi
      obtain ⟨hilt, t, rfl⟩ := hi
      obtain ⟨q, hq⟩ := hd
      simp only [kSCsPerCacheline] at hj hq hilt ⊢
      omega
  · rw [if_neg hm] at h
    exact absurd h (by simp)

/-- C5. Block clipping in `DoDemul::Launch`: for every `base_sc_id ≤ N_d` the
number of processed subcarriers is `K = min(B_dem, N_d - base_sc_id)`; when
`base_sc_id + B_dem > N_d` this is `N_d - base_sc_id`; in every case
`base_sc_id + K ≤ N_d`, and a launch that passes its assertion processes `K`
subcarriers, all in `[base_sc_id, N_d)`. -/
theorem Launch_block_clipping (cfg : Config) (base_sc_id : Nat)
    (hN : cfg.OFDM_DATA_NUM < 2 ^ 64) (hbase : base_sc_id ≤ cfg.OFDM_DATA_NUM) :
    max_sc_ite cfg base_sc_id = min cfg.DemulBlockSize (cfg.OFDM_DATA_NUM - base_sc_id) ∧
    (cfg.OFDM_DATA_NUM < base_sc_id + cfg.DemulBlockSize →
      max_sc_ite cfg base_sc_id = cfg.OFDM_DATA_NUM - base_sc_id) ∧
    base_sc_id + max_sc_ite cfg base_sc_id ≤ cfg.OFDM_DATA_NUM ∧
    ∀ ids, Launch_cur_sc_ids cfg base_sc_id = some ids →
      ids.length = min cfg.DemulBlockSize (cfg.OFDM_DATA_NUM - base_sc_id) ∧
      ∀ sc ∈ ids, base_sc_id ≤ sc ∧ sc < cfg.OFDM_DATA_NUM := by
  have hK : max_sc_ite cfg base_sc_id
      = min cfg.DemulBlockSize (cfg.OFDM_DATA_NUM - base_sc_id) := by
    unfold max_sc_ite
    rw [size_t_sub_of_le hN hbase]
  refine ⟨hK, ?_, ?_, ?_⟩
  · intro h
    rw [hK]
    omega
  · rw [hK]
    omega
  · intro ids hids
    obtain ⟨-, hlen, hmem⟩ := mem_Launch_cur_sc_ids hids
    refine ⟨by rw [hlen, hK], fun sc hsc => ?_⟩
    have := hmem sc hsc
    rw [hK] at this
    omega

theorem Launch_block_clipping_witness :
    (exampleConfigClip.OFDM_DATA_NUM < 2 ^ 64 ∧ 32 ≤ exampleConfigClip.OFDM_DATA_NUM) ∧
    (max_sc_ite exampleConfigClip 32
        = min exampleConfigClip.DemulBlockSize (exampleConfigClip.OFDM_DATA_NUM - 32) ∧
    (exampleConfigClip.OFDM_DATA_NUM < 32 + exampleConfigClip.DemulBlockSize →
      max_sc_ite exampleConfigClip 32 = exampleConfigClip.OFDM_DATA_NUM - 32) ∧
    32 + max_sc_ite exampleConfigClip 32 ≤ exampleConfigClip.OFDM_DATA_NUM ∧
    ∀ ids, Launch_cur_sc_ids exampleConfigClip 32 = some ids →
      ids.length = min exampleConfigClip.DemulBlockSize (exampleConfigClip.OFDM_DATA_NUM - 32) ∧
      ∀ sc ∈ ids, 32 ≤ sc ∧ sc < exampleConfigClip.OFDM_DATA_NUM) :=
  ⟨by decide, Launch_block_clipping exampleConfigClip 32 (by decide) (by decide)⟩

/-- C6. The assertion `max_sc_ite % kSCsPerCacheline == 0` of `DoDemul::Launch`
holds whenever `B_cl` divides `B_dem` and `N_d` and `base_sc_id` is a multiple of
`B_dem` below `N_d`, the clipped last block included: the launch goes on to its
loops. -/
theorem Launch_assertion_holds (cfg : Config) (base_sc_id : Nat)
    (hN : cfg.OFDM_DATA_NUM < 2 ^ 64)
    (hdem : kSCsPerCacheline ∣ cfg.DemulBlockSize)
    (hnd : kSCsPerCacheline ∣ cfg.OFDM_DATA_NUM)
    (hbase : cfg.DemulBlockSize ∣ base_sc_id) (hlt : base_sc_id < cfg.OFDM_DATA_NUM) :
    max_sc_ite cfg base_sc_id % kSCsPerCacheline = 0 ∧
      (Launch_cur_sc_ids cfg base_sc_id).isSome = true := by
  have hm : max_sc_ite cfg base_sc_id % kSCsPerCacheline = 0 := by
    unfold max_sc_ite
    rw [size_t_sub_of_le hN (Nat.le_of_lt hlt)]
    have h1 : kSCsPerCacheline ∣ cfg.OFDM_DATA_NUM - base_sc_id :=
      Nat.dvd_sub' hnd (Dvd.dvd.trans hdem hbase)
    apply Nat.mod_eq_zero_of_dvd
    rcases Nat.le_total cfg.DemulBlockSize (cfg.OFDM_DATA_NUM - base_sc_id) with h | h
    · rw [Nat.min_eq_left h]; exact hdem
    · rw [Nat.min_eq_right h]; exact h1
  refine ⟨hm, ?_⟩
  unfold Launch_cur_sc_ids
  rw [if_pos hm]
  rfl

theorem Launch_assertion_holds_witness :
    (exampleConfigClip.OFDM_DATA_NUM < 2 ^ 64
      ∧ kSCsPerCacheline ∣ exampleConfigClip.DemulBlockSize
      ∧ kSCsPerCacheline ∣ exampleConfigClip.OFDM_DATA_NUM
      ∧ exampleConfigClip.DemulBlockSize ∣ 32 ∧ 32 < exampleConfigClip.OFDM_DATA_NUM) ∧
    (max_sc_ite exampleConfigClip 32 % kSCsPerCacheline = 0 ∧
      (Launch_cur_sc_ids exampleConfigClip 32).isSome = true) :=
  ⟨by decide,
   Launch_assertion_holds exampleConfigClip 32 (by decide) (by decide) (by decide) (by decide)
    (by decide)⟩

/-! ## `compute_precoder` -/

/-- C7. Zero-forcing identity: for every `A x U` channel matrix `H` (over any
field with conjugation, the complex numbers in particular) whose Gram matrix
`Hᴴ H` is invertible, `compute_precoder` returns normally without a warning, the
uplink beam matrix it writes is `W_ul = (Hᴴ H)⁻¹ Hᴴ`, and `W_ul * H = I`. -/
theorem compute_precoder_zero_forcing {K : Type} [Field K] [StarRing K] [DecidableEq K]
    {A U : Nat} (pinv : Matrix (Fin A) (Fin U) K → Matrix (Fin U) (Fin A) K)
    (abs_max : Matrix (Fin U) (Fin A) K → K) (H : Matrix (Fin A) (Fin U) K)
    (hH : (H.conjTranspose * H).det ≠ 0) :
    ∃ W_ul W_dl : Matrix (Fin U) (Fin A) K,
      compute_precoder pinv abs_max H = ⟨[], Except.ok (W_ul, W_dl)⟩ ∧
      W_ul = (H.conjTranspose * H)⁻¹ * H.conjTranspose ∧
      W_ul * H = 1 := by
  have hinv : (H.conjTranspose * H)⁻¹
      = (H.conjTranspose * H).det⁻¹ • (H.conjTranspose * H).adjugate := by
    rw [Matrix.inv_def, Ring.inverse_eq_inv']
  refine ⟨(H.conjTranspose * H).det⁻¹ • (H.conjTranspose * H).adjugate * H.conjTranspose,
    ((H.conjTranspose * H).det⁻¹ • (H.conjTranspose * H).adjugate * H.conjTranspose).map
      (fun x => x / abs_max
        ((H.conjTranspose * H).det⁻¹ • (H.conjTranspose * H).adjugate * H.conjTranspose)),
    ?_, ?_, ?_⟩
  · simp only [compute_precoder, arma.inv_sympd, if_neg hH]
  · rw [hinv]
  · rw [Matrix.mul_assoc, Matrix.smul_mul, Matrix.adjugate_mul, smul_smul,
      inv_mul_cancel₀ hH, one_smul]

theorem compute_precoder_zero_forcing_witness :
    (exampleChannel.conjTranspose * exampleChannel).det ≠ 0 ∧
    ∃ W_ul W_dl : Matrix (Fin 1) (Fin 2) ℚ,
      compute_precoder (fun _ => 0) (fun _ => 1) exampleChannel = ⟨[], Except.ok (W_ul, W_dl)⟩ ∧
      W_ul = (exampleChannel.conjTranspose * exampleChannel)⁻¹ * exampleChannel.conjTranspose ∧
      W_ul * exampleChannel = 1 :=
  have h : (exampleChannel.conjTranspose * exampleChannel).det ≠ 0 := by
    simp [Matrix.det_fin_one, Matrix.mul_apply, exampleChannel, Fin.sum_univ_two]
    norm_num
  ⟨h, compute_precoder_zero_forcing (fun _ => 0) (fun _ => 1) exampleChannel h⟩

/-- C8 (the code at a singular channel). For the rank-3 channel `diag(1,1,1,0)`,
`compute_precoder` logs the warning and then stops at `rt_assert(false)`: it does
not return normally and the pseudo-inverse is never computed, whatever `pinv`
would return. -/
theorem compute_precoder_singular_aborts
    (pinv : Matrix (Fin 4) (Fin 4) ℚ → Matrix (Fin 4) (Fin 4) ℚ)
    (abs_max : Matrix (Fin 4) (Fin 4) ℚ → ℚ) :
    compute_precoder pinv abs_max singularChannel
      = ⟨["Failed to invert channel matrix, falling back to pinv()\n"],
          Except.error "rt_assert failed"⟩ := by
  have hdet : (singularChannel.conjTranspose * singularChannel).det = 0 := by
    simp only [singularChannel, Matrix.diagonal_conjTranspose, Matrix.diagonal_mul_diagonal,
      Matrix.det_diagonal]
    exact Finset.prod_eq_zero (Finset.mem_univ (3 : Fin 4)) (by simp)
  simp only [compute_precoder, arma.inv_sympd, if_pos hdet, rt_assert]
  rfl

/-! ## Phase tracking and EVM in `DoDemul::Launch` -/

/-- C9 as stated fails: with `P_ul = 0`, the step for subcarrier 0 of uplink
symbol 0 of frame 0 makes no `UpdateEvm` call. -/
theorem Launch_phase_no_pilots_no_evm :
    (Launch_phase exampleNoPilots (fun _ _ => 1) (fun s => s) 0 0 0 examplePhaseState).evm_calls
      = [] := by
  simp [Launch_phase, exampleNoPilots, examplePhaseState]

/-- C9, amended. When `P_ul = 0`, the phase-tracking step of `DoDemul::Launch`
runs neither branch: the PhaseBuffer and the equalized samples are left as they
are and `UpdateEvm` is not invoked (the EVM update sits inside the branch guarded
by `P_ul > 0`). -/
theorem Launch_phase_no_pilots (cfg : PhaseConfig) (ue_pilot_data_ : Nat → Nat → ℂ)
    (ue_list : Nat → Nat) (frame_id symbol_idx_ul cur_sc_id : Nat) (st : PhaseState)
    (hP : cfg.ClientUlPilotSymbols = 0) :
    Launch_phase cfg ue_pilot_data_ ue_list frame_id symbol_idx_ul cur_sc_id st = st := by
  unfold Launch_phase
  rw [if_neg (by omega), if_neg (by omega)]

theorem Launch_phase_no_pilots_witness :
    exampleNoPilots.ClientUlPilotSymbols = 0 ∧
    Launch_phase exampleNoPilots (fun _ _ => 1) (fun s => s) 7 3 5 examplePhaseState
      = examplePhaseState :=
  ⟨rfl, Launch_phase_no_pilots exampleNoPilots (fun _ _ => 1) (fun s => s) 7 3 5
    examplePhaseState rfl⟩

/-- The sum of consecutive differences accumulated by the `theta_inc` loop. -/
theorem foldl_diff_telescope (f : Nat → ℝ) :
    ∀ (n s : Nat) (a : ℝ), 1 ≤ s →
      (List.range' s n).foldl (fun acc k => acc + (f k - f (k - 1))) a
        = a + (f (s + n - 1) - f (s - 1)) := by
  intro n
  induction n with
  | zero =>
    intro s a _
    simp
  | succ n ih =>
    intro s a hs
    rw [List.range'_succ, List.foldl_cons, ih (s + 1) _ (by omega)]
    have e1 : s + 1 + n - 1 = s + (n + 1) - 1 := by omega
    have e2 : s + 1 - 1 = s := by omega
    rw [e1, e2]
    ring

theorem static_cast_int_pilots {P : Nat} (h2 : 2 ≤ P) (hP : P ≤ 2 ^ 31) :
    max 1 (static_cast_int (size_t_sub P 1)) = ((P - 1 : Nat) : Int) := by
  have hsub : size_t_sub P 1 = P - 1 := by
    unfold size_t_sub
    have h1 : P % 2 ^ 64 = P := Nat.mod_eq_of_lt (by omega)
    rw [h1]
    norm_num
    omega
  have hmod : (P - 1) % 2 ^ 32 = P - 1 := Nat.mod_eq_of_lt (by omega)
  unfold static_cast_int
  rw [hsub, hmod, if_pos (by omega)]
  omega

/-- C10. Phase correction of a data symbol (`sym_idx_ul ≥ P_ul`, `P_ul ≥ 2`): for
every stream `s` the equalized sample becomes
`y[s] * exp(-j (theta_0[s] + sym_idx_ul * dtheta[s]))`, where
`theta_k[s] = arg(PhaseBuffer[frame mod W][k][s])` and `dtheta[s]` is the mean of
`theta_k[s] - theta_{k-1}[s]` over `k = 1..P_ul-1`, which equals
`(theta_{P_ul-1}[s] - theta_0[s]) / (P_ul - 1)`; the magnitude is unchanged.
(Exact real arithmetic; `P_ul ≤ 2^31` keeps the `int` cast of `P_ul - 1` exact.) -/
theorem Launch_phase_correction (cfg : PhaseConfig) (ue_pilot_data_ : Nat → Nat → ℂ)
    (ue_list : Nat → Nat) (frame_id symbol_idx_ul cur_sc_id : Nat) (st : PhaseState) (s : Nat)
    (h2 : 2 ≤ cfg.ClientUlPilotSymbols) (hP : cfg.ClientUlPilotSymbols ≤ 2 ^ 31)
    (hsym : cfg.ClientUlPilotSymbols ≤ symbol_idx_ul) (hs : s < cfg.SpatialStreamsNum) :
    theta_inc cfg st.ue_spec_pilot_buffer_ frame_id s
      = (∑ k ∈ Finset.Icc 1 (cfg.ClientUlPilotSymbols - 1),
          (Complex.arg (st.ue_spec_pilot_buffer_ (frame_id % cfg.kFrameWnd)
              (k * cfg.SpatialStreamsNum + s))
            - Complex.arg (st.ue_spec_pilot_buffer_ (frame_id % cfg.kFrameWnd)
              ((k - 1) * cfg.SpatialStreamsNum + s))))
          / ((cfg.ClientUlPilotSymbols - 1 : Nat) : ℝ) ∧
    theta_inc cfg st.ue_spec_pilot_buffer_ frame_id s
      = (Complex.arg (st.ue_spec_pilot_buffer_ (frame_id % cfg.kFrameWnd)
            ((cfg.ClientUlPilotSymbols - 1) * cfg.SpatialStreamsNum + s))
          - Complex.arg (st.ue_spec_pilot_buffer_ (frame_id % cfg.kFrameWnd)
            (0 * cfg.SpatialStreamsNum + s)))
          / ((cfg.ClientUlPilotSymbols - 1 : Nat) : ℝ) ∧
    (Launch_phase cfg ue_pilot_data_ ue_list frame_id symbol_idx_ul cur_sc_id st).mat_equaled s
      = st.mat_equaled s
          * Complex.exp (-Complex.I
              * ((Complex.arg (st.ue_spec_pilot_buffer_ (frame_id % cfg.kFrameWnd)
                    (0 * cfg.SpatialStreamsNum + s))
                  + (symbol_idx_ul : ℝ) * theta_inc cfg st.ue_spec_pilot_buffer_ frame_id s
                  : ℝ) : ℂ)) ∧
    Complex.abs ((Launch_phase cfg ue_pilot_data_ ue_list frame_id symbol_idx_ul cur_sc_id
        st).mat_equaled s) = Complex.abs (st.mat_equaled s) := by
  have hsum : (List.range' 1 (cfg.ClientUlPilotSymbols - 1)).foldl
      (fun acc k => acc + (theta_mat cfg st.ue_spec_pilot_buffer_ frame_id s k
        - theta_mat cfg st.ue_spec_pilot_buffer_ frame_id s (k - 1))) 0
      = theta_mat cfg st.ue_spec_pilot_buffer_ frame_id s (cfg.ClientUlPilotSymbols - 1)
        - theta_mat cfg st.ue_spec_pilot_buffer_ frame_id s 0 := by
    rw [foldl_diff_telescope (theta_mat cfg st.ue_spec_pilot_buffer_ frame_id s) _ 1 0
      (le_refl 1)]
    have e : 1 + (cfg.ClientUlPilotSymbols - 1) - 1 = cfg.ClientUlPilotSymbols - 1 := by omega
    rw [e]
    simp
  have hinc : theta_inc cfg st.ue_spec_pilot_buffer_ frame_id s
      = (theta_mat cfg st.ue_spec_pilot_buffer_ frame_id s (cfg.ClientUlPilotSymbols - 1)
          - theta_mat cfg st.ue_spec_pilot_buffer_ frame_id s 0)
        / ((cfg.ClientUlPilotSymbols - 1 : Nat) : ℝ) := by
    unfold theta_inc
    rw [hsum, static_cast_int_pilots h2 hP]
    simp
  have htel : (∑ k ∈ Finset.Icc 1 (cfg.ClientUlPilotSymbols - 1),
          (theta_mat cfg st.ue_spec_pilot_buffer_ frame_id s k
            - theta_mat cfg st.ue_spec_pilot_buffer_ frame_id s (k - 1)))
      = theta_mat cfg st.ue_spec_pilot_buffer_ frame_id s (cfg.ClientUlPilotSymbols - 1)
        - theta_mat cfg st.ue_spec_pilot_buffer_ frame_id s 0 := by
    generalize cfg.ClientUlPilotSymbols - 1 = n
    induction n with
    | zero => simp
    | succ n ih =>
      rw [Finset.sum_Icc_succ_top (by omega), ih]
      simp
  have hval : (Launch_phase cfg ue_pilot_data_ ue_list frame_id symbol_idx_ul cur_sc_id
        st).mat_equaled s
      = st.mat_equaled s
          * Complex.exp (-Complex.I
              * ((theta_mat cfg st.ue_spec_pilot_buffer_ frame_id s 0
                  + (symbol_idx_ul : ℝ) * theta_inc cfg st.ue_spec_pilot_buffer_ frame_id s
                  : ℝ) : ℂ)) := by
    unfold Launch_phase
    rw [if_neg (by omega), if_pos (by omega)]
    simp only [if_pos hs]
    congr 1
    have e : -Complex.I
        * ((theta_mat cfg st.ue_spec_pilot_buffer_ frame_id s 0
            + (symbol_idx_ul : ℝ) * theta_inc cfg st.ue_spec_pilot_buffer_ frame_id s : ℝ) : ℂ)
        = ((-(theta_mat cfg st.ue_spec_pilot_buffer_ frame_id s 0
            + (symbol_idx_ul : ℝ) * theta_inc cfg st.ue_spec_pilot_buffer_ frame_id s) : ℝ) : ℂ)
          * Complex.I := by
      push_cast
      ring
    rw [e]
    apply Complex.ext
    · rw [Complex.exp_ofReal_mul_I_re]
    · rw [Complex.exp_ofReal_mul_I_im]
  refine ⟨?_, ?_, ?_, ?_⟩
  · rw [hinc]
    congr 1
    exact htel.symm
  · rw [hinc]
    rfl
  · rw [hval]
    rfl
  · rw [hval, map_mul]
    have e : -Complex.I
        * ((theta_mat cfg st.ue_spec_pilot_buffer_ frame_id s 0
            + (symbol_idx_ul : ℝ) * theta_inc cfg st.ue_spec_pilot_buffer_ frame_id s : ℝ) : ℂ)
        = ((-(theta_mat cfg st.ue_spec_pilot_buffer_ frame_id s 0
            + (symbol_idx_ul : ℝ) * theta_inc cfg st.ue_spec_pilot_buffer_ frame_id s) : ℝ) : ℂ)
          * Complex.I := by
      push_cast
      ring
    rw [e, Complex.abs_exp_ofReal_mul_I, mul_one]

theorem Launch_phase_correction_witness :
    (2 ≤ exampleTwoPilots.ClientUlPilotSymbols ∧ exampleTwoPilots.ClientUlPilotSymbols ≤ 2 ^ 31
      ∧ exampleTwoPilots.ClientUlPilotSymbols ≤ 3 ∧ 0 < exampleTwoPilots.SpatialStreamsNum) ∧
    (theta_inc exampleTwoPilots examplePhaseState.ue_spec_pilot_buffer_ 5 0
      = (∑ k ∈ Finset.Icc 1 (exampleTwoPilots.ClientUlPilotSymbols - 1),
          (Complex.arg (examplePhaseState.ue_spec_pilot_buffer_ (5 % exampleTwoPilots.kFrameWnd)
              (k * exampleTwoPilots.SpatialStreamsNum + 0))
            - Complex.arg (examplePhaseState.ue_spec_pilot_buffer_
              (5 % exampleTwoPilots.kFrameWnd)
              ((k - 1) * exampleTwoPilots.SpatialStreamsNum + 0))))
          / ((exampleTwoPilots.ClientUlPilotSymbols - 1 : Nat) : ℝ) ∧
    theta_inc exampleTwoPilots examplePhaseState.ue_spec_pilot_buffer_ 5 0
      = (Complex.arg (examplePhaseState.ue_spec_pilot_buffer_ (5 % exampleTwoPilots.kFrameWnd)
            ((exampleTwoPilots.ClientUlPilotSymbols - 1) * exampleTwoPilots.SpatialStreamsNum
              + 0))
          - Complex.arg (examplePhaseState.ue_spec_pilot_buffer_
            (5 % exampleTwoPilots.kFrameWnd) (0 * exampleTwoPilots.SpatialStreamsNum + 0)))
          / ((exampleTwoPilots.ClientUlPilotSymbols - 1 : Nat) : ℝ) ∧
    (Launch_phase exampleTwoPilots (fun _ _ => 1) (fun s => s) 5 3 8
        examplePhaseState).mat_equaled 0
      = examplePhaseState.mat_equaled 0
          * Complex.exp (-Complex.I
              * ((Complex.arg (examplePhaseState.ue_spec_pilot_buffer_
                    (5 % exampleTwoPilots.kFrameWnd)
                    (0 * exampleTwoPilots.SpatialStreamsNum + 0))
                  + ((3 : Nat) : ℝ)
                    * theta_inc exampleTwoPilots examplePhaseState.ue_spec_pilot_buffer_ 5 0
                  : ℝ) : ℂ)) ∧
    Complex.abs ((Launch_phase exampleTwoPilots (fun _ _ => 1) (fun s => s) 5 3 8
        examplePhaseState).mat_equaled 0) = Complex.abs (examplePhaseState.mat_equaled 0)) :=
  ⟨by decide,
   Launch_phase_correction exampleTwoPilots (fun _ _ => 1) (fun s => s) 5 3 8 examplePhaseState 0
    (by decide) (by decide) (by decide) (by decide)⟩

/-! ## The pilot branch of the phase-tracking step -/

/-- The pilot branch of `Launch_phase` (`sym_idx_ul < P_ul`), entry by entry:
after the lazy reset, column `sym_idx_ul` of the frame's slot receives the signs
of the pilot correlations; the equalized samples and the EVM updates are left as
they are. -/
theorem Launch_phase_pilot_apply (cfg : PhaseConfig) (ue_pilot_data_ : Nat → Nat → ℂ)
    (ue_list : Nat → Nat) (frame_id symbol_idx_ul cur_sc_id : Nat) (st : PhaseState)
    (hsym : symbol_idx_ul < cfg.ClientUlPilotSymbols) :
    (∀ slot n,
      (Launch_phase cfg ue_pilot_data_ ue_list frame_id symbol_idx_ul cur_sc_id
          st).ue_spec_pilot_buffer_ slot n
        = if slot = frame_id % cfg.kFrameWnd ∧ symbol_idx_ul * cfg.SpatialStreamsNum ≤ n
              ∧ n < symbol_idx_ul * cfg.SpatialStreamsNum + cfg.SpatialStreamsNum then
            Launch_phase_reset cfg frame_id symbol_idx_ul cur_sc_id st.ue_spec_pilot_buffer_
                slot n
              + arma.sign (st.mat_equaled (n - symbol_idx_ul * cfg.SpatialStreamsNum)
                  * (starRingEnd ℂ)
                    (ue_pilot_data_ (ue_list (n - symbol_idx_ul * cfg.SpatialStreamsNum))
                      cur_sc_id))
          else
            Launch_phase_reset cfg frame_id symbol_idx_ul cur_sc_id st.ue_spec_pilot_buffer_
              slot n) ∧
    (Launch_phase cfg ue_pilot_data_ ue_list frame_id symbol_idx_ul cur_sc_id st).mat_equaled
      = st.mat_equaled ∧
    (Launch_phase cfg ue_pilot_data_ ue_list frame_id symbol_idx_ul cur_sc_id st).evm_calls
      = st.evm_calls := by
  unfold Launch_phase
  rw [if_pos hsym]
  refine ⟨?_, rfl, rfl⟩
  intro slot n
  change Function.update
      (Launch_phase_reset cfg frame_id symbol_idx_ul cur_sc_id st.ue_spec_pilot_buffer_)
      (frame_id % cfg.kFrameWnd)
      (fun n =>
        if symbol_idx_ul * cfg.SpatialStreamsNum ≤ n
            ∧ n < symbol_idx_ul * cfg.SpatialStreamsNum + cfg.SpatialStreamsNum then
          Launch_phase_reset cfg frame_id symbol_idx_ul cur_sc_id st.ue_spec_pilot_buffer_
              (frame_id % cfg.kFrameWnd) n
            + arma.sign (st.mat_equaled (n - symbol_idx_ul * cfg.SpatialStreamsNum)
                * (starRingEnd ℂ)
                  (ue_pilot_data_ (ue_list (n - symbol_idx_ul * cfg.SpatialStreamsNum))
                    cur_sc_id))
        else
          Launch_phase_reset cfg frame_id symbol_idx_ul cur_sc_id st.ue_spec_pilot_buffer_
            (frame_id % cfg.kFrameWnd) n) slot n = _
  generalize Launch_phase_reset cfg frame_id symbol_idx_ul cur_sc_id st.ue_spec_pilot_buffer_
    = R
  by_cases hslot : slot = frame_id % cfg.kFrameWnd
  · subst hslot
    rw [Function.update_same]
    by_cases hn : symbol_idx_ul * cfg.SpatialStreamsNum ≤ n
        ∧ n < symbol_idx_ul * cfg.SpatialStreamsNum + cfg.SpatialStreamsNum
    · rw [if_pos hn, if_pos ⟨rfl, hn⟩]
    · rw [if_neg hn, if_neg (fun c => hn c.2)]
  · rw [Function.update_noteq hslot, if_neg (fun c => hslot c.1)]

theorem Launch_phase_reset_of_not_first (cfg : PhaseConfig)
    (frame_id symbol_idx_ul cur_sc_id : Nat) (buf : Nat → Nat → ℂ)
    (h : ¬ (symbol_idx_ul = 0 ∧ cur_sc_id = 0)) :
    Launch_phase_reset cfg frame_id symbol_idx_ul cur_sc_id buf = buf := by
  unfold Launch_phase_reset
  rw [if_neg h]

theorem Launch_phase_reset_first_apply (cfg : PhaseConfig) (frame_id : Nat)
    (buf : Nat → Nat → ℂ) (slot n : Nat) :
    Launch_phase_reset cfg frame_id 0 0 buf slot n
      = if slot = size_t_sub frame_id 1 % cfg.kFrameWnd
            ∧ n < cfg.SpatialStreamsNum * cfg.ClientUlPilotSymbols then 0
        else buf slot n := by
  unfold Launch_phase_reset
  rw [if_pos ⟨rfl, rfl⟩]
  generalize size_t_sub frame_id 1 % cfg.kFrameWnd = r
  by_cases hslot : slot = r
  · subst hslot
    rw [Function.update_same]
    by_cases hn : n < cfg.SpatialStreamsNum * cfg.ClientUlPilotSymbols
    · rw [if_pos hn, if_pos ⟨rfl, hn⟩]
    · rw [if_neg hn, if_neg (fun c => hn c.2)]
  · rw [Function.update_noteq hslot, if_neg (fun c => hslot c.1)]

/-- C11. Phase-tracking accumulation on a pilot-within-uplink symbol
(`sym_idx_ul < P_ul`): for the processed subcarrier `sc`, `DoDemul::Launch` adds
`sign(y[s] * conj(ref_pilot[ue_list[s]][sc]))`, with `sign(z) = z/|z|` and
`sign(0) = 0`, to `PhaseBuffer[frame mod W][sym_idx_ul][s]` for every stream
`s < S`; apart from the lazy reset (which runs first, and only for symbol 0 and
subcarrier 0) it changes no other entry of that slot or of any other slot; the
equalized samples `y` are not modified and no EVM update is made. -/
theorem Launch_phase_pilot_accumulates (cfg : PhaseConfig) (ue_pilot_data_ : Nat → Nat → ℂ)
    (ue_list : Nat → Nat) (frame_id symbol_idx_ul cur_sc_id : Nat) (st : PhaseState)
    (hsym : symbol_idx_ul < cfg.ClientUlPilotSymbols) :
    (∀ s, s < cfg.SpatialStreamsNum →
      (Launch_phase cfg ue_pilot_data_ ue_list frame_id symbol_idx_ul cur_sc_id
          st).ue_spec_pilot_buffer_ (frame_id % cfg.kFrameWnd)
          (symbol_idx_ul * cfg.SpatialStreamsNum + s)
        = Launch_phase_reset cfg frame_id symbol_idx_ul cur_sc_id st.ue_spec_pilot_buffer_
              (frame_id % cfg.kFrameWnd) (symbol_idx_ul * cfg.SpatialStreamsNum + s)
            + (if st.mat_equaled s * (starRingEnd ℂ) (ue_pilot_data_ (ue_list s) cur_sc_id) = 0
                then 0
               else st.mat_equaled s * (starRingEnd ℂ) (ue_pilot_data_ (ue_list s) cur_sc_id)
                / (Complex.abs (st.mat_equaled s
                    * (starRingEnd ℂ) (ue_pilot_data_ (ue_list s) cur_sc_id)) : ℂ))) ∧
    (∀ slot n,
      ¬ (slot = frame_id % cfg.kFrameWnd ∧ symbol_idx_ul * cfg.SpatialStreamsNum ≤ n
          ∧ n < symbol_idx_ul * cfg.SpatialStreamsNum + cfg.SpatialStreamsNum) →
      (Launch_phase cfg ue_pilot_data_ ue_list frame_id symbol_idx_ul cur_sc_id
          st).ue_spec_pilot_buffer_ slot n
        = Launch_phase_reset cfg frame_id symbol_idx_ul cur_sc_id st.ue_spec_pilot_buffer_
            slot n) ∧
    (¬ (symbol_idx_ul = 0 ∧ cur_sc_id = 0) →
      Launch_phase_reset cfg frame_id symbol_idx_ul cur_sc_id st.ue_spec_pilot_buffer_
        = st.ue_spec_pilot_buffer_) ∧
    (Launch_phase cfg ue_pilot_data_ ue_list frame_id symbol_idx_ul cur_sc_id st).mat_equaled
      = st.mat_equaled ∧
    (Launch_phase cfg ue_pilot_data_ ue_list frame_id symbol_idx_ul cur_sc_id st).evm_calls
      = st.evm_calls := by
  obtain ⟨hbuf, hy, hevm⟩ :=
    Launch_phase_pilot_apply cfg ue_pilot_data_ ue_list frame_id symbol_idx_ul cur_sc_id st hsym
  refine ⟨?_, ?_, Launch_phase_reset_of_not_first cfg frame_id symbol_idx_ul cur_sc_id _, hy,
    hevm⟩
  · intro s hs
    rw [hbuf, if_pos ⟨rfl, by omega, by omega⟩]
    have e : symbol_idx_ul * cfg.SpatialStreamsNum + s - symbol_idx_ul * cfg.SpatialStreamsNum
        = s := by omega
    rw [e]
    rfl
  · intro slot n hn
    rw [hbuf, if_neg hn]

theorem Launch_phase_pilot_accumulates_witness :
    (0 < exampleTwoPilots.ClientUlPilotSymbols) ∧
    ((∀ s, s < exampleTwoPilots.SpatialStreamsNum →
      (Launch_phase exampleTwoPilots (fun _ _ => 1) (fun s => s) 5 0 8
          examplePhaseState).ue_spec_pilot_buffer_ (5 % exampleTwoPilots.kFrameWnd)
          (0 * exampleTwoPilots.SpatialStreamsNum + s)
        = Launch_phase_reset exampleTwoPilots 5 0 8 examplePhaseState.ue_spec_pilot_buffer_
              (5 % exampleTwoPilots.kFrameWnd) (0 * exampleTwoPilots.SpatialStreamsNum + s)
            + (if examplePhaseState.mat_equaled s
                  * (starRingEnd ℂ) ((fun _ _ => (1 : ℂ)) ((fun s => s) s) 8) = 0
                then 0
               else examplePhaseState.mat_equaled s
                  * (starRingEnd ℂ) ((fun _ _ => (1 : ℂ)) ((fun s => s) s) 8)
                / (Complex.abs (examplePhaseState.mat_equaled s
                    * (starRingEnd ℂ) ((fun _ _ => (1 : ℂ)) ((fun s => s) s) 8)) : ℂ))) ∧
    (∀ slot n,
      ¬ (slot = 5 % exampleTwoPilots.kFrameWnd ∧ 0 * exampleTwoPilots.SpatialStreamsNum ≤ n
          ∧ n < 0 * exampleTwoPilots.SpatialStreamsNum + exampleTwoPilots.SpatialStreamsNum) →
      (Launch_phase exampleTwoPilots (fun _ _ => 1) (fun s => s) 5 0 8
          examplePhaseState).ue_spec_pilot_buffer_ slot n
        = Launch_phase_reset exampleTwoPilots 5 0 8 examplePhaseState.ue_spec_pilot_buffer_
            slot n) ∧
    (¬ ((0 : Nat) = 0 ∧ (8 : Nat) = 0) →
      Launch_phase_reset exampleTwoPilots 5 0 8 examplePhaseState.ue_spec_pilot_buffer_
        = examplePhaseState.ue_spec_pilot_buffer_) ∧
    (Launch_phase exampleTwoPilots (fun _ _ => 1) (fun s => s) 5 0 8
        examplePhaseState).mat_equaled = examplePhaseState.mat_equaled ∧
    (Launch_phase exampleTwoPilots (fun _ _ => 1) (fun s => s) 5 0 8
        examplePhaseState).evm_calls = examplePhaseState.evm_calls) :=
  ⟨by decide,
   Launch_phase_pilot_accumulates exampleTwoPilots (fun _ _ => 1) (fun s => s) 5 0 8
    examplePhaseState (by decide)⟩

/-- The correction branch of `Launch_phase` on the equalized sample of a stream:
multiplication by `exp(-j (theta_0 + sym_idx_ul * theta_inc))`. -/
theorem Launch_phase_correction_apply (cfg : PhaseConfig) (ue_pilot_data_ : Nat → Nat → ℂ)
    (ue_list : Nat → Nat) (frame_id symbol_idx_ul cur_sc_id : Nat) (st : PhaseState) (s : Nat)
    (hP : 0 < cfg.ClientUlPilotSymbols) (hsym : cfg.ClientUlPilotSymbols ≤ symbol_idx_ul)
    (hs : s < cfg.SpatialStreamsNum) :
    (Launch_phase cfg ue_pilot_data_ ue_list frame_id symbol_idx_ul cur_sc_id
        st).mat_equaled s
      = st.mat_equaled s
          * Complex.exp (-Complex.I
              * ((theta_mat cfg st.ue_spec_pilot_buffer_ frame_id s 0
                  + (symbol_idx_ul : ℝ) * theta_inc cfg st.ue_spec_pilot_buffer_ frame_id s
                  : ℝ) : ℂ)) := by
  unfold Launch_phase
  rw [if_neg (by omega), if_pos (by omega)]
  simp only [if_pos hs]
  congr 1
  have e : -Complex.I
      * ((theta_mat cfg st.ue_spec_pilot_buffer_ frame_id s 0
          + (symbol_idx_ul : ℝ) * theta_inc cfg st.ue_spec_pilot_buffer_ frame_id s : ℝ) : ℂ)
      = ((-(theta_mat cfg st.ue_spec_pilot_buffer_ frame_id s 0
          + (symbol_idx_ul : ℝ) * theta_inc cfg st.ue_spec_pilot_buffer_ frame_id s) : ℝ) : ℂ)
        * Complex.I := by
    push_cast
    ring
  rw [e]
  apply Complex.ext
  · rw [Complex.exp_ofReal_mul_I_re]
  · rw [Complex.exp_ofReal_mul_I_im]

/-! ## The lazy reset -/

theorem Launch_phase_data_buffer (cfg : PhaseConfig) (ue_pilot_data_ : Nat → Nat → ℂ)
    (ue_list : Nat → Nat) (frame_id symbol_idx_ul cur_sc_id : Nat) (st : PhaseState)
    (hsym : ¬ symbol_idx_ul < cfg.ClientUlPilotSymbols) :
    (Launch_phase cfg ue_pilot_data_ ue_list frame_id symbol_idx_ul cur_sc_id
        st).ue_spec_pilot_buffer_ = st.ue_spec_pilot_buffer_ := by
  unfold Launch_phase
  rw [if_neg hsym]
  by_cases hP : cfg.ClientUlPilotSymbols > 0
  · rw [if_pos hP]
  · rw [if_neg hP]

theorem prev_slot_ne {frame_id W : Nat} (hf : 1 ≤ frame_id) (hW : 2 ≤ W) :
    (frame_id - 1) % W ≠ frame_id % W := by
  intro h
  have h1 := Nat.div_add_mod (frame_id - 1) W
  have h2 := Nat.div_add_mod frame_id W
  have h3 : frame_id % W < W := Nat.mod_lt _ (by omega)
  rw [h] at h1
  have h4 : W * (frame_id / W) = W * ((frame_id - 1) / W) + 1 := by omega
  rcases Nat.lt_trichotomy (frame_id / W) ((frame_id - 1) / W) with c | c | c
  · have : W * (frame_id / W) < W * ((frame_id - 1) / W) :=
      Nat.mul_lt_mul_of_pos_left c (by omega)
    omega
  · rw [c] at h4
    omega
  · have : W * ((frame_id - 1) / W + 1) ≤ W * (frame_id / W) := Nat.mul_le_mul_left W c
    have e : W * ((frame_id - 1) / W + 1) = W * ((frame_id - 1) / W) + W := by ring
    omega

/-- C12. Lazy reset: `DoDemul::Launch` zeroes entries of the PhaseBuffer only when
it processes `sym_idx_ul = 0` and subcarrier 0 (in any other step an entry changes
only by the accumulation into column `sym_idx_ul` of the frame's own slot); and
when it does process symbol 0 and subcarrier 0 of a frame `frame_id ≥ 1`, the
entries zeroed are those of the whole `S x P_ul` slice of slot
`(frame_id - 1) mod W`, the previous frame's slot, the rest of that slot being
kept; for `W ≥ 2` this slot is not the current frame's slot. -/
theorem Launch_phase_lazy_reset (cfg : PhaseConfig) (ue_pilot_data_ : Nat → Nat → ℂ)
    (ue_list : Nat → Nat) (frame_id symbol_idx_ul cur_sc_id : Nat) (st : PhaseState)
    (hf1 : 1 ≤ frame_id) (hf : frame_id < 2 ^ 64) (hW : 2 ≤ cfg.kFrameWnd) :
    (¬ (symbol_idx_ul = 0 ∧ cur_sc_id = 0) →
      ∀ slot n,
        ¬ (symbol_idx_ul < cfg.ClientUlPilotSymbols ∧ slot = frame_id % cfg.kFrameWnd
            ∧ symbol_idx_ul * cfg.SpatialStreamsNum ≤ n
            ∧ n < symbol_idx_ul * cfg.SpatialStreamsNum + cfg.SpatialStreamsNum) →
        (Launch_phase cfg ue_pilot_data_ ue_list frame_id symbol_idx_ul cur_sc_id
            st).ue_spec_pilot_buffer_ slot n = st.ue_spec_pilot_buffer_ slot n) ∧
    ((symbol_idx_ul = 0 ∧ cur_sc_id = 0) →
      size_t_sub frame_id 1 % cfg.kFrameWnd = (frame_id - 1) % cfg.kFrameWnd ∧
      (frame_id - 1) % cfg.kFrameWnd ≠ frame_id % cfg.kFrameWnd ∧
      (∀ n, n < cfg.SpatialStreamsNum * cfg.ClientUlPilotSymbols →
        (Launch_phase cfg ue_pilot_data_ ue_list frame_id symbol_idx_ul cur_sc_id
            st).ue_spec_pilot_buffer_ ((frame_id - 1) % cfg.kFrameWnd) n = 0) ∧
      (∀ n, cfg.SpatialStreamsNum * cfg.ClientUlPilotSymbols ≤ n →
        (Launch_phase cfg ue_pilot_data_ ue_list frame_id symbol_idx_ul cur_sc_id
            st).ue_spec_pilot_buffer_ ((frame_id - 1) % cfg.kFrameWnd) n
          = st.ue_spec_pilot_buffer_ ((frame_id - 1) % cfg.kFrameWnd) n) ∧
      (∀ slot n, slot ≠ (frame_id - 1) % cfg.kFrameWnd → slot ≠ frame_id % cfg.kFrameWnd →
        (Launch_phase cfg ue_pilot_data_ ue_list frame_id symbol_idx_ul cur_sc_id
            st).ue_spec_pilot_buffer_ slot n = st.ue_spec_pilot_buffer_ slot n)) := by
  have hsub : size_t_sub frame_id 1 = frame_id - 1 := size_t_sub_of_le hf hf1
  have hne := prev_slot_ne hf1 hW
  refine ⟨?_, ?_⟩
  · intro hfirst slot n hcol
    by_cases hsym : symbol_idx_ul < cfg.ClientUlPilotSymbols
    · rw [(Launch_phase_pilot_apply cfg ue_pilot_data_ ue_list frame_id symbol_idx_ul cur_sc_id
        st hsym).1, if_neg (fun c => hcol ⟨hsym, c⟩),
        Launch_phase_reset_of_not_first cfg frame_id symbol_idx_ul cur_sc_id _ hfirst]
    · rw [Launch_phase_data_buffer cfg ue_pilot_data_ ue_list frame_id symbol_idx_ul cur_sc_id
        st hsym]
  · rintro ⟨rfl, rfl⟩
    refine ⟨by rw [hsub], hne, ?_, ?_, ?_⟩
    · intro n hn
      have hP : 0 < cfg.ClientUlPilotSymbols := by
        rcases Nat.eq_zero_or_pos cfg.ClientUlPilotSymbols with h | h
        · rw [h] at hn; simp at hn
        · exact h
      rw [(Launch_phase_pilot_apply cfg ue_pilot_data_ ue_list frame_id 0 0 st hP).1,
        if_neg (fun c => hne c.1), Launch_phase_reset_first_apply, hsub, if_pos ⟨rfl, hn⟩]
    · intro n hn
      by_cases hP : 0 < cfg.ClientUlPilotSymbols
      · rw [(Launch_phase_pilot_apply cfg ue_pilot_data_ ue_list frame_id 0 0 st hP).1,
          if_neg (fun c => hne c.1), Launch_phase_reset_first_apply, hsub,
          if_neg (fun c => absurd c.2 (by omega))]
      · rw [Launch_phase_data_buffer cfg ue_pilot_data_ ue_list frame_id 0 0 st hP]
    · intro slot n h1 h2
      by_cases hP : 0 < cfg.ClientUlPilotSymbols
      · rw [(Launch_phase_pilot_apply cfg ue_pilot_data_ ue_list frame_id 0 0 st hP).1,
          if_neg (fun c => h2 c.1), Launch_phase_reset_first_apply, hsub,
          if_neg (fun c => h1 c.1)]
      · rw [Launch_phase_data_buffer cfg ue_pilot_data_ ue_list frame_id 0 0 st hP]

theorem Launch_phase_lazy_reset_witness :
    ((1 : Nat) ≤ 5 ∧ (5 : Nat) < 2 ^ 64 ∧ 2 ≤ exampleTwoPilots.kFrameWnd) ∧
    ((¬ ((0 : Nat) = 0 ∧ (0 : Nat) = 0) →
      ∀ slot n,
        ¬ (0 < exampleTwoPilots.ClientUlPilotSymbols ∧ slot = 5 % exampleTwoPilots.kFrameWnd
            ∧ 0 * exampleTwoPilots.SpatialStreamsNum ≤ n
            ∧ n < 0 * exampleTwoPilots.SpatialStreamsNum + exampleTwoPilots.SpatialStreamsNum) →
        (Launch_phase exampleTwoPilots (fun _ _ => 1) (fun s => s) 5 0 0
            examplePhaseState).ue_spec_pilot_buffer_ slot n
          = examplePhaseState.ue_spec_pilot_buffer_ slot n) ∧
    (((0 : Nat) = 0 ∧ (0 : Nat) = 0) →
      size_t_sub 5 1 % exampleTwoPilots.kFrameWnd = (5 - 1) % exampleTwoPilots.kFrameWnd ∧
      (5 - 1) % exampleTwoPilots.kFrameWnd ≠ 5 % exampleTwoPilots.kFrameWnd ∧
      (∀ n, n < exampleTwoPilots.SpatialStreamsNum * exampleTwoPilots.ClientUlPilotSymbols →
        (Launch_phase exampleTwoPilots (fun _ _ => 1) (fun s => s) 5 0 0
            examplePhaseState).ue_spec_pilot_buffer_ ((5 - 1) % exampleTwoPilots.kFrameWnd) n
          = 0) ∧
      (∀ n, exampleTwoPilots.SpatialStreamsNum * exampleTwoPilots.ClientUlPilotSymbols ≤ n →
        (Launch_phase exampleTwoPilots (fun _ _ => 1) (fun s => s) 5 0 0
            examplePhaseState).ue_spec_pilot_buffer_ ((5 - 1) % exampleTwoPilots.kFrameWnd) n
          = examplePhaseState.ue_spec_pilot_buffer_ ((5 - 1) % exampleTwoPilots.kFrameWnd) n) ∧
      (∀ slot n, slot ≠ (5 - 1) % exampleTwoPilots.kFrameWnd →
        slot ≠ 5 % exampleTwoPilots.kFrameWnd →
        (Launch_phase exampleTwoPilots (fun _ _ => 1) (fun s => s) 5 0 0
            examplePhaseState).ue_spec_pilot_buffer_ slot n
          = examplePhaseState.ue_spec_pilot_buffer_ slot n))) :=
  ⟨by decide,
   Launch_phase_lazy_reset exampleTwoPilots (fun _ _ => 1) (fun s => s) 5 0 0 examplePhaseState
    (by decide) (by decide) (by decide)⟩

/-! ## Correcting the pilot it was derived from -/

theorem arg_arma_sign (z : ℂ) (hz : z ≠ 0) : Complex.arg (arma.sign z) = Complex.arg z := by
  unfold arma.sign
  rw [if_neg hz]
  have habs : 0 < Complex.abs z := Complex.abs.pos hz
  have e : z / (Complex.abs z : ℂ) = (((Complex.abs z)⁻¹ : ℝ) : ℂ) * z := by
    push_cast
    field_simp
  rw [e, Complex.arg_real_mul _ (inv_pos.2 habs)]

theorem mul_exp_neg_arg (z : ℂ) :
    z * Complex.exp (-Complex.I * ((Complex.arg z : ℝ) : ℂ)) = (Complex.abs z : ℂ) := by
  have h := Complex.abs_mul_exp_arg_mul_I z
  have e : z * Complex.exp (-Complex.I * ((Complex.arg z : ℝ) : ℂ))
      = (Complex.abs z : ℂ) * (Complex.exp ((Complex.arg z : ℂ) * Complex.I)
          * Complex.exp (-Complex.I * ((Complex.arg z : ℝ) : ℂ))) := by
    rw [← mul_assoc, h]
  rw [e, ← Complex.exp_add]
  have e2 : (Complex.arg z : ℂ) * Complex.I + -Complex.I * ((Complex.arg z : ℝ) : ℂ) = 0 := by
    ring
  rw [e2, Complex.exp_zero, mul_one]

theorem theta_inc_one_pilot (cfg : PhaseConfig) (buf : Nat → Nat → ℂ) (frame_id s : Nat)
    (hP : cfg.ClientUlPilotSymbols = 1) : theta_inc cfg buf frame_id s = 0 := by
  unfold theta_inc
  rw [hP]
  simp

/-- C13. Phase-correction round trip with `P_ul = 1`: start from a PhaseBuffer
entry of stream `s` that is zero, let the pilot step (symbol 0, subcarrier `sc`)
derive it from the equalized pilot sample `y` with `y * conj(p) ≠ 0`, where `p`
is the reference pilot of the stream at `sc`; the entry is then
`sign(y * conj(p))`, and the correction step applied to `y` gives
`y' = y * exp(-j arg(entry))` with `y' * conj(p) = |y * conj(p)|`, a positive
real number: the residual phase against the reference pilot is zero. -/
theorem Launch_phase_roundtrip (cfg : PhaseConfig) (ue_pilot_data_ : Nat → Nat → ℂ)
    (ue_list : Nat → Nat) (frame_id symbol_idx_ul cur_sc_id sc' s : Nat) (st : PhaseState)
    (hP : cfg.ClientUlPilotSymbols = 1) (hs : s < cfg.SpatialStreamsNum)
    (hsym : 1 ≤ symbol_idx_ul)
    (hzero : st.ue_spec_pilot_buffer_ (frame_id % cfg.kFrameWnd) s = 0)
    (hne : st.mat_equaled s * (starRingEnd ℂ) (ue_pilot_data_ (ue_list s) cur_sc_id) ≠ 0) :
    (Launch_phase cfg ue_pilot_data_ ue_list frame_id 0 cur_sc_id
        st).ue_spec_pilot_buffer_ (frame_id % cfg.kFrameWnd) s
      = arma.sign (st.mat_equaled s * (starRingEnd ℂ) (ue_pilot_data_ (ue_list s) cur_sc_id)) ∧
    (Launch_phase cfg ue_pilot_data_ ue_list frame_id symbol_idx_ul sc'
        (Launch_phase cfg ue_pilot_data_ ue_list frame_id 0 cur_sc_id st)).mat_equaled s
      = st.mat_equaled s
          * Complex.exp (-Complex.I
              * ((Complex.arg ((Launch_phase cfg ue_pilot_data_ ue_list frame_id 0 cur_sc_id
                    st).ue_spec_pilot_buffer_ (frame_id % cfg.kFrameWnd) s) : ℝ) : ℂ)) ∧
    (Launch_phase cfg ue_pilot_data_ ue_list frame_id symbol_idx_ul sc'
        (Launch_phase cfg ue_pilot_data_ ue_list frame_id 0 cur_sc_id st)).mat_equaled s
        * (starRingEnd ℂ) (ue_pilot_data_ (ue_list s) cur_sc_id)
      = ((Complex.abs (st.mat_equaled s
            * (starRingEnd ℂ) (ue_pilot_data_ (ue_list s) cur_sc_id)) : ℝ) : ℂ) ∧
    0 < Complex.abs (st.mat_equaled s
          * (starRingEnd ℂ) (ue_pilot_data_ (ue_list s) cur_sc_id)) := by
  have hP0 : 0 < cfg.ClientUlPilotSymbols := by omega
  obtain ⟨hbuf, hy, -⟩ :=
    Launch_phase_pilot_apply cfg ue_pilot_data_ ue_list frame_id 0 cur_sc_id st hP0
  -- the entry after the pilot step
  have hreset : Launch_phase_reset cfg frame_id 0 cur_sc_id st.ue_spec_pilot_buffer_
      (frame_id % cfg.kFrameWnd) s = 0 := by
    by_cases hsc : cur_sc_id = 0
    · subst hsc
      rw [Launch_phase_reset_first_apply]
      by_cases hc : frame_id % cfg.kFrameWnd = size_t_sub frame_id 1 % cfg.kFrameWnd
          ∧ s < cfg.SpatialStreamsNum * cfg.ClientUlPilotSymbols
      · rw [if_pos hc]
      · rw [if_neg hc, hzero]
    · rw [Launch_phase_reset_of_not_first cfg frame_id 0 cur_sc_id _ (fun c => hsc c.2), hzero]
  have hentry : (Launch_phase cfg ue_pilot_data_ ue_list frame_id 0 cur_sc_id
        st).ue_spec_pilot_buffer_ (frame_id % cfg.kFrameWnd) s
      = arma.sign (st.mat_equaled s
          * (starRingEnd ℂ) (ue_pilot_data_ (ue_list s) cur_sc_id)) := by
    rw [hbuf, if_pos ⟨rfl, by omega, by omega⟩, hreset, zero_add]
    simp
  -- the correction step
  have hcorr := (Launch_phase_correction_apply cfg ue_pilot_data_ ue_list frame_id
    symbol_idx_ul sc' (Launch_phase cfg ue_pilot_data_ ue_list frame_id 0 cur_sc_id st) s
    (by omega) (by omega) hs)
  rw [theta_inc_one_pilot cfg _ frame_id s hP, mul_zero, add_zero, hy] at hcorr
  have hθ : theta_mat cfg (Launch_phase cfg ue_pilot_data_ ue_list frame_id 0 cur_sc_id
        st).ue_spec_pilot_buffer_ frame_id s 0
      = Complex.arg ((Launch_phase cfg ue_pilot_data_ ue_list frame_id 0 cur_sc_id
          st).ue_spec_pilot_buffer_ (frame_id % cfg.kFrameWnd) s) := by
    unfold theta_mat
    rw [Nat.zero_mul, Nat.zero_add]
  rw [hθ] at hcorr
  refine ⟨hentry, hcorr, ?_, Complex.abs.pos hne⟩
  rw [hcorr, hentry, arg_arma_sign _ hne, mul_right_comm, mul_exp_neg_arg]

theorem Launch_phase_roundtrip_witness :
    (exampleOnePilot.ClientUlPilotSymbols = 1 ∧ 0 < exampleOnePilot.SpatialStreamsNum
      ∧ 1 ≤ 1
      ∧ exampleZeroPhaseState.ue_spec_pilot_buffer_ (5 % exampleOnePilot.kFrameWnd) 0 = 0
      ∧ exampleZeroPhaseState.mat_equaled 0
          * (starRingEnd ℂ) ((fun _ _ => (1 : ℂ)) ((fun s => s) 0) 8) ≠ 0) ∧
    ((Launch_phase exampleOnePilot (fun _ _ => 1) (fun s => s) 5 0 8
        exampleZeroPhaseState).ue_spec_pilot_buffer_ (5 % exampleOnePilot.kFrameWnd) 0
      = arma.sign (exampleZeroPhaseState.mat_equaled 0
          * (starRingEnd ℂ) ((fun _ _ => (1 : ℂ)) ((fun s => s) 0) 8)) ∧
    (Launch_phase exampleOnePilot (fun _ _ => 1) (fun s => s) 5 1 3
        (Launch_phase exampleOnePilot (fun _ _ => 1) (fun s => s) 5 0 8
          exampleZeroPhaseState)).mat_equaled 0
      = exampleZeroPhaseState.mat_equaled 0
          * Complex.exp (-Complex.I
              * ((Complex.arg ((Launch_phase exampleOnePilot (fun _ _ => 1) (fun s => s) 5 0 8
                    exampleZeroPhaseState).ue_spec_pilot_buffer_
                      (5 % exampleOnePilot.kFrameWnd) 0) : ℝ) : ℂ)) ∧
    (Launch_phase exampleOnePilot (fun _ _ => 1) (fun s => s) 5 1 3
        (Launch_phase exampleOnePilot (fun _ _ => 1) (fun s => s) 5 0 8
          exampleZeroPhaseState)).mat_equaled 0
        * (starRingEnd ℂ) ((fun _ _ => (1 : ℂ)) ((fun s => s) 0) 8)
      = ((Complex.abs (exampleZeroPhaseState.mat_equaled 0
            * (starRingEnd ℂ) ((fun _ _ => (1 : ℂ)) ((fun s => s) 0) 8)) : ℝ) : ℂ) ∧
    0 < Complex.abs (exampleZeroPhaseState.mat_equaled 0
          * (starRingEnd ℂ) ((fun _ _ => (1 : ℂ)) ((fun s => s) 0) 8))) :=
  have hne : exampleZeroPhaseState.mat_equaled 0
      * (starRingEnd ℂ) ((fun _ _ => (1 : ℂ)) ((fun s => s) 0) 8) ≠ 0 := by
    simp [exampleZeroPhaseState, Complex.ext_iff]
  ⟨⟨rfl, by decide, by decide, rfl, hne⟩,
   Launch_phase_roundtrip exampleOnePilot (fun _ _ => 1) (fun s => s) 5 1 8 3 0
    exampleZeroPhaseState rfl (by decide) (by decide) rfl hne⟩

/-! ## EVM accumulation -/

/-- C14. EVM accumulation: a well-formed call
`PhyStats::update_evm_stats(frame_id, sc_id, eq)` (data subcarrier `sc_id`, `eq` a
column of `UE_NUM` entries, single-antenna users) returns and adds
`|eq[u] - gt[u][sc_id]|^2` to `evm_buffer[frame_id mod W][u]` for every
`u < UE_NUM`, where `gt[u][sc]` is the configured reference symbol
`ul_iq_f[UL_PILOT_SYMS]` of user `u` at data subcarrier `sc`; it leaves the
accumulators of every other frame slot unchanged, and no accumulator decreases. -/
theorem update_evm_stats_accumulates (cfg : PhyStatsConfig) (ul_iq_f : Nat → Nat → ℂ)
    (evm_buffer_ : Nat → Nat → ℝ) (frame_id sc_id : Nat) (eq : cx_fmat)
    (hsc : sc_id < cfg.OFDM_DATA_STOP - cfg.OFDM_DATA_START)
    (heq : eq.n_rows = cfg.UE_NUM ∧ eq.n_cols = 1) (hU : cfg.UE_ANT_NUM = cfg.UE_NUM) :
    ∃ evm' : Nat → Nat → ℝ,
      PhyStats.update_evm_stats cfg (PhyStats.ul_gt_mat cfg ul_iq_f) evm_buffer_ frame_id sc_id eq
        = Except.ok evm' ∧
      (∀ u, u < cfg.UE_NUM →
        evm' (frame_id % cfg.TASK_BUFFER_FRAME_NUM) u
          = evm_buffer_ (frame_id % cfg.TASK_BUFFER_FRAME_NUM) u
            + Complex.abs (eq.at u 0
                - ul_iq_f cfg.UL_PILOT_SYMS
                    (u * cfg.OFDM_CA_NUM + (cfg.OFDM_DATA_START + sc_id))) ^ 2) ∧
      (∀ slot u, slot ≠ frame_id % cfg.TASK_BUFFER_FRAME_NUM → evm' slot u = evm_buffer_ slot u) ∧
      (∀ slot u, evm_buffer_ slot u ≤ evm' slot u) := by
  have h1 : sc_id < (PhyStats.ul_gt_mat cfg ul_iq_f).n_cols := hsc
  have h2 : eq.n_rows = (PhyStats.ul_gt_mat cfg ul_iq_f).n_rows ∧ eq.n_cols = 1 :=
    ⟨by rw [heq.1]; exact hU.symm, heq.2⟩
  have h3 : cfg.UE_NUM = eq.n_rows := heq.1.symm
  refine ⟨_, by
    unfold PhyStats.update_evm_stats
    rw [if_neg (not_not.2 h1), if_neg (not_not.2 h2), if_neg (not_not.2 h3)], ?_, ?_, ?_⟩
  · intro u hu
    rw [Function.update_same, if_pos hu, sq]
    rfl
  · intro slot u hslot
    rw [Function.update_noteq hslot]
  · intro slot u
    by_cases hslot : slot = frame_id % cfg.TASK_BUFFER_FRAME_NUM
    · subst hslot
      rw [Function.update_same]
      by_cases hu : u < cfg.UE_NUM
      · rw [if_pos hu]
        have := mul_self_nonneg (Complex.abs (eq.at u 0 - (PhyStats.ul_gt_mat cfg ul_iq_f).at u sc_id))
        linarith
      · rw [if_neg hu]
    · rw [Function.update_noteq hslot]

theorem update_evm_stats_accumulates_witness :
    (3 < examplePhyStatsConfig.OFDM_DATA_STOP - examplePhyStatsConfig.OFDM_DATA_START
      ∧ (exampleEq.n_rows = examplePhyStatsConfig.UE_NUM ∧ exampleEq.n_cols = 1)
      ∧ examplePhyStatsConfig.UE_ANT_NUM = examplePhyStatsConfig.UE_NUM) ∧
    ∃ evm' : Nat → Nat → ℝ,
      PhyStats.update_evm_stats examplePhyStatsConfig
          (PhyStats.ul_gt_mat examplePhyStatsConfig (fun _ _ => 0)) (fun _ _ => 0) 5 3 exampleEq
        = Except.ok evm' ∧
      (∀ u, u < examplePhyStatsConfig.UE_NUM →
        evm' (5 % examplePhyStatsConfig.TASK_BUFFER_FRAME_NUM) u
          = (fun _ _ => (0 : ℝ)) (5 % examplePhyStatsConfig.TASK_BUFFER_FRAME_NUM) u
            + Complex.abs (exampleEq.at u 0
                - (fun _ _ => (0 : ℂ)) examplePhyStatsConfig.UL_PILOT_SYMS
                    (u * examplePhyStatsConfig.OFDM_CA_NUM
                      + (examplePhyStatsConfig.OFDM_DATA_START + 3))) ^ 2) ∧
      (∀ slot u, slot ≠ 5 % examplePhyStatsConfig.TASK_BUFFER_FRAME_NUM →
        evm' slot u = (fun _ _ => (0 : ℝ)) slot u) ∧
      (∀ slot u, (fun _ _ => (0 : ℝ)) slot u ≤ evm' slot u) :=
  ⟨⟨by decide, ⟨rfl, rfl⟩, rfl⟩,
   update_evm_stats_accumulates examplePhyStatsConfig (fun _ _ => 0) (fun _ _ => 0) 5 3
    exampleEq (by decide) ⟨rfl, rfl⟩ rfl⟩

/-! ## Placement of the demodulated output -/

/-- The values of the loop variable of `for (i = 0; i < n; i += step)`: the
multiples of `step` below `n`. -/
theorem mem_loopSteps_iff {n step x : Nat} (hs : 0 < step) :
    x ∈ loopSteps n step ↔ x < n ∧ step ∣ x := by
  rw [mem_loopSteps]
  constructor
  · rintro ⟨t, ht, rfl⟩
    refine ⟨?_, Dvd.intro_left t rfl⟩
    have h1 : (t + 1) * step ≤ n + step - 1 := (Nat.le_div_iff_mul_le hs).1 ht
    have e : (t + 1) * step = t * step + step := by ring
    omega
  · rintro ⟨hx, ⟨t, rfl⟩⟩
    refine ⟨t, ?_, Nat.mul_comm _ _⟩
    apply (Nat.le_div_iff_mul_le hs).2
    show (t + 1) * step ≤ n + step - 1
    have e : (t + 1) * step = step * t + step := by ring
    omega

theorem max_sc_ite_work_item {cfg : Config} {b : Nat} (hN : cfg.OFDM_DATA_NUM < 2 ^ 64)
    (hb : b < cfg.OFDM_DATA_NUM) :
    max_sc_ite cfg b = min cfg.DemulBlockSize (cfg.OFDM_DATA_NUM - b) := by
  unfold max_sc_ite
  rw [size_t_sub_of_le hN (Nat.le_of_lt hb)]

/-- A work item of the symbol passes `assert(max_sc_ite % kSCsPerCacheline == 0)`
when the cacheline size divides the demodulation block size and `N_d`. -/
theorem work_item_assertion {cfg : Config} {b : Nat} (hdem : 0 < cfg.DemulBlockSize)
    (hN : cfg.OFDM_DATA_NUM < 2 ^ 64) (hcl : kSCsPerCacheline ∣ cfg.DemulBlockSize)
    (hnd : kSCsPerCacheline ∣ cfg.OFDM_DATA_NUM) (hb : b ∈ demul_work_items cfg) :
    max_sc_ite cfg b % kSCsPerCacheline = 0 := by
  obtain ⟨hlt, hdvd⟩ := (mem_loopSteps_iff hdem).1 hb
  rw [max_sc_ite_work_item hN hlt]
  have h8 : kSCsPerCacheline ∣ cfg.OFDM_DATA_NUM - b := Nat.dvd_sub' hnd (hcl.trans hdvd)
  apply Nat.mod_eq_zero_of_dvd
  rcases Nat.le_total cfg.DemulBlockSize (cfg.OFDM_DATA_NUM - b) with h | h
  · rw [Nat.min_eq_left h]; exact hcl
  · rw [Nat.min_eq_right h]; exact h8

/-- A work item writes demodulated values only if its launch passes the assertion,
that is, only if it has a list of subcarriers to process. -/
theorem Launch_demod_writes_passes {cfg : Config} {M b n : Nat}
    (h : Launch_demod_writes cfg M b n) : (Launch_cur_sc_ids cfg b).isSome = true := by
  unfold Launch_cur_sc_ids
  rw [if_pos h.1]
  rfl

/-- C15. Demodulation output placement, in a configuration whose cacheline size
divides `B_dem` and `N_d` (so that every work item passes the assertion of
`DoDemul::Launch` and reaches `Demodulate`): for a stream `s`, the work item with
base subcarrier `base_sc` writes its `M * K` demodulated values at the offsets
`[M * base_sc, M * base_sc + M * K)` of `DemodBuffer[frame mod W][sym_idx_ul][s]`,
`K = min(B_dem, N_d - base_sc)`; over the work items
`base_sc = 0, B_dem, 2 B_dem, ... < N_d` these ranges are pairwise disjoint and
together cover exactly `[0, M * N_d)`. -/
theorem Launch_demod_ranges_tile (cfg : Config) (ModOrderBits : Nat)
    (hdem : 0 < cfg.DemulBlockSize) (hN : cfg.OFDM_DATA_NUM < 2 ^ 64)
    (hcl : kSCsPerCacheline ∣ cfg.DemulBlockSize)
    (hnd : kSCsPerCacheline ∣ cfg.OFDM_DATA_NUM) :
    (∀ b ∈ demul_work_items cfg, ∀ n,
      Launch_demod_writes cfg ModOrderBits b n ↔
        (ModOrderBits * b ≤ n ∧
          n < ModOrderBits * b
            + ModOrderBits * min cfg.DemulBlockSize (cfg.OFDM_DATA_NUM - b))) ∧
    (∀ b₁ ∈ demul_work_items cfg, ∀ b₂ ∈ demul_work_items cfg, b₁ ≠ b₂ →
      ∀ n, ¬ (Launch_demod_writes cfg ModOrderBits b₁ n
        ∧ Launch_demod_writes cfg ModOrderBits b₂ n)) ∧
    (∀ n, (∃ b ∈ demul_work_items cfg, Launch_demod_writes cfg ModOrderBits b n)
      ↔ n < ModOrderBits * cfg.OFDM_DATA_NUM) := by
  have hrange : ∀ b ∈ demul_work_items cfg, ∀ n,
      Launch_demod_writes cfg ModOrderBits b n ↔
        (ModOrderBits * b ≤ n ∧
          n < ModOrderBits * b
            + ModOrderBits * min cfg.DemulBlockSize (cfg.OFDM_DATA_NUM - b)) := by
    intro b hb n
    have hb' := (mem_loopSteps_iff hdem).1 hb
    have ha := work_item_assertion hdem hN hcl hnd hb
    unfold Launch_demod_writes Demodulate_count
    rw [max_sc_ite_work_item hN hb'.1] at ha ⊢
    exact ⟨fun h => h.2, fun h => ⟨ha, h⟩⟩
  -- an ordered pair of work items does not overlap
  have hlt : ∀ b₁ ∈ demul_work_items cfg, ∀ b₂ ∈ demul_work_items cfg, b₁ < b₂ →
      ∀ n, ¬ (Launch_demod_writes cfg ModOrderBits b₁ n
        ∧ Launch_demod_writes cfg ModOrderBits b₂ n) := by
    intro b₁ h1 b₂ h2 hlt n ⟨w1, w2⟩
    rw [hrange b₁ h1] at w1
    rw [hrange b₂ h2] at w2
    obtain ⟨-, t1, rfl⟩ := (mem_loopSteps_iff hdem).1 h1
    obtain ⟨-, t2, rfl⟩ := (mem_loopSteps_iff hdem).1 h2
    have ht : t1 < t2 := Nat.lt_of_mul_lt_mul_left hlt
    have hstep : cfg.DemulBlockSize * t1 + cfg.DemulBlockSize ≤ cfg.DemulBlockSize * t2 := by
      have : cfg.DemulBlockSize * (t1 + 1) ≤ cfg.DemulBlockSize * t2 :=
        Nat.mul_le_mul_left _ ht
      have e : cfg.DemulBlockSize * (t1 + 1)
          = cfg.DemulBlockSize * t1 + cfg.DemulBlockSize := by ring
      omega
    have hK : min cfg.DemulBlockSize (cfg.OFDM_DATA_NUM - cfg.DemulBlockSize * t1)
        ≤ cfg.DemulBlockSize := Nat.min_le_left _ _
    have hM : ModOrderBits * (cfg.DemulBlockSize * t1
          + min cfg.DemulBlockSize (cfg.OFDM_DATA_NUM - cfg.DemulBlockSize * t1))
        ≤ ModOrderBits * (cfg.DemulBlockSize * t2) :=
      Nat.mul_le_mul_left _ (by omega)
    rw [Nat.mul_add] at hM
    omega
  refine ⟨hrange, ?_, ?_⟩
  · intro b₁ h1 b₂ h2 hne n
    rcases Nat.lt_or_gt_of_ne hne with h | h
    · exact hlt b₁ h1 b₂ h2 h n
    · exact fun c => hlt b₂ h2 b₁ h1 h n ⟨c.2, c.1⟩
  · intro n
    constructor
    · rintro ⟨b, hb, hw⟩
      rw [hrange b hb] at hw
      have hb' := (mem_loopSteps_iff hdem).1 hb
      have hK : b + min cfg.DemulBlockSize (cfg.OFDM_DATA_NUM - b) ≤ cfg.OFDM_DATA_NUM := by
        have := Nat.min_le_right cfg.DemulBlockSize (cfg.OFDM_DATA_NUM - b)
        omega
      have hM : ModOrderBits * (b + min cfg.DemulBlockSize (cfg.OFDM_DATA_NUM - b))
          ≤ ModOrderBits * cfg.OFDM_DATA_NUM := Nat.mul_le_mul_left _ hK
      rw [Nat.mul_add] at hM
      omega
    · intro hn
      have hM : 0 < ModOrderBits := by
        rcases Nat.eq_zero_or_pos ModOrderBits with h | h
        · rw [h] at hn; simp at hn
        · exact h
      have hsc : n / ModOrderBits < cfg.OFDM_DATA_NUM :=
        Nat.div_lt_of_lt_mul hn
      have hdm := Nat.div_add_mod n ModOrderBits
      have hmod := Nat.mod_lt n hM
      have hdm2 := Nat.div_add_mod (n / ModOrderBits) cfg.DemulBlockSize
      have hmod2 := Nat.mod_lt (n / ModOrderBits) hdem
      have hbmem : cfg.DemulBlockSize * (n / ModOrderBits / cfg.DemulBlockSize)
          ∈ demul_work_items cfg := by
        apply (mem_loopSteps_iff hdem).2
        exact ⟨by omega, Dvd.intro _ rfl⟩
      refine ⟨_, hbmem, ?_⟩
      rw [hrange _ hbmem]
      have hle : ModOrderBits * (cfg.DemulBlockSize * (n / ModOrderBits / cfg.DemulBlockSize))
          ≤ ModOrderBits * (n / ModOrderBits) := Nat.mul_le_mul_left _ (by omega)
      have hup : ModOrderBits * (n / ModOrderBits + 1)
          ≤ ModOrderBits * (cfg.DemulBlockSize * (n / ModOrderBits / cfg.DemulBlockSize)
            + min cfg.DemulBlockSize
              (cfg.OFDM_DATA_NUM
                - cfg.DemulBlockSize * (n / ModOrderBits / cfg.DemulBlockSize))) := by
        apply Nat.mul_le_mul_left
        rcases Nat.le_total cfg.DemulBlockSize
          (cfg.OFDM_DATA_NUM
            - cfg.DemulBlockSize * (n / ModOrderBits / cfg.DemulBlockSize)) with h | h
        · rw [Nat.min_eq_left h]; omega
        · rw [Nat.min_eq_right h]; omega
      rw [Nat.mul_add] at hup
      rw [Nat.mul_add, Nat.mul_one] at hup
      omega

theorem Launch_demod_ranges_tile_witness :
    (0 < exampleConfigClip.DemulBlockSize ∧ exampleConfigClip.OFDM_DATA_NUM < 2 ^ 64 ∧
      kSCsPerCacheline ∣ exampleConfigClip.DemulBlockSize ∧
      kSCsPerCacheline ∣ exampleConfigClip.OFDM_DATA_NUM) ∧
    ((∀ b ∈ demul_work_items exampleConfigClip, ∀ n,
      Launch_demod_writes exampleConfigClip 4 b n ↔
        (4 * b ≤ n ∧
          n < 4 * b + 4 * min exampleConfigClip.DemulBlockSize
            (exampleConfigClip.OFDM_DATA_NUM - b))) ∧
    (∀ b₁ ∈ demul_work_items exampleConfigClip, ∀ b₂ ∈ demul_work_items exampleConfigClip,
      b₁ ≠ b₂ →
      ∀ n, ¬ (Launch_demod_writes exampleConfigClip 4 b₁ n
        ∧ Launch_demod_writes exampleConfigClip 4 b₂ n)) ∧
    (∀ n, (∃ b ∈ demul_work_items exampleConfigClip, Launch_demod_writes exampleConfigClip 4 b n)
      ↔ n < 4 * exampleConfigClip.OFDM_DATA_NUM)) :=
  ⟨by decide,
   Launch_demod_ranges_tile exampleConfigClip 4 (by decide) (by decide) (by decide) (by decide)⟩

/-! ## The per-stream transpose -/

theorem Launch_index2_even (S m : Nat) (hm : m < 4) :
    Launch_index2 S (2 * m) = 2 * (m * S) := by
  interval_cases m <;> simp [Launch_index2, _mm256_setr_epi32] <;> ring

theorem Launch_index2_odd (S m : Nat) (hm : m < 4) :
    Launch_index2 S (2 * m + 1) = 2 * (m * S) + 1 := by
  interval_cases m <;> simp [Launch_index2, _mm256_setr_epi32] <;> ring

/-- The transpose loop started with `equal_t_ptr` at sample `t` of the transposed
buffer and `equal_ptr` at sample `e` of the equalized samples: each iteration
moves four samples, `S` apart in the source. -/
theorem Launch_transpose_loop {α : Type} (S : Nat) (equal : Nat → complex_float α) (k : Nat) :
    ∀ (l : List Nat) (t e : Nat) (mem : Nat → α),
      ofFloats (l.foldl
          (fun (st : Nat × Nat × (Nat → α)) _j =>
            (st.1 + 8, st.2.1 + S * k_num_double_in_sim_d256 * 2,
             _mm256_store_ps st.2.2 st.1
              (_mm256_i32gather_ps (asFloats equal) st.2.1 (Launch_index2 S) 4)))
          (2 * t, 2 * e, mem)).2.2 k
        = if t ≤ k ∧ k < t + 4 * l.length then equal (e + (k - t) * S)
          else ofFloats mem k := by
  intro l
  induction l with
  | nil =>
    intro t e mem
    rw [if_neg (by simp)]
    rfl
  | cons x l ih =>
    intro t e mem
    have e1 : 2 * t + 8 = 2 * (t + 4) := by ring
    have e2 : 2 * e + S * k_num_double_in_sim_d256 * 2 = 2 * (e + 4 * S) := by
      simp only [k_num_double_in_sim_d256]; ring
    simp only [List.foldl_cons, e1, e2]
    rw [ih, ofFloats_mm256_store]
    simp only [List.length_cons]
    by_cases h1 : t + 4 ≤ k ∧ k < t + 4 + 4 * l.length
    · have h2 : t ≤ k ∧ k < t + 4 * (l.length + 1) := by omega
      rw [if_pos h1, if_pos h2]
      congr 1
      have e3 : k - t = (k - (t + 4)) + 4 := by omega
      rw [e3, Nat.add_mul]
      omega
    · rw [if_neg h1]
      by_cases h3 : t ≤ k ∧ k < t + 4
      · have h2 : t ≤ k ∧ k < t + 4 * (l.length + 1) := by omega
        rw [if_pos h3, if_pos h2]
        have hm : k - t < 4 := by omega
        simp only [_mm256_i32gather_ps, Launch_index2_even S _ hm, Launch_index2_odd S _ hm,
          Nat.mul_div_cancel _ (show 0 < 4 by decide)]
        have e4 : 2 * e + 2 * ((k - t) * S) = 2 * (e + (k - t) * S) := by ring
        have e5 : 2 * e + (2 * ((k - t) * S) + 1) = 2 * (e + (k - t) * S) + 1 := by ring
        rw [e4, e5, asFloats_even, asFloats_odd]
      · have h2 : ¬ (t ≤ k ∧ k < t + 4 * (l.length + 1)) := by omega
        rw [if_neg h3, if_neg h2]

/-- The transposed buffer of a stream, index by index. -/
theorem Launch_transpose_stream_apply {α : Type} (kExportConstellation : Bool) (S : Nat)
    (equal_buffer_row equaled_buffer_temp_ transposed : Nat → complex_float α)
    (base_sc_id max_sc_ite ss_id k : Nat) :
    Launch_transpose_stream kExportConstellation S equal_buffer_row equaled_buffer_temp_
        transposed base_sc_id max_sc_ite ss_id k
      = if k < 4 * (max_sc_ite / 4) then
          (if kExportConstellation then equal_buffer_row ((base_sc_id + k) * S + ss_id)
           else equaled_buffer_temp_ (k * S + ss_id))
        else transposed k := by
  unfold Launch_transpose_stream
  cases kExportConstellation with
  | false =>
    simp only [Bool.false_eq_true, if_false]
    rw [show (0 : Nat) = 2 * 0 from rfl, Launch_transpose_loop, ofFloats_asFloats]
    simp only [List.length_range, k_num_double_in_sim_d256, Nat.zero_add, Nat.zero_le, true_and,
      Nat.sub_zero]
    by_cases hk : k < 4 * (max_sc_ite / 4)
    · rw [if_pos hk, if_pos hk, Nat.add_comm]
    · rw [if_neg hk, if_neg hk]
  | true =>
    simp only [if_true]
    rw [show (0 : Nat) = 2 * 0 from rfl, Launch_transpose_loop, ofFloats_asFloats]
    simp only [List.length_range, k_num_double_in_sim_d256, Nat.zero_add, Nat.zero_le, true_and,
      Nat.sub_zero]
    by_cases hk : k < 4 * (max_sc_ite / 4)
    · rw [if_pos hk, if_pos hk]
      congr 1
      ring
    · rw [if_neg hk, if_neg hk]

/-- C16. Per-stream transpose before demodulation: for every stream `s` and every
`k < K` (`K` a multiple of 4), the contiguous buffer handed to `Demodulate`
satisfies `transposed[k] = equalized[k*S + s]`, where `equalized` holds the
`S`-vector of subcarrier `base_sc + k` at offset `k*S` (the place where step 2
stored it: `equaled_buffer_temp_[k*S ..]`, or `equal_buffer_[(base_sc + k)*S ..]`
when the constellation is exported). -/
theorem Launch_transpose_extracts_stream {α : Type} (kExportConstellation : Bool) (S : Nat)
    (equal_buffer_row equaled_buffer_temp_ transposed : Nat → complex_float α)
    (base_sc_id K s k : Nat) (hK : 4 ∣ K) (hk : k < K) :
    Launch_transpose_stream kExportConstellation S equal_buffer_row equaled_buffer_temp_
        transposed base_sc_id K s k
      = (if kExportConstellation then equal_buffer_row else equaled_buffer_temp_)
          (Launch_equal_offset kExportConstellation S base_sc_id (base_sc_id + k) + s) ∧
    (kExportConstellation = false →
      Launch_transpose_stream kExportConstellation S equal_buffer_row equaled_buffer_temp_
          transposed base_sc_id K s k = equaled_buffer_temp_ (k * S + s)) ∧
    (kExportConstellation = true →
      Launch_transpose_stream kExportConstellation S equal_buffer_row equaled_buffer_temp_
          transposed base_sc_id K s k = equal_buffer_row ((base_sc_id + k) * S + s)) := by
  have hk4 : k < 4 * (K / 4) := by
    rw [Nat.mul_div_cancel' hK]; exact hk
  have h := Launch_transpose_stream_apply kExportConstellation S equal_buffer_row
    equaled_buffer_temp_ transposed base_sc_id K s k
  rw [if_pos hk4] at h
  refine ⟨?_, ?_, ?_⟩
  · rw [h]
    cases kExportConstellation with
    | false =>
      simp only [Bool.false_eq_true, if_false, Launch_equal_offset, Nat.add_sub_cancel_left]
    | true => simp only [if_true, Launch_equal_offset]
  · intro hf
    rw [h, hf]
    simp
  · intro ht
    rw [h, ht]
    simp

theorem Launch_transpose_extracts_stream_witness :
    (4 ∣ 8 ∧ 5 < 8) ∧
    (Launch_transpose_stream false 2 exampleBuf exampleEqualized exampleBuf 16 8 1 5
      = (if false = true then exampleBuf else exampleEqualized)
          (Launch_equal_offset false 2 16 (16 + 5) + 1) ∧
    (false = false →
      Launch_transpose_stream false 2 exampleBuf exampleEqualized exampleBuf 16 8 1 5
        = exampleEqualized (5 * 2 + 1)) ∧
    (false = true →
      Launch_transpose_stream false 2 exampleBuf exampleEqualized exampleBuf 16 8 1 5
        = exampleBuf ((16 + 5) * 2 + 1))) :=
  ⟨by decide,
   Launch_transpose_extracts_stream false 2 exampleBuf exampleEqualized exampleBuf 16 8 1 5
    (by decide) (by decide)⟩

/-! ## `Doer::TryLaunch` -/

theorem run_launches_length {σ ε : Type} (Launch : σ → Nat → Except String (σ × EventData ε)) :
    ∀ (ts : List Nat) (s s' : σ) (comps : List (EventData ε)),
      Doer.run_launches Launch s ts = Except.ok (s', comps) → comps.length = ts.length := by
  intro ts
  induction ts with
  | nil =>
    intro s s' comps h
    simp only [Doer.run_launches, Except.ok.injEq, Prod.mk.injEq] at h
    rw [← h.2]
    rfl
  | cons t ts ih =>
    intro s s' comps h
    unfold Doer.run_launches at h
    cases hL : Launch s t with
    | error e => rw [hL] at h; cases h
    | ok r =>
      obtain ⟨s1, c⟩ := r
      rw [hL] at h
      simp only at h
      cases hR : Doer.run_launches Launch s1 ts with
      | error e => rw [hR] at h; cases h
      | ok r2 =>
        obtain ⟨s2, cs⟩ := r2
        rw [hR] at h
        simp only [Except.ok.injEq, Prod.mk.injEq] at h
        rw [← h.2, List.length_cons, List.length_cons, ih s1 s2 cs hR]

/-- The tag array left by storing, for each index of `is` in turn, tag 0 of the
matching completion. -/
theorem resp_tags_range {ε : Type} :
    ∀ (comps : List (EventData ε)) (a : Nat) (f0 : Nat → Nat),
      (∀ i c, comps[i]? = some c →
        ((List.range' a comps.length).zip comps).foldl
          (fun f p => Function.update f p.1 (p.2.tags_ 0)) f0 (a + i) = c.tags_ 0) ∧
      (∀ j, (j < a ∨ a + comps.length ≤ j) →
        ((List.range' a comps.length).zip comps).foldl
          (fun f p => Function.update f p.1 (p.2.tags_ 0)) f0 j = f0 j) := by
  intro comps
  induction comps with
  | nil =>
    intro a f0
    constructor
    · intro i c h
      simp at h
    · intro j _
      rfl
  | cons c0 cs ih =>
    intro a f0
    have hz : (List.range' a (c0 :: cs).length).zip (c0 :: cs)
        = (a, c0) :: (List.range' (a + 1) cs.length).zip cs := by
      simp [List.range'_succ]
    rw [hz]
    simp only [List.foldl_cons]
    obtain ⟨ih1, ih2⟩ := ih (a + 1) (Function.update f0 a (c0.tags_ 0))
    constructor
    · intro i c h
      cases i with
      | zero =>
        simp only [List.getElem?_cons_zero, Option.some.injEq] at h
        subst h
        have h5 := ih2 a (Or.inl (Nat.lt_succ_self a))
        rw [Function.update_same] at h5
        exact h5
      | succ i =>
        simp only [List.getElem?_cons_succ] at h
        have e : a + (i + 1) = a + 1 + i := by omega
        rw [e]
        exact ih1 i c h
    · intro j hj
      simp only [List.length_cons] at hj
      rw [ih2 j (by omega), Function.update_noteq (by omega)]

/-- What the loop of `TryLaunch` does: it succeeds exactly when every index is
within the tag array and the calls of `Launch`, made one after the other in
index order, all succeed with `num_tags_ = 1` and the response's event type;
the response then holds tag 0 of each completion at the index of its request
tag. -/
theorem TryLaunch_loop_ok {σ ε : Type} [DecidableEq ε] (kMaxTags : Nat)
    (Launch : σ → Nat → Except String (σ × EventData ε)) (req : EventData ε) :
    ∀ (is : List Nat) (s : σ) (resp : EventData ε) (s' : σ) (resp' : EventData ε),
      Doer.TryLaunch_loop kMaxTags Launch req is s resp = Except.ok (s', resp') ↔
        (∀ i ∈ is, i < kMaxTags) ∧
        ∃ comps, Doer.run_launches Launch s (is.map req.tags_) = Except.ok (s', comps) ∧
          (∀ c ∈ comps, c.num_tags_ = 1 ∧ c.event_type_ = resp.event_type_) ∧
          resp' = ⟨resp.event_type_, resp.num_tags_,
            (is.zip comps).foldl (fun f p => Function.update f p.1 (p.2.tags_ 0)) resp.tags_⟩ := by
  intro is
  induction is with
  | nil =>
    intro s resp s' resp'
    simp only [Doer.TryLaunch_loop, Except.ok.injEq, Prod.mk.injEq, List.not_mem_nil,
      false_implies, implies_true, true_and, List.map_nil, Doer.run_launches]
    constructor
    · rintro ⟨h1, h2⟩
      refine ⟨[], ⟨h1, rfl⟩, ?_, ?_⟩
      · intro c hc
        cases hc
      · rw [← h2]
        rfl
    · rintro ⟨comps, ⟨h1, h2⟩, -, h3⟩
      refine ⟨h1, ?_⟩
      rw [h3, ← h2]
      rfl
  | cons i is ih =>
    intro s resp s' resp'
    unfold Doer.TryLaunch_loop
    simp only [List.map_cons, Doer.run_launches, List.mem_cons, forall_eq_or_imp]
    by_cases hi : i < kMaxTags
    · have h0 : 0 < kMaxTags := by omega
      simp only [array_at, if_pos hi, if_pos h0]
      cases hL : Launch s (req.tags_ i) with
      | error e =>
        simp only
        constructor
        · intro h
          cases h
        · rintro ⟨-, comps, h, -⟩
          cases h
      | ok r =>
        obtain ⟨s1, c⟩ := r
        simp only
        by_cases hn : c.num_tags_ = 1
        · by_cases he : resp.event_type_ = c.event_type_
          · have hd : decide (resp.event_type_ = c.event_type_) = true := decide_eq_true he
            simp only [RtAssert, hn, hd, decide_True, if_true]
            rw [ih]
            constructor
            · rintro ⟨h1, comps, h2, h3, h4⟩
              refine ⟨⟨hi, h1⟩, c :: comps, ?_, ?_, ?_⟩
              · rw [h2]
              · intro c' hc'
                rcases List.mem_cons.1 hc' with h | h
                · rw [h]
                  exact ⟨hn, he.symm⟩
                · exact h3 c' h
              · rw [h4]
                rfl
            · rintro ⟨⟨-, h1⟩, comps, h2, h3, h4⟩
              refine ⟨h1, ?_⟩
              cases hR : Doer.run_launches Launch s1 (List.map req.tags_ is) with
              | error e =>
                rw [hR] at h2
                cases h2
              | ok r2 =>
                obtain ⟨s2, cs⟩ := r2
                rw [hR] at h2
                simp only [Except.ok.injEq, Prod.mk.injEq] at h2
                obtain ⟨h2a, h2b⟩ := h2
                refine ⟨cs, ?_, ?_, ?_⟩
                · rw [h2a]
                · intro c' hc'
                  exact h3 c' (by rw [← h2b]; exact List.mem_cons_of_mem _ hc')
                · rw [h4, ← h2b]
                  rfl
          · have hd : decide (resp.event_type_ = c.event_type_) = false := decide_eq_false he
            simp only [RtAssert, hn, hd, decide_True, if_true, Bool.false_eq_true, if_false]
            constructor
            · intro h
              cases h
            · rintro ⟨-, comps, h2, h3, -⟩
              exfalso
              cases hR : Doer.run_launches Launch s1 (List.map req.tags_ is) with
              | error e =>
                rw [hR] at h2
                cases h2
              | ok r2 =>
                obtain ⟨s2, cs⟩ := r2
                rw [hR] at h2
                simp only [Except.ok.injEq, Prod.mk.injEq] at h2
                have := h3 c (by rw [← h2.2]; exact List.mem_cons_self _ _)
                exact he this.2.symm
        · simp only [RtAssert, hn, decide_False, Bool.false_eq_true, if_false]
          constructor
          · intro h
            cases h
          · rintro ⟨-, comps, h2, h3, -⟩
            exfalso
            cases hR : Doer.run_launches Launch s1 (List.map req.tags_ is) with
            | error e =>
              rw [hR] at h2
              cases h2
            | ok r2 =>
              obtain ⟨s2, cs⟩ := r2
              rw [hR] at h2
              simp only [Except.ok.injEq, Prod.mk.injEq] at h2
              have := h3 c (by rw [← h2.2]; exact List.mem_cons_self _ _)
              exact hn this.1
    · simp only [array_at, if_neg hi]
      constructor
      · intro h
        cases h
      · rintro ⟨⟨h, -⟩, -⟩
        exact absurd h hi

/-- What `TryLaunch` does on a non-empty task queue: it returns exactly when the
request's tags fit the tag array and the calls of `Launch` on `tags_[0]`,
`tags_[1]`, ... succeed, each with one tag and the request's event type. -/
theorem TryLaunch_cons_ok {σ ε : Type} [DecidableEq ε] (kMaxTags : Nat) (resp0 : EventData ε)
    (Launch : σ → Nat → Except String (σ × EventData ε)) (s : σ)
    (req : EventData ε) (rest cq : List (EventData ε))
    (r : Bool × σ × List (EventData ε) × List (EventData ε)) :
    Doer.TryLaunch kMaxTags resp0 Launch s (req :: rest) cq = Except.ok r ↔
      req.num_tags_ ≤ kMaxTags ∧
      ∃ s' comps,
        Doer.run_launches Launch s ((List.range req.num_tags_).map req.tags_)
          = Except.ok (s', comps) ∧
        (∀ c ∈ comps, c.num_tags_ = 1 ∧ c.event_type_ = req.event_type_) ∧
        r = (true, s', rest, cq ++ [⟨req.event_type_, req.num_tags_,
              ((List.range req.num_tags_).zip comps).foldl
                (fun f p => Function.update f p.1 (p.2.tags_ 0)) resp0.tags_⟩]) := by
  have hrange : (∀ i ∈ List.range req.num_tags_, i < kMaxTags) ↔ req.num_tags_ ≤ kMaxTags := by
    constructor
    · intro h
      by_contra hc
      have := h kMaxTags (List.mem_range.2 (by omega))
      omega
    · intro h i hi
      have := List.mem_range.1 hi
      omega
  simp only [Doer.TryLaunch, try_dequeue, TryEnqueueFallback]
  cases hloop : Doer.TryLaunch_loop kMaxTags Launch req (List.range req.num_tags_) s
      ⟨req.event_type_, req.num_tags_, resp0.tags_⟩ with
  | error e =>
    simp only
    constructor
    · intro h
      cases h
    · rintro ⟨hn, s', comps, h1, h2, -⟩
      exfalso
      have := (TryLaunch_loop_ok kMaxTags Launch req (List.range req.num_tags_) s
        ⟨req.event_type_, req.num_tags_, resp0.tags_⟩ s' _).2
        ⟨hrange.2 hn, comps, h1, h2, rfl⟩
      rw [hloop] at this
      cases this
  | ok p =>
    obtain ⟨s1, resp⟩ := p
    simp only [Except.ok.injEq]
    obtain ⟨h0, comps, h1, h2, h3⟩ :=
      (TryLaunch_loop_ok kMaxTags Launch req (List.range req.num_tags_) s
        ⟨req.event_type_, req.num_tags_, resp0.tags_⟩ s1 resp).1 hloop
    constructor
    · intro h
      refine ⟨hrange.1 h0, s1, comps, h1, h2, ?_⟩
      rw [← h, h3]
    · rintro ⟨-, s', comps', h1', -, h4⟩
      rw [h1] at h1'
      simp only [Except.ok.injEq, Prod.mk.injEq] at h1'
      rw [h4, h3, ← h1'.1, ← h1'.2]

/-- The tags of the response: tag 0 of the completion of each request tag, at the
same index. -/
theorem resp_tags_apply {ε : Type} (n : Nat) (comps : List (EventData ε)) (f0 : Nat → Nat)
    (hlen : comps.length = n) :
    (∀ i c, comps[i]? = some c →
      ((List.range n).zip comps).foldl (fun f p => Function.update f p.1 (p.2.tags_ 0)) f0 i
        = c.tags_ 0) ∧
    (∀ j, n ≤ j →
      ((List.range n).zip comps).foldl (fun f p => Function.update f p.1 (p.2.tags_ 0)) f0 j
        = f0 j) := by
  have h := resp_tags_range comps 0 f0
  rw [hlen, ← List.range_eq_range'] at h
  constructor
  · intro i c hc
    have := h.1 i c hc
    rw [Nat.zero_add] at this
    exact this
  · intro j hj
    exact h.2 j (Or.inr (by omega))

/-- One call of `TryLaunch` moves at most one descriptor: the completion queue
grows by one and the task queue shrinks by one when it returns `true`, and both
keep their length when it returns `false`. -/
theorem TryLaunch_counts {σ ε : Type} [DecidableEq ε] (kMaxTags : Nat) (resp0 : EventData ε)
    (Launch : σ → Nat → Except String (σ × EventData ε)) (s : σ)
    (tq cq : List (EventData ε)) (b : Bool) (s1 : σ) (tq1 cq1 : List (EventData ε))
    (h : Doer.TryLaunch kMaxTags resp0 Launch s tq cq = Except.ok (b, s1, tq1, cq1)) :
    cq1.length = cq.length + (if b then 1 else 0) ∧
    tq1.length + (if b then 1 else 0) = tq.length := by
  cases tq with
  | nil =>
    simp only [Doer.TryLaunch, try_dequeue, Except.ok.injEq, Prod.mk.injEq] at h
    obtain ⟨hb, -, ht, hc⟩ := h
    rw [← hb, ← ht, ← hc]
    simp
  | cons req rest =>
    obtain ⟨-, s', comps, -, -, h4⟩ :=
      (TryLaunch_cons_ok kMaxTags resp0 Launch s req rest cq _).1 h
    simp only [Prod.mk.injEq] at h4
    obtain ⟨hb, -, ht, hc⟩ := h4
    rw [hb, ht, hc]
    simp

/-- Over a sequence of `TryLaunch` calls the completion queue grows, and the task
queue shrinks, by the number of calls that returned `true`. -/
theorem TryLaunch_seq_counts {σ ε : Type} [DecidableEq ε] (kMaxTags : Nat)
    (resp0 : EventData ε) (Launch : σ → Nat → Except String (σ × EventData ε)) :
    ∀ (arrivals : List (List (EventData ε))) (s : σ) (tq cq : List (EventData ε))
      (bs : List Bool) (s' : σ) (tq' cq' : List (EventData ε)),
      Doer.TryLaunch_seq kMaxTags resp0 Launch arrivals s tq cq = Except.ok (bs, s', tq', cq') →
        bs.length = arrivals.length ∧
        cq'.length = cq.length + bs.count true ∧
        tq'.length + bs.count true = tq.length + (arrivals.map List.length).sum := by
  intro arrivals
  induction arrivals with
  | nil =>
    intro s tq cq bs s' tq' cq' h
    simp only [Doer.TryLaunch_seq, Except.ok.injEq, Prod.mk.injEq] at h
    obtain ⟨hb, -, ht, hc⟩ := h
    rw [← hb, ← ht, ← hc]
    simp
  | cons arrived later ih =>
    intro s tq cq bs s' tq' cq' h
    unfold Doer.TryLaunch_seq at h
    cases h1 : Doer.TryLaunch kMaxTags resp0 Launch s (tq ++ arrived) cq with
    | error e => rw [h1] at h; cases h
    | ok r =>
      obtain ⟨b, s1, tq1, cq1⟩ := r
      rw [h1] at h
      simp only at h
      cases h2 : Doer.TryLaunch_seq kMaxTags resp0 Launch later s1 tq1 cq1 with
      | error e => rw [h2] at h; cases h
      | ok r2 =>
        obtain ⟨bs2, s2, tq2, cq2⟩ := r2
        rw [h2] at h
        simp only [Except.ok.injEq, Prod.mk.injEq] at h
        obtain ⟨hb, -, ht, hc⟩ := h
        obtain ⟨i1, i2, i3⟩ := ih s1 tq1 cq1 bs2 s2 tq2 cq2 h2
        obtain ⟨c1, c2⟩ := TryLaunch_counts kMaxTags resp0 Launch s (tq ++ arrived) cq b s1 tq1
          cq1 h1
        rw [← hb, ← ht, ← hc]
        simp only [List.length_cons, List.map_cons, List.sum_cons, List.length_append] at *
        cases b with
        | false =>
          simp only [Bool.false_eq_true, if_false, Nat.add_zero] at c1 c2
          rw [List.count_cons_of_ne (by decide)]
          omega
        | true =>
          simp only [if_true] at c1 c2
          rw [List.count_cons_self]
          omega

/-- C17. `Doer::TryLaunch` conserves events.  (1) On an empty task queue it
returns `false` and changes neither queue.  (2) On a task queue with head `req`,
when the request's tags fit the tag array and the calls `Launch(req.tags[0])`,
`Launch(req.tags[1])`, ..., made in index order, succeed with one tag and the
request's event type each (the conditions `TryLaunch` asserts), it returns `true`,
the doer is in the state those calls leave, the task queue has lost exactly its
head and the completion queue has gained exactly one response, with the same
`num_tags` and with `tags[i]` the tag returned by `Launch(req.tags[i])`.  (3) Every
return of `TryLaunch` on a non-empty queue is of that form.  (4) Over any
sequence of calls, with requests arriving in between, the number of completions
enqueued and the number of requests dequeued both equal the number of calls that
returned `true`. -/
theorem TryLaunch_conserves_events {σ ε : Type} [DecidableEq ε] (kMaxTags : Nat)
    (resp0 : EventData ε) (Launch : σ → Nat → Except String (σ × EventData ε)) (s : σ)
    (cq : List (EventData ε)) :
    Doer.TryLaunch kMaxTags resp0 Launch s [] cq = Except.ok (false, s, [], cq) ∧
    (∀ (req : EventData ε) (rest : List (EventData ε)) (s' : σ) (comps : List (EventData ε)),
      req.num_tags_ ≤ kMaxTags →
      Doer.run_launches Launch s ((List.range req.num_tags_).map req.tags_)
        = Except.ok (s', comps) →
      (∀ c ∈ comps, c.num_tags_ = 1 ∧ c.event_type_ = req.event_type_) →
      ∃ resp, Doer.TryLaunch kMaxTags resp0 Launch s (req :: rest) cq
          = Except.ok (true, s', rest, cq ++ [resp]) ∧
        resp.num_tags_ = req.num_tags_ ∧
        (∀ i c, comps[i]? = some c → resp.tags_ i = c.tags_ 0)) ∧
    (∀ (req : EventData ε) (rest : List (EventData ε))
      (r : Bool × σ × List (EventData ε) × List (EventData ε)),
      Doer.TryLaunch kMaxTags resp0 Launch s (req :: rest) cq = Except.ok r →
      ∃ s' comps resp, r = (true, s', rest, cq ++ [resp]) ∧
        Doer.run_launches Launch s ((List.range req.num_tags_).map req.tags_)
          = Except.ok (s', comps) ∧
        comps.length = req.num_tags_ ∧
        resp.num_tags_ = req.num_tags_ ∧
        (∀ i c, comps[i]? = some c → resp.tags_ i = c.tags_ 0)) ∧
    (∀ (arrivals : List (List (EventData ε))) (tq : List (EventData ε)) (bs : List Bool)
      (s' : σ) (tq' cq' : List (EventData ε)),
      Doer.TryLaunch_seq kMaxTags resp0 Launch arrivals s tq cq = Except.ok (bs, s', tq', cq') →
      cq'.length - cq.length = bs.count true ∧
      (tq.length + (arrivals.map List.length).sum) - tq'.length = bs.count true) := by
  refine ⟨rfl, ?_, ?_, ?_⟩
  · intro req rest s' comps hn hrun hc
    have hlen : comps.length = req.num_tags_ := by
      rw [run_launches_length Launch _ s s' comps hrun, List.length_map, List.length_range]
    refine ⟨_, (TryLaunch_cons_ok kMaxTags resp0 Launch s req rest cq _).2
      ⟨hn, s', comps, hrun, hc, rfl⟩, rfl, ?_⟩
    exact (resp_tags_apply req.num_tags_ comps resp0.tags_ hlen).1
  · intro req rest r h
    obtain ⟨-, s', comps, hrun, -, hr⟩ :=
      (TryLaunch_cons_ok kMaxTags resp0 Launch s req rest cq r).1 h
    have hlen : comps.length = req.num_tags_ := by
      rw [run_launches_length Launch _ s s' comps hrun, List.length_map, List.length_range]
    exact ⟨s', comps, _, hr, hrun, hlen, rfl,
      (resp_tags_apply req.num_tags_ comps resp0.tags_ hlen).1⟩
  · intro arrivals tq bs s' tq' cq' h
    obtain ⟨-, h2, h3⟩ := TryLaunch_seq_counts kMaxTags resp0 Launch arrivals s tq cq bs s' tq'
      cq' h
    omega

theorem TryLaunch_conserves_events_witness :
    (exampleRequest.num_tags_ ≤ 14 ∧
      Doer.run_launches exampleLaunch [] ((List.range exampleRequest.num_tags_).map
          exampleRequest.tags_)
        = Except.ok ([7, 9], [EventData.mk1 (fun _ => 0) EventType.kDemul 107,
            EventData.mk1 (fun _ => 0) EventType.kDemul 109]) ∧
      (∀ c ∈ [EventData.mk1 (fun _ => 0) EventType.kDemul 107,
            EventData.mk1 (fun _ => 0) EventType.kDemul 109],
          c.num_tags_ = 1 ∧ c.event_type_ = exampleRequest.event_type_)) ∧
    ∃ resp, Doer.TryLaunch 14 exampleResp0 exampleLaunch [] [exampleRequest] []
        = Except.ok (true, [7, 9], [], [] ++ [resp]) ∧
      resp.num_tags_ = exampleRequest.num_tags_ ∧
      (∀ i c, [EventData.mk1 (fun _ => 0) EventType.kDemul 107,
            EventData.mk1 (fun _ => 0) EventType.kDemul 109][i]? = some c →
          resp.tags_ i = c.tags_ 0) :=
  have h1 : exampleRequest.num_tags_ ≤ 14 := by decide
  have h2 : Doer.run_launches exampleLaunch [] ((List.range exampleRequest.num_tags_).map
          exampleRequest.tags_)
        = Except.ok ([7, 9], [EventData.mk1 (fun _ => 0) EventType.kDemul 107,
            EventData.mk1 (fun _ => 0) EventType.kDemul 109]) := rfl
  have h3 : ∀ c ∈ [EventData.mk1 (fun _ => 0) EventType.kDemul 107,
            EventData.mk1 (fun _ => 0) EventType.kDemul 109],
          c.num_tags_ = 1 ∧ c.event_type_ = exampleRequest.event_type_ := by
    intro c hc
    simp only [List.mem_cons, List.mem_singleton, List.not_mem_nil, or_false] at hc
    rcases hc with h | h <;> rw [h] <;> exact ⟨rfl, rfl⟩
  ⟨⟨h1, h2, h3⟩,
   (TryLaunch_conserves_events 14 exampleResp0 exampleLaunch [] []).2.1 exampleRequest []
      [7, 9] _ h1 h2 h3⟩

/-- C19 as stated fails: the request with two tags and event type `kDemul` is
handled successfully, and the completion enqueued has event type `kDemul` as
well. -/
theorem TryLaunch_same_event_type_example :
    ∃ resp, Doer.TryLaunch 14 exampleResp0 exampleLaunch [] [exampleRequest] []
        = Except.ok (true, [7, 9], [], [resp]) ∧
      resp.event_type_ = EventType.kDemul ∧
      exampleRequest.event_type_ = EventType.kDemul :=
  ⟨_, rfl, rfl, rfl⟩

/-- C19, amended. For every request successfully handled by `Doer::TryLaunch`, the
completion descriptor enqueued on the completion queue has the same event type as
the request descriptor that was dequeued (`resp_event.event_type_ =
req_event.event_type_`), and so has every completion `Launch` returned for its
tags (the second `RtAssert`). -/
theorem TryLaunch_keeps_event_type {σ ε : Type} [DecidableEq ε] (kMaxTags : Nat)
    (resp0 : EventData ε) (Launch : σ → Nat → Except String (σ × EventData ε)) (s : σ)
    (req : EventData ε) (rest cq : List (EventData ε))
    (r : Bool × σ × List (EventData ε) × List (EventData ε))
    (h : Doer.TryLaunch kMaxTags resp0 Launch s (req :: rest) cq = Except.ok r) :
    ∃ s' comps resp, r = (true, s', rest, cq ++ [resp]) ∧
      resp.event_type_ = req.event_type_ ∧
      Doer.run_launches Launch s ((List.range req.num_tags_).map req.tags_)
        = Except.ok (s', comps) ∧
      ∀ c ∈ comps, c.event_type_ = req.event_type_ := by
  obtain ⟨-, s', comps, hrun, hc, hr⟩ :=
    (TryLaunch_cons_ok kMaxTags resp0 Launch s req rest cq r).1 h
  exact ⟨s', comps, _, hr, rfl, hrun, fun c hcm => (hc c hcm).2⟩

theorem TryLaunch_keeps_event_type_witness :
    ∃ s' comps resp,
      ((true, [7, 9], [], [(⟨EventType.kDemul, 2,
          Function.update (Function.update (fun _ => 0) 0 107) 1 109⟩ : EventData EventType)])
        : Bool × List Nat × List (EventData EventType) × List (EventData EventType))
        = (true, s', [], [] ++ [resp]) ∧
      resp.event_type_ = exampleRequest.event_type_ ∧
      Doer.run_launches exampleLaunch [] ((List.range exampleRequest.num_tags_).map
          exampleRequest.tags_) = Except.ok (s', comps) ∧
      ∀ c ∈ comps, c.event_type_ = exampleRequest.event_type_ :=
  TryLaunch_keeps_event_type 14 exampleResp0 exampleLaunch [] exampleRequest [] [] _ rfl

/-! ## `DoFFT::launch` -/

/-- Whenever `DoFFT::launch` returns, it returns the `kFFT` descriptor whose tag is
`frm_sym` of the packet header, and the status flag of the packet's slot is 0. -/
theorem DoFFT_launch_returns {α : Type} [Mul α] [Add α] [Sub α] (cfg : DoFFTConfig)
    (codec : TagCodec) (pilots_sgn_ : Nat → complex_float α)
    (socket_buffer_ : Nat → Nat → Packet)
    (fft_inout_of : Packet → SymbolType → Nat → complex_float α) (fill : Nat → Nat)
    (st : DoFFTState α) (tag : Nat) (st' : DoFFTState α) (ev : EventData EventType)
    (h : DoFFT.launch cfg codec pilots_sgn_ socket_buffer_ fft_inout_of fill st tag
      = Except.ok (st', ev)) :
    ev = EventData.mk1 fill EventType.kFFT
      (codec.gen_tag_frm_sym
        (socket_buffer_ (codec.fft_req_tag_tid tag) (codec.fft_req_tag_offset tag)).frame_id
        (socket_buffer_ (codec.fft_req_tag_tid tag) (codec.fft_req_tag_offset tag)).symbol_id) ∧
    st'.socket_buffer_status_ (codec.fft_req_tag_tid tag) (codec.fft_req_tag_offset tag) = 0 := by
  unfold DoFFT.launch at h
  dsimp only at h
  split at h
  · cases h
  · simp only [Except.ok.injEq, Prod.mk.injEq] at h
    obtain ⟨h1, h2⟩ := h
    rw [← h1, ← h2]
    simp


/-- `DoFFT::launch` ends at its last assertion exactly on the packets its dispatch
has no branch for. -/
theorem DoFFT_launch_fatal_iff {α : Type} [Mul α] [Add α] [Sub α] (cfg : DoFFTConfig)
    (codec : TagCodec) (pilots_sgn_ : Nat → complex_float α)
    (socket_buffer_ : Nat → Nat → Packet)
    (fft_inout_of : Packet → SymbolType → Nat → complex_float α) (fill : Nat → Nat)
    (st : DoFFTState α) (tag : Nat) :
    DoFFT.launch cfg codec pilots_sgn_ socket_buffer_ fft_inout_of fill st tag
        = Except.error "Unknown or unsupported symbol type" ↔
      ¬ DoFFT.supported cfg
        (cfg.get_symbol_type
          (socket_buffer_ (codec.fft_req_tag_tid tag) (codec.fft_req_tag_offset tag)).frame_id
          (socket_buffer_ (codec.fft_req_tag_tid tag) (codec.fft_req_tag_offset tag)).symbol_id)
        (socket_buffer_ (codec.fft_req_tag_tid tag) (codec.fft_req_tag_offset tag)).ant_id := by
  unfold DoFFT.launch DoFFT.supported
  dsimp only
  generalize socket_buffer_ (codec.fft_req_tag_tid tag) (codec.fft_req_tag_offset tag) = pkt
  generalize hsym : cfg.get_symbol_type pkt.frame_id pkt.symbol_id = sym
  have hstr : ¬ ("division by zero" = "Unknown or unsupported symbol type") := by decide
  by_cases h1 : sym = SymbolType.kPilot
  · simp [h1]
  · by_cases h2 : sym = SymbolType.kUL
    · simp [h2]
    · by_cases h3 : sym = SymbolType.kCalUL ∧ pkt.ant_id ≠ cfg.ref_ant
      · rw [if_neg h1, if_neg h2, if_pos h3]
        have hs : (sym = SymbolType.kPilot ∨ sym = SymbolType.kUL ∨
            (sym = SymbolType.kCalUL ∧ pkt.ant_id ≠ cfg.ref_ant) ∨
            (sym = SymbolType.kCalDL ∧ pkt.ant_id = cfg.ref_ant)) := Or.inr (Or.inr (Or.inl h3))
        simp only [hs, not_true_eq_false, iff_false]
        split_ifs <;> simp [hstr]
      · by_cases h4 : sym = SymbolType.kCalDL ∧ pkt.ant_id = cfg.ref_ant
        · rw [if_neg h1, if_neg h2, if_neg h3, if_pos h4]
          have hs : (sym = SymbolType.kPilot ∨ sym = SymbolType.kUL ∨
              (sym = SymbolType.kCalUL ∧ pkt.ant_id ≠ cfg.ref_ant) ∨
              (sym = SymbolType.kCalDL ∧ pkt.ant_id = cfg.ref_ant)) :=
            Or.inr (Or.inr (Or.inr h4))
          simp only [hs, not_true_eq_false, iff_false]
          split_ifs <;> simp [hstr]
        · rw [if_neg h1, if_neg h2, if_neg h3, if_neg h4]
          have hs : ¬ (sym = SymbolType.kPilot ∨ sym = SymbolType.kUL ∨
              (sym = SymbolType.kCalUL ∧ pkt.ant_id ≠ cfg.ref_ant) ∨
              (sym = SymbolType.kCalDL ∧ pkt.ant_id = cfg.ref_ant)) := by
            rintro (h | h | h | h)
            · exact h1 h
            · exact h2 h
            · exact h3 h
            · exact h4 h
          simp only [hs, not_false_eq_true, iff_true]
          rfl


/-- `DoFFT::launch` returns on every packet its dispatch has a branch for (for
calibration packets: when the antenna-group configuration is not zero). -/
theorem DoFFT_launch_supported_returns {α : Type} [Mul α] [Add α] [Sub α] (cfg : DoFFTConfig)
    (codec : TagCodec) (pilots_sgn_ : Nat → complex_float α)
    (socket_buffer_ : Nat → Nat → Packet)
    (fft_inout_of : Packet → SymbolType → Nat → complex_float α) (fill : Nat → Nat)
    (st : DoFFTState α) (tag : Nat)
    (hsup : DoFFT.supported cfg
        (cfg.get_symbol_type
          (socket_buffer_ (codec.fft_req_tag_tid tag) (codec.fft_req_tag_offset tag)).frame_id
          (socket_buffer_ (codec.fft_req_tag_tid tag) (codec.fft_req_tag_offset tag)).symbol_id)
        (socket_buffer_ (codec.fft_req_tag_tid tag) (codec.fft_req_tag_offset tag)).ant_id)
    (hgrp : cfg.get_symbol_type
          (socket_buffer_ (codec.fft_req_tag_tid tag) (codec.fft_req_tag_offset tag)).frame_id
          (socket_buffer_ (codec.fft_req_tag_tid tag) (codec.fft_req_tag_offset tag)).symbol_id
          = SymbolType.kPilot ∨
        cfg.get_symbol_type
          (socket_buffer_ (codec.fft_req_tag_tid tag) (codec.fft_req_tag_offset tag)).frame_id
          (socket_buffer_ (codec.fft_req_tag_tid tag) (codec.fft_req_tag_offset tag)).symbol_id
          = SymbolType.kUL ∨
        (cfg.ant_per_group ≠ 0 ∧ cfg.ant_group_num ≠ 0)) :
    ∃ st', DoFFT.launch cfg codec pilots_sgn_ socket_buffer_ fft_inout_of fill st tag
      = Except.ok (st', EventData.mk1 fill EventType.kFFT
          (codec.gen_tag_frm_sym
            (socket_buffer_ (codec.fft_req_tag_tid tag) (codec.fft_req_tag_offset tag)).frame_id
            (socket_buffer_ (codec.fft_req_tag_tid tag)
              (codec.fft_req_tag_offset tag)).symbol_id)) := by
  cases hL : DoFFT.launch cfg codec pilots_sgn_ socket_buffer_ fft_inout_of fill st tag with
  | ok r =>
    obtain ⟨st', ev⟩ := r
    have := (DoFFT_launch_returns cfg codec pilots_sgn_ socket_buffer_ fft_inout_of fill st tag
      st' ev hL).1
    exact ⟨st', by rw [this]⟩
  | error e =>
    exfalso
    unfold DoFFT.launch DoFFT.supported at *
    dsimp only at hL hsup hgrp
    generalize socket_buffer_ (codec.fft_req_tag_tid tag) (codec.fft_req_tag_offset tag) = pkt
      at hL hsup hgrp
    generalize cfg.get_symbol_type pkt.frame_id pkt.symbol_id = sym at hL hsup hgrp
    by_cases h1 : sym = SymbolType.kPilot
    · simp [h1] at hL
    · by_cases h2 : sym = SymbolType.kUL
      · simp [h2] at hL
      · have hg : cfg.ant_per_group ≠ 0 ∧ cfg.ant_group_num ≠ 0 := by
          rcases hgrp with h | h | h
          · exact absurd h h1
          · exact absurd h h2
          · exact h
        have hg2 : ¬ (cfg.ant_per_group = 0 ∨ cfg.ant_group_num = 0) := by
          rintro (h | h)
          · exact hg.1 h
          · exact hg.2 h
        by_cases h3 : sym = SymbolType.kCalUL ∧ pkt.ant_id ≠ cfg.ref_ant
        · rw [if_neg h1, if_neg h2, if_pos h3, if_neg hg2] at hL
          split_ifs at hL
        · by_cases h4 : sym = SymbolType.kCalDL ∧ pkt.ant_id = cfg.ref_ant
          · rw [if_neg h1, if_neg h2, if_neg h3, if_pos h4, if_neg hg.2] at hL
            split_ifs at hL
          · rcases hsup with h | h | h | h
            · exact h1 h
            · exact h2 h
            · exact h3 h
            · exact h4 h


/-- C18 as stated fails for `DoFFT::launch`.  In a configuration with `B_tr = 8`,
`N_d = 16`, `DATA_START = 4` and four antennas, with request tags
`16 * offset + tid` and completion tags `1000 * frame_id + symbol_id`, the request
with tag 0 (slot 0 of socket thread 0, holding the pilot packet of frame 5 from
antenna 1) is answered by a completion with tag 5000.  And whatever the tag words
are, as long as `frm_sym` tells frame 0 from frame 1: the completion tag follows
the packet found in the slot, so it cannot always be the request tag. -/
theorem DoFFT_launch_tag_not_request_tag :
    (∃ st', DoFFT.launch exampleAlignedDoFFTConfig exampleCodec examplePilots
        (examplePilotSocket 5)
        (fun pkt _ => exampleFft pkt.ant_id) (fun _ => 0) exampleDoFFTState 0
        = Except.ok (st', EventData.mk1 (fun _ => 0) EventType.kFFT 5000)) ∧
    ¬ ∃ codec : TagCodec, codec.gen_tag_frm_sym 0 0 ≠ codec.gen_tag_frm_sym 1 0 ∧
      ∀ (socket_buffer_ : Nat → Nat → Packet) (st' : DoFFTState Int)
        (ev : EventData EventType),
        DoFFT.launch exampleAlignedDoFFTConfig codec examplePilots socket_buffer_
          (fun pkt _ => exampleFft pkt.ant_id) (fun _ => 0) exampleDoFFTState 0
          = Except.ok (st', ev) → ev.tags_ 0 = 0 := by
  constructor
  · exact DoFFT_launch_supported_returns exampleAlignedDoFFTConfig exampleCodec examplePilots
      (examplePilotSocket 5) (fun pkt _ => exampleFft pkt.ant_id) (fun _ => 0)
      exampleDoFFTState 0 (Or.inl rfl) (Or.inl rfl)
  · rintro ⟨codec, hne, h⟩
    obtain ⟨st0, h0⟩ := DoFFT_launch_supported_returns exampleAlignedDoFFTConfig codec
      examplePilots
      (examplePilotSocket 0) (fun pkt _ => exampleFft pkt.ant_id) (fun _ => 0)
      exampleDoFFTState 0 (Or.inl rfl) (Or.inl rfl)
    obtain ⟨st1, h1⟩ := DoFFT_launch_supported_returns exampleAlignedDoFFTConfig codec
      examplePilots
      (examplePilotSocket 1) (fun pkt _ => exampleFft pkt.ant_id) (fun _ => 0)
      exampleDoFFTState 0 (Or.inl rfl) (Or.inl rfl)
    have e0 := h _ _ _ h0
    have e1 := h _ _ _ h1
    simp only [EventData.mk1, examplePilotSocket, Function.update_same] at e0 e1
    exact hne (e0.trans e1.symm)

/-- C18, amended. `DoDemul::Launch` and `DoIFFT::launch` answer a request with a
completion descriptor that carries exactly the request's tag word.
`DoFFT::launch` does not: its request tag names a packet slot (socket thread and
offset), and the completion it returns carries
`gen_tag_t::frm_sym(frame_id, symbol_id)`, built from the header of the packet
found in that slot.  Each doer returns one tag, with its own event type. -/
theorem stage_completion_tags {α : Type} [Mul α] [Add α] [Sub α] (cfg : DoFFTConfig)
    (codec : TagCodec) (pilots_sgn_ : Nat → complex_float α)
    (socket_buffer_ : Nat → Nat → Packet)
    (fft_inout_of : Packet → SymbolType → Nat → complex_float α) (fill : Nat → Nat)
    (st : DoFFTState α) (tag : Nat) :
    (∀ st' ev, DoFFT.launch cfg codec pilots_sgn_ socket_buffer_ fft_inout_of fill st tag
        = Except.ok (st', ev) →
      ev.event_type_ = EventType.kFFT ∧ ev.num_tags_ = 1 ∧
      ev.tags_ 0 = codec.gen_tag_frm_sym
        (socket_buffer_ (codec.fft_req_tag_tid tag) (codec.fft_req_tag_offset tag)).frame_id
        (socket_buffer_ (codec.fft_req_tag_tid tag) (codec.fft_req_tag_offset tag)).symbol_id) ∧
    (cfg.get_symbol_type
        (socket_buffer_ (codec.fft_req_tag_tid tag) (codec.fft_req_tag_offset tag)).frame_id
        (socket_buffer_ (codec.fft_req_tag_tid tag) (codec.fft_req_tag_offset tag)).symbol_id
        = SymbolType.kPilot →
      ∃ st' ev, DoFFT.launch cfg codec pilots_sgn_ socket_buffer_ fft_inout_of fill st tag
        = Except.ok (st', ev)) ∧
    (∀ ev, DoDemul.Launch_event cfg.toConfig codec fill tag = Except.ok ev →
      ev.event_type_ = EventType.kDemul ∧ ev.num_tags_ = 1 ∧ ev.tags_ 0 = tag) ∧
    (max_sc_ite cfg.toConfig (codec.gen_tag_sc_id tag) % kSCsPerCacheline = 0 →
      ∃ ev, DoDemul.Launch_event cfg.toConfig codec fill tag = Except.ok ev) ∧
    ((DoIFFT.launch_event fill tag).event_type_ = EventType.kIFFT ∧
      (DoIFFT.launch_event fill tag).num_tags_ = 1 ∧
      (DoIFFT.launch_event fill tag).tags_ 0 = tag) := by
  refine ⟨?_, ?_, ?_, ?_, ?_⟩
  · intro st' ev h
    rw [(DoFFT_launch_returns cfg codec pilots_sgn_ socket_buffer_ fft_inout_of fill st tag st'
      ev h).1]
    exact ⟨rfl, rfl, by simp [EventData.mk1]⟩
  · intro hp
    obtain ⟨st', h⟩ := DoFFT_launch_supported_returns cfg codec pilots_sgn_ socket_buffer_
      fft_inout_of fill st tag (Or.inl hp) (Or.inl hp)
    exact ⟨st', _, h⟩
  · intro ev h
    unfold DoDemul.Launch_event at h
    dsimp only at h
    split_ifs at h
    simp only [Except.ok.injEq] at h
    rw [← h]
    exact ⟨rfl, rfl, by simp [EventData.mk1]⟩
  · intro hm
    unfold DoDemul.Launch_event
    dsimp only
    rw [if_pos hm]
    exact ⟨_, rfl⟩
  · exact ⟨rfl, rfl, by simp [DoIFFT.launch_event, EventData.mk1]⟩

theorem stage_completion_tags_witness :
    (∃ st' ev, DoFFT.launch exampleAlignedDoFFTConfig exampleCodec examplePilots
        (examplePilotSocket 5)
        (fun pkt _ => exampleFft pkt.ant_id) (fun _ => 0) exampleDoFFTState 0
        = Except.ok (st', ev)) ∧
    (∃ ev, DoDemul.Launch_event exampleAlignedDoFFTConfig.toConfig exampleCodec (fun _ => 0) 0
        = Except.ok ev) ∧
    (DoIFFT.launch_event (fun _ => 0) 0).tags_ 0 = 0 :=
  have h := stage_completion_tags exampleAlignedDoFFTConfig exampleCodec examplePilots
    (examplePilotSocket 5) (fun pkt _ => exampleFft pkt.ant_id) (fun _ => 0)
    exampleDoFFTState 0
  ⟨h.2.1 rfl, h.2.2.2.1 (by decide), h.2.2.2.2.2.2⟩

/-- C20 as stated fails: an uplink-calibration packet (symbol 2 of frame 5) that
comes from the reference antenna (antenna 0) has a known symbol type, and
`DoFFT::launch` ends with the assertion "Unknown or unsupported symbol type". -/
theorem DoFFT_launch_calUL_ref_ant_fatal :
    exampleDoFFTConfig.get_symbol_type 5 2 = SymbolType.kCalUL ∧
    DoFFT.launch exampleDoFFTConfig exampleCodec examplePilots exampleCalULSocket
        (fun pkt _ => exampleFft pkt.ant_id) (fun _ => 0) exampleDoFFTState 0
      = Except.error "Unknown or unsupported symbol type" := by
  refine ⟨rfl, ?_⟩
  rw [DoFFT_launch_fatal_iff]
  simp [DoFFT.supported, exampleDoFFTConfig, exampleCalULSocket]

/-- C20, amended. `DoFFT::launch` ends with the assertion "Unknown or unsupported
symbol type" exactly when its dispatch has no branch for the packet: the symbol
type is not pilot, not uplink data, not uplink calibration from an antenna other
than the reference antenna, and not downlink calibration from the reference
antenna.  So it is fatal for every other symbol type, and also for an
uplink-calibration packet from the reference antenna and for a
downlink-calibration packet from any other antenna.  For every packet with a
branch (for calibration packets: when `ant_per_group` and `ant_group_num` are not
0) it completes and returns a `kFFT` completion, for every frame id. -/
theorem DoFFT_launch_fatal_exactly {α : Type} [Mul α] [Add α] [Sub α] (cfg : DoFFTConfig)
    (codec : TagCodec) (pilots_sgn_ : Nat → complex_float α)
    (socket_buffer_ : Nat → Nat → Packet)
    (fft_inout_of : Packet → SymbolType → Nat → complex_float α) (fill : Nat → Nat)
    (st : DoFFTState α) (tag : Nat) (pkt : Packet) (sym_type : SymbolType)
    (hpkt : pkt = socket_buffer_ (codec.fft_req_tag_tid tag) (codec.fft_req_tag_offset tag))
    (hsym : sym_type = cfg.get_symbol_type pkt.frame_id pkt.symbol_id) :
    (DoFFT.launch cfg codec pilots_sgn_ socket_buffer_ fft_inout_of fill st tag
        = Except.error "Unknown or unsupported symbol type" ↔
      ¬ (sym_type = SymbolType.kPilot ∨ sym_type = SymbolType.kUL ∨
        (sym_type = SymbolType.kCalUL ∧ pkt.ant_id ≠ cfg.ref_ant) ∨
        (sym_type = SymbolType.kCalDL ∧ pkt.ant_id = cfg.ref_ant))) ∧
    (sym_type = SymbolType.kUnknown ∨
      (sym_type = SymbolType.kCalUL ∧ pkt.ant_id = cfg.ref_ant) ∨
      (sym_type = SymbolType.kCalDL ∧ pkt.ant_id ≠ cfg.ref_ant) →
      DoFFT.launch cfg codec pilots_sgn_ socket_buffer_ fft_inout_of fill st tag
        = Except.error "Unknown or unsupported symbol type") ∧
    (sym_type = SymbolType.kPilot ∨ sym_type = SymbolType.kUL →
      ∃ st', DoFFT.launch cfg codec pilots_sgn_ socket_buffer_ fft_inout_of fill st tag
        = Except.ok (st', EventData.mk1 fill EventType.kFFT
            (codec.gen_tag_frm_sym pkt.frame_id pkt.symbol_id))) ∧
    ((sym_type = SymbolType.kCalUL ∧ pkt.ant_id ≠ cfg.ref_ant) ∨
      (sym_type = SymbolType.kCalDL ∧ pkt.ant_id = cfg.ref_ant) →
      cfg.ant_per_group ≠ 0 → cfg.ant_group_num ≠ 0 →
      ∃ st', DoFFT.launch cfg codec pilots_sgn_ socket_buffer_ fft_inout_of fill st tag
        = Except.ok (st', EventData.mk1 fill EventType.kFFT
            (codec.gen_tag_frm_sym pkt.frame_id pkt.symbol_id))) := by
  subst hpkt
  subst hsym
  have hiff := DoFFT_launch_fatal_iff cfg codec pilots_sgn_ socket_buffer_ fft_inout_of fill st
    tag
  unfold DoFFT.supported at hiff
  refine ⟨hiff, ?_, ?_, ?_⟩
  · intro h
    rw [hiff]
    rintro (h1 | h1 | h1 | h1)
    · rcases h with h | h | h
      · rw [h1] at h; cases h
      · rw [h1] at h; cases h.1
      · rw [h1] at h; cases h.1
    · rcases h with h | h | h
      · rw [h1] at h; cases h
      · rw [h1] at h; cases h.1
      · rw [h1] at h; cases h.1
    · rcases h with h | h | h
      · rw [h1.1] at h; cases h
      · exact h1.2 h.2
      · rw [h1.1] at h; cases h.1
    · rcases h with h | h | h
      · rw [h1.1] at h; cases h
      · rw [h1.1] at h; cases h.1
      · exact h.2 h1.2
  · intro h
    refine DoFFT_launch_supported_returns cfg codec pilots_sgn_ socket_buffer_ fft_inout_of fill
      st tag ?_ ?_
    · rcases h with h | h
      · exact Or.inl h
      · exact Or.inr (Or.inl h)
    · rcases h with h | h
      · exact Or.inl h
      · exact Or.inr (Or.inl h)
  · intro h hg hn
    refine DoFFT_launch_supported_returns cfg codec pilots_sgn_ socket_buffer_ fft_inout_of fill
      st tag ?_ (Or.inr (Or.inr ⟨hg, hn⟩))
    rcases h with h | h
    · exact Or.inr (Or.inr (Or.inl h))
    · exact Or.inr (Or.inr (Or.inr h))

theorem DoFFT_launch_fatal_exactly_witness :
    ((⟨5, 2, 0⟩ : Packet) = exampleCalULSocket (exampleCodec.fft_req_tag_tid 0)
        (exampleCodec.fft_req_tag_offset 0) ∧
      SymbolType.kCalUL = exampleDoFFTConfig.get_symbol_type 5 2) ∧
    (DoFFT.launch exampleDoFFTConfig exampleCodec examplePilots exampleCalULSocket
        (fun pkt _ => exampleFft pkt.ant_id) (fun _ => 0) exampleDoFFTState 0
        = Except.error "Unknown or unsupported symbol type" ↔
      ¬ (SymbolType.kCalUL = SymbolType.kPilot ∨ SymbolType.kCalUL = SymbolType.kUL ∨
        (SymbolType.kCalUL = SymbolType.kCalUL ∧
          (⟨5, 2, 0⟩ : Packet).ant_id ≠ exampleDoFFTConfig.ref_ant) ∨
        (SymbolType.kCalUL = SymbolType.kCalDL ∧
          (⟨5, 2, 0⟩ : Packet).ant_id = exampleDoFFTConfig.ref_ant))) :=
  ⟨⟨rfl, rfl⟩,
   (DoFFT_launch_fatal_exactly exampleDoFFTConfig exampleCodec examplePilots exampleCalULSocket
      (fun pkt _ => exampleFft pkt.ant_id) (fun _ => 0) exampleDoFFTState 0 ⟨5, 2, 0⟩
      SymbolType.kCalUL rfl rfl).1⟩

/-! ## `DoFFT::launch`: the status flags -/

/-- The status flags after `DoFFT::launch` has returned: those it was called
with, except that the flag of the packet's slot is 0.  No branch of the dispatch
touches the flags. -/
theorem DoFFT_launch_status {α : Type} [Mul α] [Add α] [Sub α] (cfg : DoFFTConfig)
    (codec : TagCodec) (pilots_sgn_ : Nat → complex_float α)
    (socket_buffer_ : Nat → Nat → Packet)
    (fft_inout_of : Packet → SymbolType → Nat → complex_float α) (fill : Nat → Nat)
    (st : DoFFTState α) (tag : Nat) (st' : DoFFTState α) (ev : EventData EventType)
    (h : DoFFT.launch cfg codec pilots_sgn_ socket_buffer_ fft_inout_of fill st tag
      = Except.ok (st', ev)) :
    st'.socket_buffer_status_
      = Function.update st.socket_buffer_status_ (codec.fft_req_tag_tid tag)
          (Function.update (st.socket_buffer_status_ (codec.fft_req_tag_tid tag))
            (codec.fft_req_tag_offset tag) 0) := by
  unfold DoFFT.launch at h
  dsimp only at h
  generalize socket_buffer_ (codec.fft_req_tag_tid tag) (codec.fft_req_tag_offset tag) = pkt
    at h
  generalize cfg.get_symbol_type pkt.frame_id pkt.symbol_id = sym at h
  split_ifs at h <;>
    first
    | (simp only [Except.ok.injEq, Prod.mk.injEq] at h
       rw [← h.1])
    | cases h

/-- A calibration packet that `DoFFT::launch` skips: uplink calibration from an
antenna other than the reference antenna in a frame before `TX_FRAME_DELTA` or
outside the antenna's group, or downlink calibration from the reference antenna
in a frame before `TX_FRAME_DELTA`. -/
theorem DoFFT_launch_skipped {α : Type} [Mul α] [Add α] [Sub α] (cfg : DoFFTConfig)
    (codec : TagCodec) (pilots_sgn_ : Nat → complex_float α)
    (socket_buffer_ : Nat → Nat → Packet)
    (fft_inout_of : Packet → SymbolType → Nat → complex_float α) (fill : Nat → Nat)
    (st : DoFFTState α) (tag : Nat) (pkt : Packet) (sym_type : SymbolType)
    (hpkt : pkt = socket_buffer_ (codec.fft_req_tag_tid tag) (codec.fft_req_tag_offset tag))
    (hsym : sym_type = cfg.get_symbol_type pkt.frame_id pkt.symbol_id)
    (hskip : (sym_type = SymbolType.kCalUL ∧ pkt.ant_id ≠ cfg.ref_ant ∧
        (pkt.frame_id < cfg.TX_FRAME_DELTA ∨
          (cfg.ant_per_group ≠ 0 ∧ cfg.ant_group_num ≠ 0 ∧
            pkt.ant_id / cfg.ant_per_group
              ≠ (pkt.frame_id - cfg.TX_FRAME_DELTA) % cfg.ant_group_num))) ∨
      (sym_type = SymbolType.kCalDL ∧ pkt.ant_id = cfg.ref_ant ∧
        pkt.frame_id < cfg.TX_FRAME_DELTA)) :
    DoFFT.launch cfg codec pilots_sgn_ socket_buffer_ fft_inout_of fill st tag
      = Except.ok
        ({ st with
            socket_buffer_status_ :=
              Function.update st.socket_buffer_status_ (codec.fft_req_tag_tid tag)
                (Function.update (st.socket_buffer_status_ (codec.fft_req_tag_tid tag))
                  (codec.fft_req_tag_offset tag) 0) },
          EventData.mk1 fill EventType.kFFT
            (codec.gen_tag_frm_sym pkt.frame_id pkt.symbol_id)) := by
  subst hpkt
  subst hsym
  unfold DoFFT.launch
  dsimp only
  generalize socket_buffer_ (codec.fft_req_tag_tid tag) (codec.fft_req_tag_offset tag) = pkt
    at hskip ⊢
  generalize cfg.get_symbol_type pkt.frame_id pkt.symbol_id = sym at hskip ⊢
  rcases hskip with ⟨h1, h2, h3⟩ | ⟨h1, h2, h3⟩
  · subst h1
    have c3 : SymbolType.kCalUL = SymbolType.kCalUL ∧ pkt.ant_id ≠ cfg.ref_ant := ⟨rfl, h2⟩
    rw [if_neg (by decide), if_neg (by decide), if_pos c3]
    rcases h3 with h3 | ⟨g1, g2, g3⟩
    · rw [if_neg (by omega)]
    · by_cases hd : cfg.TX_FRAME_DELTA ≤ pkt.frame_id
      · have hz : ¬ (cfg.ant_per_group = 0 ∨ cfg.ant_group_num = 0) := by
          rintro (h | h)
          · exact g1 h
          · exact g2 h
        rw [if_pos hd, if_neg hz, if_neg g3]
      · rw [if_neg hd]
  · subst h1
    have c3 : ¬ (SymbolType.kCalDL = SymbolType.kCalUL ∧ pkt.ant_id ≠ cfg.ref_ant) := by
      rintro ⟨h, -⟩
      cases h
    have c4 : SymbolType.kCalDL = SymbolType.kCalDL ∧ pkt.ant_id = cfg.ref_ant := ⟨rfl, h2⟩
    rw [if_neg (by decide), if_neg (by decide), if_neg c3, if_pos c4, if_neg (by omega)]

/-- C21. For every packet slot `(socket_thr, slot)` on which `DoFFT::launch`
returns, the status flag `socket_buffer_status[socket_thr][slot]` is 0 afterwards
and the status flag of every other slot is unchanged, whichever branch of the
dispatch was taken; for a calibration packet that is skipped, the flag is reset
all the same while the data, CSI and calibration buffers are left as they
were. -/
theorem DoFFT_launch_frees_slot {α : Type} [Mul α] [Add α] [Sub α] (cfg : DoFFTConfig)
    (codec : TagCodec) (pilots_sgn_ : Nat → complex_float α)
    (socket_buffer_ : Nat → Nat → Packet)
    (fft_inout_of : Packet → SymbolType → Nat → complex_float α) (fill : Nat → Nat)
    (st : DoFFTState α) (tag : Nat) (st' : DoFFTState α) (ev : EventData EventType)
    (pkt : Packet) (sym_type : SymbolType)
    (hpkt : pkt = socket_buffer_ (codec.fft_req_tag_tid tag) (codec.fft_req_tag_offset tag))
    (hsym : sym_type = cfg.get_symbol_type pkt.frame_id pkt.symbol_id)
    (h : DoFFT.launch cfg codec pilots_sgn_ socket_buffer_ fft_inout_of fill st tag
      = Except.ok (st', ev)) :
    st'.socket_buffer_status_ (codec.fft_req_tag_tid tag) (codec.fft_req_tag_offset tag) = 0 ∧
    (∀ socket_thr slot,
      ¬ (socket_thr = codec.fft_req_tag_tid tag ∧ slot = codec.fft_req_tag_offset tag) →
      st'.socket_buffer_status_ socket_thr slot = st.socket_buffer_status_ socket_thr slot) ∧
    ((sym_type = SymbolType.kCalUL ∧ pkt.ant_id ≠ cfg.ref_ant ∧
        (pkt.frame_id < cfg.TX_FRAME_DELTA ∨
          (cfg.ant_per_group ≠ 0 ∧ cfg.ant_group_num ≠ 0 ∧
            pkt.ant_id / cfg.ant_per_group
              ≠ (pkt.frame_id - cfg.TX_FRAME_DELTA) % cfg.ant_group_num))) ∨
      (sym_type = SymbolType.kCalDL ∧ pkt.ant_id = cfg.ref_ant ∧
        pkt.frame_id < cfg.TX_FRAME_DELTA) →
      st'.data_buffer_ = st.data_buffer_ ∧ st'.csi_buffers_ = st.csi_buffers_ ∧
      st'.calib_dl_buffer_ = st.calib_dl_buffer_ ∧
      st'.calib_ul_buffer_ = st.calib_ul_buffer_) := by
  have hst := DoFFT_launch_status cfg codec pilots_sgn_ socket_buffer_ fft_inout_of fill st tag
    st' ev h
  refine ⟨?_, ?_, ?_⟩
  · rw [hst, Function.update_same, Function.update_same]
  · intro socket_thr slot hne
    rw [hst]
    by_cases ht : socket_thr = codec.fft_req_tag_tid tag
    · subst ht
      have hs : slot ≠ codec.fft_req_tag_offset tag := fun hs => hne ⟨rfl, hs⟩
      rw [Function.update_same, Function.update_noteq hs]
    · rw [Function.update_noteq ht]
  · intro hskip
    have hsk := DoFFT_launch_skipped cfg codec pilots_sgn_ socket_buffer_ fft_inout_of fill st
      tag pkt sym_type hpkt hsym hskip
    rw [hsk] at h
    simp only [Except.ok.injEq, Prod.mk.injEq] at h
    rw [← h.1]
    exact ⟨rfl, rfl, rfl, rfl⟩

theorem DoFFT_launch_frees_slot_witness :
    ∃ st' : DoFFTState Int,
      DoFFT.launch exampleDoFFTConfig exampleCodec examplePilots exampleSkippedSocket
          (fun pkt _ => exampleFft pkt.ant_id) (fun _ => 0) exampleDoFFTState 0
        = Except.ok (st', EventData.mk1 (fun _ => 0) EventType.kFFT 1002) ∧
      exampleDoFFTState.socket_buffer_status_ 0 0 = 1 ∧
      st'.socket_buffer_status_ (exampleCodec.fft_req_tag_tid 0)
        (exampleCodec.fft_req_tag_offset 0) = 0 ∧
      (∀ socket_thr slot,
        ¬ (socket_thr = exampleCodec.fft_req_tag_tid 0 ∧
            slot = exampleCodec.fft_req_tag_offset 0) →
        st'.socket_buffer_status_ socket_thr slot
          = exampleDoFFTState.socket_buffer_status_ socket_thr slot) :=
  have hskip : (SymbolType.kCalUL = SymbolType.kCalUL ∧
        (⟨1, 2, 1⟩ : Packet).ant_id ≠ exampleDoFFTConfig.ref_ant ∧
        ((⟨1, 2, 1⟩ : Packet).frame_id < exampleDoFFTConfig.TX_FRAME_DELTA ∨
          (exampleDoFFTConfig.ant_per_group ≠ 0 ∧ exampleDoFFTConfig.ant_group_num ≠ 0 ∧
            (⟨1, 2, 1⟩ : Packet).ant_id / exampleDoFFTConfig.ant_per_group
              ≠ ((⟨1, 2, 1⟩ : Packet).frame_id - exampleDoFFTConfig.TX_FRAME_DELTA)
                  % exampleDoFFTConfig.ant_group_num))) ∨
      (SymbolType.kCalUL = SymbolType.kCalDL ∧
        (⟨1, 2, 1⟩ : Packet).ant_id = exampleDoFFTConfig.ref_ant ∧
        (⟨1, 2, 1⟩ : Packet).frame_id < exampleDoFFTConfig.TX_FRAME_DELTA) :=
    Or.inl ⟨rfl, by decide, Or.inl (by decide)⟩
  have hL := DoFFT_launch_skipped exampleDoFFTConfig exampleCodec examplePilots
    exampleSkippedSocket (fun pkt _ => exampleFft pkt.ant_id) (fun _ => 0) exampleDoFFTState 0
    ⟨1, 2, 1⟩ SymbolType.kCalUL rfl rfl hskip
  have hC := DoFFT_launch_frees_slot exampleDoFFTConfig exampleCodec examplePilots
    exampleSkippedSocket (fun pkt _ => exampleFft pkt.ant_id) (fun _ => 0) exampleDoFFTState 0
    _ _ ⟨1, 2, 1⟩ SymbolType.kCalUL rfl rfl hL
  ⟨_, hL, rfl, hC.1, hC.2.1⟩

/-! ## The locations written by two work items of one symbol -/

theorem max_sc_ite_le (cfg : Config) (b : Nat) : max_sc_ite cfg b ≤ cfg.DemulBlockSize :=
  Nat.min_le_left _ _

/-- Two work items of a symbol are a block apart: the subcarriers of the earlier
one end before the later one starts. -/
theorem work_items_separated {cfg : Config} {b₁ b₂ : Nat} (hdem : 0 < cfg.DemulBlockSize)
    (h1 : b₁ ∈ demul_work_items cfg) (h2 : b₂ ∈ demul_work_items cfg) (hlt : b₁ < b₂) :
    b₁ + max_sc_ite cfg b₁ ≤ b₂ := by
  obtain ⟨-, t1, rfl⟩ := (mem_loopSteps_iff hdem).1 h1
  obtain ⟨-, t2, rfl⟩ := (mem_loopSteps_iff hdem).1 h2
  have ht : t1 < t2 := Nat.lt_of_mul_lt_mul_left hlt
  have h3 : cfg.DemulBlockSize * (t1 + 1) ≤ cfg.DemulBlockSize * t2 := Nat.mul_le_mul_left _ ht
  have e : cfg.DemulBlockSize * (t1 + 1) = cfg.DemulBlockSize * t1 + cfg.DemulBlockSize := by
    ring
  have := max_sc_ite_le cfg (cfg.DemulBlockSize * t1)
  omega

theorem Launch_demod_writes_lt {cfg : Config} {M b₁ b₂ n : Nat}
    (hsep : b₁ + max_sc_ite cfg b₁ ≤ b₂) :
    ¬ (Launch_demod_writes cfg M b₁ n ∧ Launch_demod_writes cfg M b₂ n) := by
  rintro ⟨⟨-, w1, w1'⟩, ⟨-, w2, w2'⟩⟩
  unfold Demodulate_count at w1' w2'
  have hM : M * (b₁ + max_sc_ite cfg b₁) ≤ M * b₂ := Nat.mul_le_mul_left _ hsep
  rw [Nat.mul_add] at hM
  omega

theorem Launch_equal_writes_lt {cfg : Config} {S b₁ b₂ n : Nat}
    (hsep : b₁ + max_sc_ite cfg b₁ ≤ b₂) :
    ¬ (Launch_equal_writes cfg S b₁ n ∧ Launch_equal_writes cfg S b₂ n) := by
  rintro ⟨⟨ids1, hi1, sc1, hsc1, s1, hs1, e1⟩, ⟨ids2, hi2, sc2, hsc2, s2, hs2, e2⟩⟩
  have m1 := (mem_Launch_cur_sc_ids hi1).2.2 sc1 hsc1
  have m2 := (mem_Launch_cur_sc_ids hi2).2.2 sc2 hsc2
  simp only [Launch_equal_offset, if_true] at e1 e2
  have hlt : sc1 + 1 ≤ sc2 := by omega
  have h3 : (sc1 + 1) * S ≤ sc2 * S := Nat.mul_le_mul_right _ hlt
  rw [Nat.add_mul, Nat.one_mul] at h3
  omega

/-- The base subcarrier of a work item that passes its assertion and is not empty
is one of the subcarriers it processes. -/
theorem base_mem_Launch_cur_sc_ids {cfg : Config} {b : Nat} {ids : List Nat}
    (h : Launch_cur_sc_ids cfg b = some ids) (hpos : 0 < max_sc_ite cfg b) : b ∈ ids := by
  unfold Launch_cur_sc_ids at h
  split_ifs at h
  injection h with h
  subst h
  rw [List.mem_flatMap]
  refine ⟨0, (mem_loopSteps_iff (show 0 < kSCsPerCacheline by decide)).2 ⟨hpos, dvd_zero _⟩, ?_⟩
  rw [List.mem_map]
  exact ⟨0, List.mem_range.2 (by decide), rfl⟩

/-- On a pilot symbol the phase-tracking step of any subcarrier with a non-zero
reference pilot writes the entry of every stream in column `sym_idx_ul` of the
frame's slot. -/
theorem Launch_phase_writes_column (cfg : PhaseConfig) (ue_pilot_data_ : Nat → Nat → ℂ)
    (ue_list : Nat → Nat) (frame_id symbol_idx_ul cur_sc_id s : Nat)
    (hsym : symbol_idx_ul < cfg.ClientUlPilotSymbols) (hs : s < cfg.SpatialStreamsNum)
    (hp : ue_pilot_data_ (ue_list s) cur_sc_id ≠ 0) :
    Launch_phase_writes cfg ue_pilot_data_ ue_list frame_id symbol_idx_ul cur_sc_id
      (frame_id % cfg.kFrameWnd) (symbol_idx_ul * cfg.SpatialStreamsNum + s) := by
  refine ⟨⟨fun _ _ => 0, fun _ => 1, []⟩, ?_⟩
  have h := (Launch_phase_pilot_apply cfg ue_pilot_data_ ue_list frame_id symbol_idx_ul
    cur_sc_id ⟨fun _ _ => 0, fun _ => 1, []⟩ hsym).1 (frame_id % cfg.kFrameWnd)
    (symbol_idx_ul * cfg.SpatialStreamsNum + s)
  rw [if_pos ⟨rfl, Nat.le_add_right _ _, by omega⟩, Nat.add_sub_cancel_left] at h
  rw [h]
  have hR : Launch_phase_reset cfg frame_id symbol_idx_ul cur_sc_id (fun _ _ => (0 : ℂ))
      (frame_id % cfg.kFrameWnd) (symbol_idx_ul * cfg.SpatialStreamsNum + s) = 0 := by
    unfold Launch_phase_reset
    split_ifs
    · by_cases hq : frame_id % cfg.kFrameWnd = size_t_sub frame_id 1 % cfg.kFrameWnd
      · rw [hq, Function.update_same]
        split_ifs <;> rfl
      · rw [Function.update_noteq hq]
    · rfl
  rw [hR, zero_add]
  have hz : (1 : ℂ) * (starRingEnd ℂ) (ue_pilot_data_ (ue_list s) cur_sc_id) ≠ 0 := by
    rw [one_mul]
    exact fun hc => hp ((map_eq_zero _).1 hc)
  unfold arma.sign
  rw [if_neg hz]
  simp only [ne_eq, div_eq_zero_iff, not_or]
  refine ⟨hz, ?_⟩
  exact_mod_cast (fun hc => hz ((map_eq_zero Complex.abs).1 hc))

/-- An EVM update of frame `frame_id` writes only accumulators of slot
`frame_id mod W`, whatever its subcarrier. -/
theorem update_evm_writes_slot {cfg : PhyStatsConfig} {ul_gt_mat : cx_fmat}
    {frame_id sc_id slot u : Nat} (h : update_evm_writes cfg ul_gt_mat frame_id sc_id slot u) :
    slot = frame_id % cfg.TASK_BUFFER_FRAME_NUM ∧ u < cfg.UE_NUM := by
  obtain ⟨evm, eq, evm', hok, hne⟩ := h
  unfold PhyStats.update_evm_stats at hok
  split_ifs at hok
  simp only [Except.ok.injEq] at hok
  rw [← hok] at hne
  by_cases hslot : slot = frame_id % cfg.TASK_BUFFER_FRAME_NUM
  · refine ⟨hslot, ?_⟩
    subst hslot
    rw [Function.update_same] at hne
    by_contra hu
    rw [if_neg hu] at hne
    exact hne rfl
  · rw [Function.update_noteq hslot] at hne
    exact absurd rfl hne

/-- The EVM update of any data subcarrier writes the accumulator of every user in
the frame's slot. -/
theorem update_evm_writes_of (cfg : PhyStatsConfig) (ul_iq_f : Nat → Nat → ℂ)
    (frame_id sc_id u : Nat) (hsc : sc_id < cfg.OFDM_DATA_STOP - cfg.OFDM_DATA_START)
    (hU : cfg.UE_ANT_NUM = cfg.UE_NUM) (hu : u < cfg.UE_NUM) :
    update_evm_writes cfg (PhyStats.ul_gt_mat cfg ul_iq_f) frame_id sc_id
      (frame_id % cfg.TASK_BUFFER_FRAME_NUM) u := by
  have h1 : sc_id < (PhyStats.ul_gt_mat cfg ul_iq_f).n_cols := hsc
  have h2 : cfg.UE_NUM = (PhyStats.ul_gt_mat cfg ul_iq_f).n_rows ∧ (1 : Nat) = 1 :=
    ⟨hU.symm, rfl⟩
  have hok : PhyStats.update_evm_stats cfg (PhyStats.ul_gt_mat cfg ul_iq_f) (fun _ _ => 0)
      frame_id sc_id
      ⟨cfg.UE_NUM, 1, fun v _ => (PhyStats.ul_gt_mat cfg ul_iq_f).at v sc_id + 1⟩
      = Except.ok
        (Function.update (fun _ _ => (0 : ℝ)) (frame_id % cfg.TASK_BUFFER_FRAME_NUM)
          (fun v => if v < cfg.UE_NUM then (0 : ℝ) + Complex.abs (1 : ℂ) * Complex.abs (1 : ℂ)
            else 0)) := by
    unfold PhyStats.update_evm_stats
    rw [if_neg (not_not.2 h1), if_neg (not_not.2 h2), if_neg (not_not.2 rfl)]
    simp only [add_sub_cancel_left]
  refine ⟨_, _, _, hok, ?_⟩
  rw [Function.update_same, if_pos hu]
  simp

/-- C22 as stated fails: with `N_d = 16` and `B_dem = 8` the work items with base
subcarriers 0 and 8 of uplink symbol 1 of frame 5 (a pilot symbol, `P_ul = 2`,
`S = 1`, `W = 4`) both write entry 1 of slot 1 of the PhaseBuffer: every
subcarrier accumulates into the same entry. -/
theorem Launch_items_share_phase_entry :
    (0 ∈ demul_work_items exampleConfig ∧ 8 ∈ demul_work_items exampleConfig) ∧
    Launch_item_phase_writes exampleConfig exampleTwoPilots (fun _ _ => 1) (fun s => s)
      5 1 0 1 1 ∧
    Launch_item_phase_writes exampleConfig exampleTwoPilots (fun _ _ => 1) (fun s => s)
      5 1 8 1 1 := by
  have hw : ∀ sc, Launch_phase_writes exampleTwoPilots (fun _ _ => 1) (fun s => s) 5 1 sc 1 1 :=
    fun sc => Launch_phase_writes_column exampleTwoPilots (fun _ _ => 1) (fun s => s) 5 1 sc 0
      (by decide) (by decide) one_ne_zero
  refine ⟨by decide, ?_, ?_⟩
  · exact ⟨[0, 1, 2, 3, 4, 5, 6, 7], by decide, 0, by decide, hw 0⟩
  · exact ⟨[8, 9, 10, 11, 12, 13, 14, 15], by decide, 8, by decide, hw 8⟩

/-- A work item of the symbol passes the assertion of `DoDemul::Launch` and has
at least one subcarrier, its base subcarrier. -/
theorem work_item_ids {cfg : Config} {b : Nat} (hdem : 0 < cfg.DemulBlockSize)
    (hN : cfg.OFDM_DATA_NUM < 2 ^ 64) (hcl : kSCsPerCacheline ∣ cfg.DemulBlockSize)
    (hnd : kSCsPerCacheline ∣ cfg.OFDM_DATA_NUM) (hb : b ∈ demul_work_items cfg) :
    ∃ ids, Launch_cur_sc_ids cfg b = some ids ∧ b ∈ ids ∧ ∀ sc ∈ ids, sc < cfg.OFDM_DATA_NUM := by
  obtain ⟨hlt, hdvd⟩ := (mem_loopSteps_iff hdem).1 hb
  have hK := max_sc_ite_work_item hN hlt
  have h8 : kSCsPerCacheline ∣ cfg.OFDM_DATA_NUM - b := Nat.dvd_sub' hnd (hcl.trans hdvd)
  have hm : max_sc_ite cfg b % kSCsPerCacheline = 0 := by
    rw [hK]
    apply Nat.mod_eq_zero_of_dvd
    rcases Nat.le_total cfg.DemulBlockSize (cfg.OFDM_DATA_NUM - b) with h | h
    · rw [Nat.min_eq_left h]; exact hcl
    · rw [Nat.min_eq_right h]; exact h8
  have hpos : 0 < max_sc_ite cfg b := by
    rw [hK]
    exact Nat.lt_min.2 ⟨hdem, by omega⟩
  have hsome : ∃ ids, Launch_cur_sc_ids cfg b = some ids := by
    unfold Launch_cur_sc_ids
    rw [if_pos hm]
    exact ⟨_, rfl⟩
  obtain ⟨ids, hids⟩ := hsome
  refine ⟨ids, hids, base_mem_Launch_cur_sc_ids hids hpos, ?_⟩
  intro sc hsc
  have := (mem_Launch_cur_sc_ids hids).2.2 sc hsc
  have hle : max_sc_ite cfg b ≤ cfg.OFDM_DATA_NUM - b := by
    rw [hK]
    exact Nat.min_le_right _ _
  omega

/-- C22, amended. For any two `DoDemul::Launch` work items of the same frame and
symbol with different base subcarriers (both multiples of `B_dem` below `N_d`),
the DemodBuffer locations they write are disjoint and the EqualBuffer locations
they write are disjoint.  The PhaseBuffer and the EVM accumulators are not
partitioned by subcarrier: on a pilot symbol both work items accumulate into the
same entries `PhaseBuffer[frame mod W][sym_idx_ul][s]`, `s < S` (for streams whose
reference pilot is not zero at the base subcarriers), and on a data symbol (with
`P_ul > 0`) both accumulate into the same EVM accumulators
`evm_buffer[frame mod W][u]`, `u < UE_NUM`, which are the only EVM entries a work
item of the frame writes. -/
theorem Launch_items_write_sets (cfg : Config) (pcfg : PhaseConfig) (scfg : PhyStatsConfig)
    (ue_pilot_data_ : Nat → Nat → ℂ) (ue_list : Nat → Nat) (ul_iq_f : Nat → Nat → ℂ)
    (frame_id symbol_idx_ul b₁ b₂ : Nat)
    (hdem : 0 < cfg.DemulBlockSize) (hN : cfg.OFDM_DATA_NUM < 2 ^ 64)
    (hcl : kSCsPerCacheline ∣ cfg.DemulBlockSize) (hnd : kSCsPerCacheline ∣ cfg.OFDM_DATA_NUM)
    (h1 : b₁ ∈ demul_work_items cfg) (h2 : b₂ ∈ demul_work_items cfg) (hne : b₁ ≠ b₂) :
    (∀ M n, ¬ (Launch_demod_writes cfg M b₁ n ∧ Launch_demod_writes cfg M b₂ n)) ∧
    (∀ S n, ¬ (Launch_equal_writes cfg S b₁ n ∧ Launch_equal_writes cfg S b₂ n)) ∧
    (symbol_idx_ul < pcfg.ClientUlPilotSymbols →
      ∀ s, s < pcfg.SpatialStreamsNum →
        ue_pilot_data_ (ue_list s) b₁ ≠ 0 → ue_pilot_data_ (ue_list s) b₂ ≠ 0 →
        Launch_item_phase_writes cfg pcfg ue_pilot_data_ ue_list frame_id symbol_idx_ul b₁
          (frame_id % pcfg.kFrameWnd) (symbol_idx_ul * pcfg.SpatialStreamsNum + s) ∧
        Launch_item_phase_writes cfg pcfg ue_pilot_data_ ue_list frame_id symbol_idx_ul b₂
          (frame_id % pcfg.kFrameWnd) (symbol_idx_ul * pcfg.SpatialStreamsNum + s)) ∧
    (0 < pcfg.ClientUlPilotSymbols → pcfg.ClientUlPilotSymbols ≤ symbol_idx_ul →
      scfg.UE_ANT_NUM = scfg.UE_NUM →
      cfg.OFDM_DATA_NUM ≤ scfg.OFDM_DATA_STOP - scfg.OFDM_DATA_START →
      ∀ u, u < scfg.UE_NUM →
        Launch_item_evm_writes cfg pcfg scfg (PhyStats.ul_gt_mat scfg ul_iq_f) frame_id
          symbol_idx_ul b₁ (frame_id % scfg.TASK_BUFFER_FRAME_NUM) u ∧
        Launch_item_evm_writes cfg pcfg scfg (PhyStats.ul_gt_mat scfg ul_iq_f) frame_id
          symbol_idx_ul b₂ (frame_id % scfg.TASK_BUFFER_FRAME_NUM) u) ∧
    (∀ b slot u,
      Launch_item_evm_writes cfg pcfg scfg (PhyStats.ul_gt_mat scfg ul_iq_f) frame_id
        symbol_idx_ul b slot u →
      slot = frame_id % scfg.TASK_BUFFER_FRAME_NUM ∧ u < scfg.UE_NUM) := by
  obtain ⟨ids1, hi1, hm1, hb1⟩ := work_item_ids hdem hN hcl hnd h1
  obtain ⟨ids2, hi2, hm2, hb2⟩ := work_item_ids hdem hN hcl hnd h2
  refine ⟨?_, ?_, ?_, ?_, ?_⟩
  · intro M n
    rcases Nat.lt_or_gt_of_ne hne with hlt | hlt
    · exact Launch_demod_writes_lt (work_items_separated hdem h1 h2 hlt)
    · exact fun h => Launch_demod_writes_lt (work_items_separated hdem h2 h1 hlt) ⟨h.2, h.1⟩
  · intro S n
    rcases Nat.lt_or_gt_of_ne hne with hlt | hlt
    · exact Launch_equal_writes_lt (work_items_separated hdem h1 h2 hlt)
    · exact fun h => Launch_equal_writes_lt (work_items_separated hdem h2 h1 hlt) ⟨h.2, h.1⟩
  · intro hsym s hs hp1 hp2
    exact ⟨⟨ids1, hi1, b₁, hm1,
        Launch_phase_writes_column pcfg ue_pilot_data_ ue_list frame_id symbol_idx_ul b₁ s hsym
          hs hp1⟩,
      ⟨ids2, hi2, b₂, hm2,
        Launch_phase_writes_column pcfg ue_pilot_data_ ue_list frame_id symbol_idx_ul b₂ s hsym
          hs hp2⟩⟩
  · intro hP hsym hU hnum u hu
    have hs1 : b₁ < scfg.OFDM_DATA_STOP - scfg.OFDM_DATA_START :=
      Nat.lt_of_lt_of_le (hb1 b₁ hm1) hnum
    have hs2 : b₂ < scfg.OFDM_DATA_STOP - scfg.OFDM_DATA_START :=
      Nat.lt_of_lt_of_le (hb2 b₂ hm2) hnum
    exact ⟨⟨hP, hsym, ids1, hi1, b₁, hm1,
        update_evm_writes_of scfg ul_iq_f frame_id b₁ u hs1 hU hu⟩,
      ⟨hP, hsym, ids2, hi2, b₂, hm2,
        update_evm_writes_of scfg ul_iq_f frame_id b₂ u hs2 hU hu⟩⟩
  · rintro b slot u ⟨-, -, ids, -, sc, -, hw⟩
    exact update_evm_writes_slot hw

theorem Launch_items_write_sets_witness :
    (0 < exampleConfig.DemulBlockSize ∧ exampleConfig.OFDM_DATA_NUM < 2 ^ 64 ∧
      kSCsPerCacheline ∣ exampleConfig.DemulBlockSize ∧
      kSCsPerCacheline ∣ exampleConfig.OFDM_DATA_NUM ∧
      0 ∈ demul_work_items exampleConfig ∧ 8 ∈ demul_work_items exampleConfig ∧ 0 ≠ 8) ∧
    (∀ M n, ¬ (Launch_demod_writes exampleConfig M 0 n
      ∧ Launch_demod_writes exampleConfig M 8 n)) ∧
    (∀ S n, ¬ (Launch_equal_writes exampleConfig S 0 n
      ∧ Launch_equal_writes exampleConfig S 8 n)) :=
  have h := Launch_items_write_sets exampleConfig exampleTwoPilots examplePhyStatsConfig
    (fun _ _ => 1) (fun s => s) (fun _ _ => 0) 5 1 0 8 (by decide) (by decide) (by decide)
    (by decide) (by decide) (by decide) (by decide)
  ⟨by decide, h.1, h.2.1⟩

/-! ## Ring-slot reuse -/

/-- While a frame occupies a slot, no execution admits another frame into that
slot before it has retired the occupant. -/
theorem Scheduler_occupied_slot (W : Nat) :
    ∀ (es : List SchedEvent) (ring ring' : Nat → Option Nat) (f f' j : Nat),
      ring (f % W) = some f → Scheduler.run W ring es = some ring' →
      es[j]? = some (SchedEvent.acquire f') → f' % W = f % W →
      ∃ k, k < j ∧ es[k]? = some (SchedEvent.retire f) := by
  intro es
  induction es with
  | nil =>
    intro ring ring' f f' j _ _ hj _
    simp at hj
  | cons e es ih =>
    intro ring ring' f f' j hocc hrun hj hslot
    unfold Scheduler.run at hrun
    cases hstep : Scheduler.step W ring e with
    | none => rw [hstep] at hrun; cases hrun
    | some ring1 =>
      rw [hstep] at hrun
      simp only at hrun
      cases j with
      | zero =>
        exfalso
        simp only [List.getElem?_cons_zero, Option.some.injEq] at hj
        subst hj
        simp only [Scheduler.step, hslot, hocc] at hstep
        cases hstep
      | succ j =>
        simp only [List.getElem?_cons_succ] at hj
        by_cases he : e = SchedEvent.retire f
        · exact ⟨0, Nat.succ_pos _, by rw [he, List.getElem?_cons_zero]⟩
        · have hocc1 : ring1 (f % W) = some f := by
            cases e with
            | acquire g =>
              simp only [Scheduler.step] at hstep
              split_ifs at hstep with hg
              injection hstep with hstep
              rw [← hstep]
              have hne : f % W ≠ g % W := by
                intro hc
                rw [← hc, hocc] at hg
                cases hg
              rw [Function.update_noteq hne]
              exact hocc
            | retire g =>
              simp only [Scheduler.step] at hstep
              split_ifs at hstep with hg
              injection hstep with hstep
              rw [← hstep]
              have hne : f % W ≠ g % W := by
                intro hc
                rw [← hc, hocc] at hg
                injection hg with hg
                exact he (by rw [hg])
              rw [Function.update_noteq hne]
              exact hocc
          obtain ⟨k, hk, hret⟩ := ih ring1 ring' f f' j hocc1 hrun hj hslot
          exact ⟨k + 1, Nat.succ_lt_succ hk, by simpa using hret⟩

/-- In an execution, between the admission of a frame and a later admission into
the same slot lies the retirement of the former. -/
theorem Scheduler_reuse_after_retire (W : Nat) :
    ∀ (es : List SchedEvent) (ring ring' : Nat → Option Nat) (f f' i j : Nat),
      Scheduler.run W ring es = some ring' →
      es[i]? = some (SchedEvent.acquire f) → es[j]? = some (SchedEvent.acquire f') →
      i < j → f' % W = f % W →
      ∃ k, i < k ∧ k < j ∧ es[k]? = some (SchedEvent.retire f) := by
  intro es
  induction es with
  | nil =>
    intro ring ring' f f' i j _ hi _ _ _
    simp at hi
  | cons e es ih =>
    intro ring ring' f f' i j hrun hi hj hij hslot
    unfold Scheduler.run at hrun
    cases hstep : Scheduler.step W ring e with
    | none => rw [hstep] at hrun; cases hrun
    | some ring1 =>
      rw [hstep] at hrun
      simp only at hrun
      cases j with
      | zero => omega
      | succ j =>
        simp only [List.getElem?_cons_succ] at hj
        cases i with
        | zero =>
          simp only [List.getElem?_cons_zero, Option.some.injEq] at hi
          subst hi
          have hocc1 : ring1 (f % W) = some f := by
            simp only [Scheduler.step] at hstep
            split_ifs at hstep
            injection hstep with hstep
            rw [← hstep, Function.update_same]
          obtain ⟨k, hk, hret⟩ :=
            Scheduler_occupied_slot W es ring1 ring' f f' j hocc1 hrun hj hslot
          exact ⟨k + 1, Nat.succ_pos _, Nat.succ_lt_succ hk, by simpa using hret⟩
        | succ i =>
          simp only [List.getElem?_cons_succ] at hi
          obtain ⟨k, hk1, hk2, hret⟩ :=
            ih ring1 ring' f f' i j hrun hi hj (Nat.lt_of_succ_lt_succ hij) hslot
          exact ⟨k + 1, Nat.succ_lt_succ hk1, Nat.succ_lt_succ hk2, by simpa using hret⟩

/-- C23. Ring-slot reuse: in every execution of the scheduler, the ring slot
`frame mod W` is acquired for a new frame only after the retirement event of the
frame that occupied it before.  In particular frame `W` acquires slot 0 only
after frame 0 has retired, and `W + 1` frames admitted back to back with no
retirement in between are not an execution: the admission of frame `W` is
refused. -/
theorem Scheduler_ring_slot_reuse (W : Nat) (ring ring' : Nat → Option Nat)
    (es : List SchedEvent) (hrun : Scheduler.run W ring es = some ring') :
    (∀ f f' i j : Nat, es[i]? = some (SchedEvent.acquire f) →
      es[j]? = some (SchedEvent.acquire f') →
      i < j → f' % W = f % W →
      ∃ k : Nat, i < k ∧ k < j ∧ es[k]? = some (SchedEvent.retire f)) ∧
    (∀ i j : Nat, es[i]? = some (SchedEvent.acquire 0) →
      es[j]? = some (SchedEvent.acquire W) →
      i < j → ∃ k : Nat, i < k ∧ k < j ∧ es[k]? = some (SchedEvent.retire 0)) ∧
    (0 < W → Scheduler.run W (fun _ => none) ((List.range (W + 1)).map SchedEvent.acquire)
      = none) := by
  refine ⟨?_, ?_, ?_⟩
  · intro f f' i j hi hj hij hslot
    exact Scheduler_reuse_after_retire W es ring ring' f f' i j hrun hi hj hij hslot
  · intro i j hi hj hij
    exact Scheduler_reuse_after_retire W es ring ring' 0 W i j hrun hi hj hij
      (by rw [Nat.mod_self, Nat.zero_mod])
  · intro hW
    cases hr : Scheduler.run W (fun _ => none) ((List.range (W + 1)).map SchedEvent.acquire) with
    | none => rfl
    | some r =>
      exfalso
      have h0 : ((List.range (W + 1)).map SchedEvent.acquire)[0]?
          = some (SchedEvent.acquire 0) := by
        rw [List.getElem?_map, List.getElem?_range (by omega)]
        rfl
      have hWth : ((List.range (W + 1)).map SchedEvent.acquire)[W]?
          = some (SchedEvent.acquire W) := by
        rw [List.getElem?_map, List.getElem?_range (by omega)]
        rfl
      obtain ⟨k, -, hk, hret⟩ := Scheduler_reuse_after_retire W _ _ r 0 W 0 W hr h0 hWth hW
        (by rw [Nat.mod_self, Nat.zero_mod])
      rw [List.getElem?_map, List.getElem?_range (by omega)] at hret
      cases hret

theorem Scheduler_ring_slot_reuse_witness :
    ∃ k : Nat, 0 < k ∧ k < 3 ∧
      [SchedEvent.acquire 0, SchedEvent.acquire 1, SchedEvent.retire 0, SchedEvent.acquire 2][k]?
        = some (SchedEvent.retire 0) :=
  (Scheduler_ring_slot_reuse 2 (fun _ => none) _
    [SchedEvent.acquire 0, SchedEvent.acquire 1, SchedEvent.retire 0, SchedEvent.acquire 2] rfl).2.1
    0 3 rfl rfl (by decide)

/-! ## One cacheline of subcarriers lies in one transpose block -/

/-- C24. As the comment in `DoDemul::Launch` states: with `kSCsPerCacheline`
dividing the demodulation block size and `kTransposeBlockSize`, and `base_sc_id`
a multiple of the demodulation block size, the `kSCsPerCacheline` subcarriers
`base_sc_id + i + j` (`j < kSCsPerCacheline`) of the cacheline iteration `i` lie in
one partial-transpose block: `(base_sc_id + i + j) / kTransposeBlockSize =
(base_sc_id + i) / kTransposeBlockSize`.  So the `partial_transpose_block_base`
computed once per cacheline is the block base of every one of them, and the
index the gather reads for antenna `ant_i` is the partially transposed index of
subcarrier `base_sc_id + i + j`. -/
theorem Launch_cacheline_one_block (cfg : Config) (base_sc_id i j ant_i : Nat)
    (hdem : kSCsPerCacheline ∣ cfg.DemulBlockSize)
    (htr : kSCsPerCacheline ∣ cfg.kTransposeBlockSize)
    (hbase : cfg.DemulBlockSize ∣ base_sc_id)
    (hi : i ∈ loopSteps (max_sc_ite cfg base_sc_id) kSCsPerCacheline)
    (hj : j < kSCsPerCacheline) :
    (base_sc_id + i + j) / cfg.kTransposeBlockSize
      = (base_sc_id + i) / cfg.kTransposeBlockSize ∧
    ((base_sc_id + i + j) / cfg.kTransposeBlockSize)
        * (cfg.kTransposeBlockSize * cfg.BS_ANT_NUM)
      = ((base_sc_id + i) / cfg.kTransposeBlockSize)
        * (cfg.kTransposeBlockSize * cfg.BS_ANT_NUM) ∧
    ((base_sc_id + i) / cfg.kTransposeBlockSize) * (cfg.kTransposeBlockSize * cfg.BS_ANT_NUM)
        + ant_i * cfg.kTransposeBlockSize + (base_sc_id + i + j) % cfg.kTransposeBlockSize
      = ((base_sc_id + i + j) / cfg.kTransposeBlockSize) * cfg.kTransposeBlockSize
          * cfg.BS_ANT_NUM
        + ant_i * cfg.kTransposeBlockSize + (base_sc_id + i + j) % cfg.kTransposeBlockSize := by
  have hi8 : kSCsPerCacheline ∣ i :=
    ((mem_loopSteps_iff (show 0 < kSCsPerCacheline by decide)).1 hi).2
  have hx : kSCsPerCacheline ∣ base_sc_id + i := Dvd.dvd.add (hdem.trans hbase) hi8
  have h := (cacheline_same_block htr hx hj).1
  refine ⟨h, by rw [h], ?_⟩
  rw [h, Nat.mul_assoc]

theorem Launch_cacheline_one_block_witness :
    (kSCsPerCacheline ∣ exampleConfigClip.DemulBlockSize ∧
      kSCsPerCacheline ∣ exampleConfigClip.kTransposeBlockSize ∧
      exampleConfigClip.DemulBlockSize ∣ 16 ∧
      8 ∈ loopSteps (max_sc_ite exampleConfigClip 16) kSCsPerCacheline ∧ 5 < kSCsPerCacheline) ∧
    (16 + 8 + 5) / exampleConfigClip.kTransposeBlockSize
      = (16 + 8) / exampleConfigClip.kTransposeBlockSize :=
  ⟨by decide,
   (Launch_cacheline_one_block exampleConfigClip 16 8 5 0 (by decide) (by decide) (by decide)
      (by decide) (by decide)).1⟩

/-! ## `partial_transposeGather` with an antenna count that is not a multiple of 4 -/

/-- C25 at `bs_ant_num = 5` (`kTransposeBlockSize = 8`, `cur_sc_id = 0`, source
sample `n` equal to `n`, destination filled with `-1 - i`): the five antennas land
in `dst[0 .. 5)` as the all-scalar gather puts them, but the second SIMD
iteration also stores `src[40]`, `src[48]`, `src[56]` into `dst[5]`, `dst[6]`,
`dst[7]`, and the scalar tail, run on the pointers the SIMD loop has advanced,
stores `src[96]` into `dst[12]`; the all-scalar gather leaves all of these
untouched. -/
theorem partial_transposeGather_tail_overrun :
    (∀ ant, ant < 5 →
      (partial_transposeGather exampleConfig 0 exampleEqualized exampleBuf 5).2 ant
        = exampleEqualized (0 / 8 * 8 * 5 + ant * 8 + 0 % 8)) ∧
    (partial_transposeGather exampleConfig 0 exampleEqualized exampleBuf 5).2 5
      = exampleEqualized 40 ∧
    (partial_transposeGather exampleConfig 0 exampleEqualized exampleBuf 5).2 6
      = exampleEqualized 48 ∧
    (partial_transposeGather exampleConfig 0 exampleEqualized exampleBuf 5).2 7
      = exampleEqualized 56 ∧
    (partial_transposeGather exampleConfig 0 exampleEqualized exampleBuf 5).2 12
      = exampleEqualized 96 ∧
    (∀ k, 5 ≤ k → k < 13 →
      partial_transposeGather_scalar exampleConfig 0 exampleEqualized exampleBuf 5 k
        = exampleBuf k) ∧
    exampleEqualized 40 ≠ exampleBuf 5 ∧ exampleEqualized 96 ≠ exampleBuf 12 := by
  refine ⟨?_, by decide, by decide, by decide, by decide, ?_, by decide, by decide⟩
  · intro ant hant
    interval_cases ant <;> decide
  · intro k h1 h2
    interval_cases k <;> decide

/-! ## The partially transposed index map is a bijection -/

theorem partial_transpose_dst_lt {cfg : Config} {block ant j : Nat}
    (hdiv : cfg.kTransposeBlockSize ∣ cfg.OFDM_DATA_NUM)
    (hblock : block < cfg.OFDM_DATA_NUM / cfg.kTransposeBlockSize) (hant : ant < cfg.BS_ANT_NUM)
    (hj : j < cfg.kTransposeBlockSize) :
    partial_transpose_dst cfg block ant j < cfg.BS_ANT_NUM * cfg.OFDM_DATA_NUM := by
  unfold partial_transpose_dst
  obtain ⟨q, hq⟩ := hdiv
  have hB : 0 < cfg.kTransposeBlockSize := by omega
  rw [hq, Nat.mul_div_cancel_left _ hB] at hblock
  rw [hq]
  have h1 : ant * cfg.kTransposeBlockSize + j < cfg.kTransposeBlockSize * cfg.BS_ANT_NUM := by
    have : (ant + 1) * cfg.kTransposeBlockSize ≤ cfg.BS_ANT_NUM * cfg.kTransposeBlockSize :=
      Nat.mul_le_mul_right _ hant
    rw [Nat.add_mul, Nat.one_mul] at this
    rw [Nat.mul_comm cfg.kTransposeBlockSize]
    omega
  have h2 : (block + 1) * (cfg.kTransposeBlockSize * cfg.BS_ANT_NUM)
      ≤ q * (cfg.kTransposeBlockSize * cfg.BS_ANT_NUM) := Nat.mul_le_mul_right _ hblock
  rw [Nat.add_mul, Nat.one_mul] at h2
  have e : cfg.BS_ANT_NUM * (cfg.kTransposeBlockSize * q)
      = q * (cfg.kTransposeBlockSize * cfg.BS_ANT_NUM) := by ring
  rw [e]
  omega

theorem partial_transpose_dst_onto {cfg : Config} {k : Nat}
    (hdiv : cfg.kTransposeBlockSize ∣ cfg.OFDM_DATA_NUM) (hB : 0 < cfg.kTransposeBlockSize)
    (hk : k < cfg.BS_ANT_NUM * cfg.OFDM_DATA_NUM) :
    k / (cfg.kTransposeBlockSize * cfg.BS_ANT_NUM) < cfg.OFDM_DATA_NUM / cfg.kTransposeBlockSize ∧
    k % (cfg.kTransposeBlockSize * cfg.BS_ANT_NUM) / cfg.kTransposeBlockSize < cfg.BS_ANT_NUM ∧
    k % cfg.kTransposeBlockSize < cfg.kTransposeBlockSize ∧
    partial_transpose_dst cfg (k / (cfg.kTransposeBlockSize * cfg.BS_ANT_NUM))
      (k % (cfg.kTransposeBlockSize * cfg.BS_ANT_NUM) / cfg.kTransposeBlockSize)
      (k % cfg.kTransposeBlockSize) = k := by
  obtain ⟨q, hq⟩ := hdiv
  have hA : 0 < cfg.BS_ANT_NUM := by
    rcases Nat.eq_zero_or_pos cfg.BS_ANT_NUM with h | h
    · rw [h, Nat.zero_mul] at hk; omega
    · exact h
  have hBA : 0 < cfg.kTransposeBlockSize * cfg.BS_ANT_NUM := Nat.mul_pos hB hA
  refine ⟨?_, ?_, Nat.mod_lt _ hB, ?_⟩
  · rw [hq, Nat.mul_div_cancel_left _ hB, Nat.div_lt_iff_lt_mul hBA]
    have e : cfg.BS_ANT_NUM * (cfg.kTransposeBlockSize * q)
        = q * (cfg.kTransposeBlockSize * cfg.BS_ANT_NUM) := by ring
    rw [hq, e] at hk
    exact hk
  · rw [Nat.div_lt_iff_lt_mul hB, Nat.mul_comm cfg.BS_ANT_NUM]
    exact Nat.mod_lt _ hBA
  · unfold partial_transpose_dst
    exact (layout_recompose rfl).symm

/-- C26. The partially transposed index map is a bijection: with `B_tr` dividing
`N_d`, the map `(block, ant, j) ↦ block*B_tr*A + ant*B_tr + j` from
`[0, N_d/B_tr) x [0, A) x [0, B_tr)` is injective and onto `[0, A*N_d)`.  Hence
(with the cacheline size dividing `B_tr`) over the calls of
`DoFFT::partial_transpose` for the antennas `0 .. A-1` every one of the `A*N_d`
buffer entries is stored by exactly one cacheline of exactly one antenna, no
cacheline stores at an index `≥ A*N_d`, and the buffer afterwards holds the
transposed sample of its antenna at every index below `A*N_d` and its initial
value at every other index. -/
theorem partial_transpose_index_bijection {α : Type} [Mul α] [Add α] [Sub α] (cfg : Config)
    (pilots_sgn_ : Nat → complex_float α) (fft : Nat → Nat → complex_float α)
    (init : Nat → complex_float α)
    (hdiv : cfg.kTransposeBlockSize ∣ cfg.OFDM_DATA_NUM) (hB : 0 < cfg.kTransposeBlockSize)
    (hcl : kSCsPerCacheline ∣ cfg.kTransposeBlockSize) :
    (∀ block ant j block' ant' j',
      ant < cfg.BS_ANT_NUM → j < cfg.kTransposeBlockSize →
      ant' < cfg.BS_ANT_NUM → j' < cfg.kTransposeBlockSize →
      partial_transpose_dst cfg block ant j = partial_transpose_dst cfg block' ant' j' →
      block = block' ∧ ant = ant' ∧ j = j') ∧
    (∀ block ant j, block < cfg.OFDM_DATA_NUM / cfg.kTransposeBlockSize →
      ant < cfg.BS_ANT_NUM → j < cfg.kTransposeBlockSize →
      partial_transpose_dst cfg block ant j < cfg.BS_ANT_NUM * cfg.OFDM_DATA_NUM) ∧
    (∀ k, k < cfg.BS_ANT_NUM * cfg.OFDM_DATA_NUM →
      ∃ block ant j, block < cfg.OFDM_DATA_NUM / cfg.kTransposeBlockSize ∧
        ant < cfg.BS_ANT_NUM ∧ j < cfg.kTransposeBlockSize ∧
        partial_transpose_dst cfg block ant j = k) ∧
    (∀ k, k < cfg.BS_ANT_NUM * cfg.OFDM_DATA_NUM →
      ∃ ant block sc_j,
        (ant < cfg.BS_ANT_NUM ∧ block < cfg.OFDM_DATA_NUM / cfg.kTransposeBlockSize ∧
          sc_j ∈ loopSteps cfg.kTransposeBlockSize kSCsPerCacheline ∧
          cacheline_writes cfg ant block sc_j k) ∧
        ∀ ant' block' sc_j',
          ant' < cfg.BS_ANT_NUM → block' < cfg.OFDM_DATA_NUM / cfg.kTransposeBlockSize →
          sc_j' ∈ loopSteps cfg.kTransposeBlockSize kSCsPerCacheline →
          cacheline_writes cfg ant' block' sc_j' k →
          ant' = ant ∧ block' = block ∧ sc_j' = sc_j) ∧
    (∀ ant block sc_j k,
      ant < cfg.BS_ANT_NUM → block < cfg.OFDM_DATA_NUM / cfg.kTransposeBlockSize →
      sc_j ∈ loopSteps cfg.kTransposeBlockSize kSCsPerCacheline →
      cacheline_writes cfg ant block sc_j k → k < cfg.BS_ANT_NUM * cfg.OFDM_DATA_NUM) ∧
    (∀ k, k < cfg.BS_ANT_NUM * cfg.OFDM_DATA_NUM →
      fill_data_buffer cfg pilots_sgn_ fft (List.range cfg.BS_ANT_NUM) init k
        = transposed_sample cfg pilots_sgn_
            (fft (k % (cfg.kTransposeBlockSize * cfg.BS_ANT_NUM) / cfg.kTransposeBlockSize))
            SymbolType.kUL k) ∧
    (∀ k, cfg.BS_ANT_NUM * cfg.OFDM_DATA_NUM ≤ k →
      fill_data_buffer cfg pilots_sgn_ fft (List.range cfg.BS_ANT_NUM) init k = init k) := by
  have h8 : (0 : Nat) < 8 := by decide
  -- a cacheline store is a store of the index map
  have hstore : ∀ ant block sc_j k, ant < cfg.BS_ANT_NUM →
      sc_j ∈ loopSteps cfg.kTransposeBlockSize kSCsPerCacheline →
      cacheline_writes cfg ant block sc_j k →
      k / (cfg.kTransposeBlockSize * cfg.BS_ANT_NUM) = block ∧
      k % (cfg.kTransposeBlockSize * cfg.BS_ANT_NUM) / cfg.kTransposeBlockSize = ant ∧
      k % cfg.kTransposeBlockSize / 8 * 8 = sc_j := by
    intro ant block sc_j k hant hsc hw
    obtain ⟨d1, d2, d3⟩ := cacheline_writes_decomp hcl hant hsc hw
    refine ⟨d1, d2, ?_⟩
    obtain ⟨-, t, ht⟩ := (mem_loopSteps_of_dvd (by decide) hcl).1 hsc
    unfold cacheline_writes at hw
    simp only [kSCsPerCacheline] at ht
    rw [d3, ht]
    have hlt : k - (block * (cfg.kTransposeBlockSize * cfg.BS_ANT_NUM)
        + ant * cfg.kTransposeBlockSize + 8 * t) < 8 := by omega
    rw [Nat.add_comm, Nat.add_mul_div_left _ _ h8, Nat.div_eq_of_lt hlt, Nat.zero_add,
      Nat.mul_comm]
  have hfill := fun k => fill_apply cfg pilots_sgn_ fft SymbolType.kUL (Or.inr rfl) hcl
    (List.range cfg.BS_ANT_NUM) (fun a ha => List.mem_range.1 ha) init k
  refine ⟨?_, ?_, ?_, ?_, ?_, ?_, ?_⟩
  · intro block ant j block' ant' j' hant hj hant' hj' he
    obtain ⟨a1, a2, a3⟩ := layout_decomp hj hant (rfl : partial_transpose_dst cfg block ant j = _)
    obtain ⟨b1, b2, b3⟩ := layout_decomp hj' hant' he
    exact ⟨a1.symm.trans b1, a2.symm.trans b2, a3.symm.trans b3⟩
  · intro block ant j hblock hant hj
    exact partial_transpose_dst_lt hdiv hblock hant hj
  · intro k hk
    obtain ⟨o1, o2, o3, o4⟩ := partial_transpose_dst_onto hdiv hB hk
    exact ⟨_, _, _, o1, o2, o3, o4⟩
  · intro k hk
    obtain ⟨o1, o2, o3, o4⟩ := partial_transpose_dst_onto hdiv hB hk
    have hsc : k % cfg.kTransposeBlockSize / 8 * 8
        ∈ loopSteps cfg.kTransposeBlockSize kSCsPerCacheline := by
      rw [mem_loopSteps_of_dvd (by decide) hcl]
      refine ⟨?_, Dvd.intro_left _ rfl⟩
      have := Nat.div_mul_le_self (k % cfg.kTransposeBlockSize) 8
      omega
    refine ⟨_, _, _, ⟨o2, o1, hsc, ?_⟩, ?_⟩
    · unfold cacheline_writes
      unfold partial_transpose_dst at o4
      have h1 := Nat.div_add_mod (k % cfg.kTransposeBlockSize) 8
      have h2 := Nat.mod_lt (k % cfg.kTransposeBlockSize) h8
      omega
    · intro ant' block' sc_j' hant' _ hsc' hw
      obtain ⟨s1, s2, s3⟩ := hstore ant' block' sc_j' k hant' hsc' hw
      exact ⟨s2.symm, s1.symm, s3.symm⟩
  · intro ant block sc_j k hant hblock hsc hw
    obtain ⟨s1, s2, -⟩ := hstore ant block sc_j k hant hsc hw
    have hk := layout_recompose s2
    rw [s1] at hk
    have := partial_transpose_dst_lt hdiv hblock hant (Nat.mod_lt k hB)
    unfold partial_transpose_dst at this
    omega
  · intro k hk
    obtain ⟨o1, o2, -, -⟩ := partial_transpose_dst_onto hdiv hB hk
    exact (hfill k).1 ⟨o1, List.mem_range.2 o2⟩
  · intro k hk
    apply (hfill k).2
    rintro ⟨c1, c2⟩
    have hrec := layout_recompose (rfl : k % (cfg.kTransposeBlockSize * cfg.BS_ANT_NUM)
      / cfg.kTransposeBlockSize = _)
    have := partial_transpose_dst_lt hdiv c1 (List.mem_range.1 c2) (Nat.mod_lt k hB)
    unfold partial_transpose_dst at this
    omega

theorem partial_transpose_index_bijection_witness :
    (exampleConfig.kTransposeBlockSize ∣ exampleConfig.OFDM_DATA_NUM ∧
      0 < exampleConfig.kTransposeBlockSize ∧
      kSCsPerCacheline ∣ exampleConfig.kTransposeBlockSize) ∧
    (∀ k, exampleConfig.BS_ANT_NUM * exampleConfig.OFDM_DATA_NUM ≤ k →
      fill_data_buffer exampleConfig examplePilots exampleFft
        (List.range exampleConfig.BS_ANT_NUM) exampleBuf k = exampleBuf k) :=
  ⟨by decide,
   (partial_transpose_index_bijection exampleConfig examplePilots exampleFft exampleBuf
      (by decide) (by decide) (by decide)).2.2.2.2.2.2⟩

/-! ## Bit-error counting -/

set_option maxRecDepth 100000 in
/-- The loop of `update_bit_errors` counts the set bits of the byte it starts
from. -/
theorem bit_errors_loop_popcount : ∀ x, x < 256 →
    ((List.range 8).foldl
      (fun (st : Nat × Nat) _j => (st.1 + (st.2 &&& 1), (st.2 >>> 1) % 2 ^ 8)) (0, x)).1
      = popcount8 x := by
  decide

set_option maxRecDepth 100000 in
theorem popcount8_eq_zero : ∀ x, x < 256 → (popcount8 x = 0 ↔ x = 0) := by
  decide

theorem popcount8_le (x : Nat) : popcount8 x ≤ 8 := by
  unfold popcount8
  exact (List.countP_le_length _).trans (by simp)

theorem bit_errors_eq_popcount {tx_byte rx_byte : Nat} (htx : tx_byte < 256)
    (hrx : rx_byte < 256) :
    PhyStats.bit_errors tx_byte rx_byte = popcount8 (tx_byte ^^^ rx_byte) := by
  have hx : tx_byte ^^^ rx_byte < 2 ^ 8 := Nat.xor_lt_two_pow htx hrx
  unfold PhyStats.bit_errors
  simp only [Nat.mod_eq_of_lt hx]
  exact bit_errors_loop_popcount _ hx

/-- C27. `update_bit_errors(ue_id, offset, tx_byte, rx_byte)` increases
`bit_error_count[ue_id][offset]` by exactly the Hamming distance of the two bytes,
the number of set bits of `tx_byte XOR rx_byte` (the counter not being within 8
of `2^64`): the increment is between 0 and 8, is 0 if and only if
`tx_byte = rx_byte`, is symmetric in `tx_byte` and `rx_byte`, and no other counter
entry changes. -/
theorem update_bit_errors_hamming (bit_error_count_ : Nat → Nat → Nat)
    (ue_id offset tx_byte rx_byte : Nat) (htx : tx_byte < 256) (hrx : rx_byte < 256)
    (hcount : bit_error_count_ ue_id offset + 8 < 2 ^ 64) :
    PhyStats.update_bit_errors bit_error_count_ ue_id offset tx_byte rx_byte ue_id offset
      = bit_error_count_ ue_id offset + popcount8 (tx_byte ^^^ rx_byte) ∧
    popcount8 (tx_byte ^^^ rx_byte) = hamming_distance8 tx_byte rx_byte ∧
    popcount8 (tx_byte ^^^ rx_byte) ≤ 8 ∧
    (popcount8 (tx_byte ^^^ rx_byte) = 0 ↔ tx_byte = rx_byte) ∧
    (PhyStats.update_bit_errors bit_error_count_ ue_id offset tx_byte rx_byte ue_id offset
        = bit_error_count_ ue_id offset ↔ tx_byte = rx_byte) ∧
    PhyStats.update_bit_errors bit_error_count_ ue_id offset rx_byte tx_byte
      = PhyStats.update_bit_errors bit_error_count_ ue_id offset tx_byte rx_byte ∧
    (∀ u o, ¬ (u = ue_id ∧ o = offset) →
      PhyStats.update_bit_errors bit_error_count_ ue_id offset tx_byte rx_byte u o
        = bit_error_count_ u o) := by
  have hx : tx_byte ^^^ rx_byte < 256 := Nat.xor_lt_two_pow (n := 8) htx hrx
  have hle := popcount8_le (tx_byte ^^^ rx_byte)
  have hzero : popcount8 (tx_byte ^^^ rx_byte) = 0 ↔ tx_byte = rx_byte :=
    (popcount8_eq_zero _ hx).trans Nat.xor_eq_zero
  have hval : PhyStats.update_bit_errors bit_error_count_ ue_id offset tx_byte rx_byte ue_id
      offset = bit_error_count_ ue_id offset + popcount8 (tx_byte ^^^ rx_byte) := by
    unfold PhyStats.update_bit_errors
    rw [Function.update_same, Function.update_same, bit_errors_eq_popcount htx hrx,
      Nat.mod_eq_of_lt (by omega)]
  refine ⟨hval, ?_, hle, hzero, ?_, ?_, ?_⟩
  · unfold popcount8 hamming_distance8
    congr 1
    funext j
    rw [Nat.testBit_xor]
  · rw [hval, ← hzero]
    omega
  · unfold PhyStats.update_bit_errors
    rw [bit_errors_eq_popcount htx hrx, bit_errors_eq_popcount hrx htx, Nat.xor_comm]
  · intro u o hne
    unfold PhyStats.update_bit_errors
    by_cases hu : u = ue_id
    · subst hu
      have ho : o ≠ offset := fun ho => hne ⟨rfl, ho⟩
      rw [Function.update_same, Function.update_noteq ho]
    · rw [Function.update_noteq hu]

theorem update_bit_errors_hamming_witness :
    ((0xA5 : Nat) < 256 ∧ (0x0F : Nat) < 256 ∧ (fun _ _ => 3 : Nat → Nat → Nat) 1 2 + 8 < 2 ^ 64) ∧
    PhyStats.update_bit_errors (fun _ _ => 3) 1 2 0xA5 0x0F 1 2
      = (fun _ _ => 3 : Nat → Nat → Nat) 1 2 + popcount8 (0xA5 ^^^ 0x0F) :=
  ⟨by decide,
   (update_bit_errors_hamming (fun _ _ => 3) 1 2 0xA5 0x0F (by decide) (by decide)
      (by decide)).1⟩

/-! ## The lazy reset of frame 0 -/

theorem pred_two_pow_mod (k : Nat) (hk : k ≤ 64) : (2 ^ 64 - 1) % 2 ^ k = 2 ^ k - 1 := by
  have hW : 0 < 2 ^ k := Nat.pow_pos (by decide)
  have hm : 0 < 2 ^ (64 - k) := Nat.pow_pos (by decide)
  have hsplit : 2 ^ 64 = 2 ^ k * 2 ^ (64 - k) := by
    rw [← Nat.pow_add, Nat.add_sub_cancel' hk]
  have e : 2 ^ 64 - 1 = (2 ^ k - 1) + 2 ^ k * (2 ^ (64 - k) - 1) := by
    rw [hsplit, Nat.mul_sub, Nat.mul_one]
    have : 2 ^ k ≤ 2 ^ k * 2 ^ (64 - k) := Nat.le_mul_of_pos_right _ hm
    omega
  rw [e, Nat.add_mul_mod_self_left, Nat.mod_eq_of_lt (by omega)]

/-- C28. For `frame_id = 0` the lazy reset of `DoDemul::Launch` computes
`frame_id - 1` in unsigned 64-bit arithmetic, so the slot it zeroes is
`(2^64 - 1) mod W`; when `W` is a power of two (`W ≤ 2^64`) this is slot `W - 1`,
which is in bounds and is the slot frame `W - 1` uses later.  The reset zeroes the
`S x P_ul` slice of that slot, and (for `W ≥ 2`, where it is not the slot of
frame 0 itself) the step for symbol 0 and subcarrier 0 of frame 0 leaves it
zero. -/
theorem Launch_phase_reset_frame_zero (cfg : PhaseConfig) (ue_pilot_data_ : Nat → Nat → ℂ)
    (ue_list : Nat → Nat) (st : PhaseState) (k : Nat) (hk : k ≤ 64)
    (hW : cfg.kFrameWnd = 2 ^ k) :
    size_t_sub 0 1 = 2 ^ 64 - 1 ∧
    size_t_sub 0 1 % cfg.kFrameWnd = (2 ^ 64 - 1) % cfg.kFrameWnd ∧
    (2 ^ 64 - 1) % cfg.kFrameWnd = cfg.kFrameWnd - 1 ∧
    cfg.kFrameWnd - 1 < cfg.kFrameWnd ∧
    (cfg.kFrameWnd - 1) % cfg.kFrameWnd = cfg.kFrameWnd - 1 ∧
    (∀ n, n < cfg.SpatialStreamsNum * cfg.ClientUlPilotSymbols →
      Launch_phase_reset cfg 0 0 0 st.ue_spec_pilot_buffer_ (cfg.kFrameWnd - 1) n = 0) ∧
    (0 < cfg.ClientUlPilotSymbols → 2 ≤ cfg.kFrameWnd →
      ∀ n, n < cfg.SpatialStreamsNum * cfg.ClientUlPilotSymbols →
        (Launch_phase cfg ue_pilot_data_ ue_list 0 0 0 st).ue_spec_pilot_buffer_
          (cfg.kFrameWnd - 1) n = 0) := by
  have hpos : 0 < cfg.kFrameWnd := by rw [hW]; exact Nat.pow_pos (by decide)
  have h1 : size_t_sub 0 1 = 2 ^ 64 - 1 := by decide
  have h3 : (2 ^ 64 - 1) % cfg.kFrameWnd = cfg.kFrameWnd - 1 := by
    rw [hW]; exact pred_two_pow_mod k hk
  have hlt : cfg.kFrameWnd - 1 < cfg.kFrameWnd := by omega
  have hreset : ∀ n, n < cfg.SpatialStreamsNum * cfg.ClientUlPilotSymbols →
      Launch_phase_reset cfg 0 0 0 st.ue_spec_pilot_buffer_ (cfg.kFrameWnd - 1) n = 0 := by
    intro n hn
    rw [Launch_phase_reset_first_apply, if_pos ⟨by rw [h1, h3], hn⟩]
  refine ⟨h1, by rw [h1], h3, hlt, Nat.mod_eq_of_lt hlt, hreset, ?_⟩
  intro hP hW2 n hn
  rw [(Launch_phase_pilot_apply cfg ue_pilot_data_ ue_list 0 0 0 st hP).1]
  have hslot : ¬ (cfg.kFrameWnd - 1 = 0 % cfg.kFrameWnd ∧ 0 * cfg.SpatialStreamsNum ≤ n ∧
      n < 0 * cfg.SpatialStreamsNum + cfg.SpatialStreamsNum) := by
    rintro ⟨h, -⟩
    rw [Nat.zero_mod] at h
    omega
  rw [if_neg hslot]
  exact hreset n hn

theorem Launch_phase_reset_frame_zero_witness :
    ((2 : Nat) ≤ 64 ∧ exampleTwoPilots.kFrameWnd = 2 ^ 2) ∧
    size_t_sub 0 1 % exampleTwoPilots.kFrameWnd = (2 ^ 64 - 1) % exampleTwoPilots.kFrameWnd ∧
    (2 ^ 64 - 1) % exampleTwoPilots.kFrameWnd = exampleTwoPilots.kFrameWnd - 1 :=
  have h := Launch_phase_reset_frame_zero exampleTwoPilots (fun _ _ => 1) (fun s => s)
    examplePhaseState 2 (by decide) rfl
  ⟨⟨by decide, rfl⟩, h.2.1, h.2.2.1⟩

/-! ## Staging of the IFFT input -/

/-- The input of the inverse FFT, sample by sample. -/
theorem launch_staging_input {α : Type} [Zero α] (cfg : IFFTConfig)
    (dl : Nat → complex_float α) (ifft_out : Nat → α) (k : Nat) :
    ofFloats (DoIFFT.launch_staging cfg (asFloats dl) ifft_out).2.2 k
      = if cfg.OFDM_DATA_START ≤ k ∧ k < cfg.OFDM_DATA_START + cfg.OFDM_DATA_NUM then dl k
        else if cfg.OFDM_DATA_STOP ≤ k ∧ k < cfg.OFDM_DATA_STOP + cfg.OFDM_DATA_START then ⟨0, 0⟩
        else if k < cfg.OFDM_DATA_START then ⟨0, 0⟩
        else ofFloats ifft_out k := by
  simp only [DoIFFT.launch_staging, kMemcpyBeforeIFFT, if_true, ofFloats, memcpy, memset_zero]
  by_cases h1 : cfg.OFDM_DATA_START ≤ k ∧ k < cfg.OFDM_DATA_START + cfg.OFDM_DATA_NUM
  · have a1 : cfg.OFDM_DATA_START * 2 ≤ 2 * k
        ∧ 2 * k < cfg.OFDM_DATA_START * 2 + cfg.OFDM_DATA_NUM * 2 := by omega
    have a2 : cfg.OFDM_DATA_START * 2 ≤ 2 * k + 1
        ∧ 2 * k + 1 < cfg.OFDM_DATA_START * 2 + cfg.OFDM_DATA_NUM * 2 := by omega
    rw [if_pos h1, if_pos a1, if_pos a2]
    have e1 : cfg.OFDM_DATA_START * 2 + (2 * k - cfg.OFDM_DATA_START * 2) = 2 * k := by omega
    have e2 : cfg.OFDM_DATA_START * 2 + (2 * k + 1 - cfg.OFDM_DATA_START * 2) = 2 * k + 1 := by
      omega
    rw [e1, e2, asFloats_even, asFloats_odd]
  · have a1 : ¬ (cfg.OFDM_DATA_START * 2 ≤ 2 * k
        ∧ 2 * k < cfg.OFDM_DATA_START * 2 + cfg.OFDM_DATA_NUM * 2) := by omega
    have a2 : ¬ (cfg.OFDM_DATA_START * 2 ≤ 2 * k + 1
        ∧ 2 * k + 1 < cfg.OFDM_DATA_START * 2 + cfg.OFDM_DATA_NUM * 2) := by omega
    rw [if_neg h1, if_neg a1, if_neg a2]
    by_cases h2 : cfg.OFDM_DATA_STOP ≤ k ∧ k < cfg.OFDM_DATA_STOP + cfg.OFDM_DATA_START
    · have b1 : cfg.OFDM_DATA_STOP * 2 ≤ 2 * k
          ∧ 2 * k < cfg.OFDM_DATA_STOP * 2 + cfg.OFDM_DATA_START * 2 := by omega
      have b2 : cfg.OFDM_DATA_STOP * 2 ≤ 2 * k + 1
          ∧ 2 * k + 1 < cfg.OFDM_DATA_STOP * 2 + cfg.OFDM_DATA_START * 2 := by omega
      rw [if_pos h2, if_pos b1, if_pos b2]
    · have b1 : ¬ (cfg.OFDM_DATA_STOP * 2 ≤ 2 * k
          ∧ 2 * k < cfg.OFDM_DATA_STOP * 2 + cfg.OFDM_DATA_START * 2) := by omega
      have b2 : ¬ (cfg.OFDM_DATA_STOP * 2 ≤ 2 * k + 1
          ∧ 2 * k + 1 < cfg.OFDM_DATA_STOP * 2 + cfg.OFDM_DATA_START * 2) := by omega
      rw [if_neg h2, if_neg b1, if_neg b2]
      by_cases h3 : k < cfg.OFDM_DATA_START
      · have c1 : 0 ≤ 2 * k ∧ 2 * k < 0 + cfg.OFDM_DATA_START * 2 := by omega
        have c2 : 0 ≤ 2 * k + 1 ∧ 2 * k + 1 < 0 + cfg.OFDM_DATA_START * 2 := by omega
        rw [if_pos h3, if_pos c1, if_pos c2]
      · have c1 : ¬ (0 ≤ 2 * k ∧ 2 * k < 0 + cfg.OFDM_DATA_START * 2) := by omega
        have c2 : ¬ (0 ≤ 2 * k + 1 ∧ 2 * k + 1 < 0 + cfg.OFDM_DATA_START * 2) := by omega
        rw [if_neg h3, if_neg c1, if_neg c2]

/-- C29. `DoIFFT::launch` staging (`kMemcpyBeforeIFFT`): before the inverse FFT
the `N_ca`-point input has entries `[DATA_START, DATA_STOP)` equal to the
corresponding entries of the downlink buffer and zeros on `[0, DATA_START)` and
on `[DATA_STOP, DATA_STOP + DATA_START)`; consequently, when
`DATA_START + DATA_STOP = N_ca`, every non-data subcarrier of the input is zero
and no entry at an index `≥ N_ca` is written.  The downlink buffer itself is not
modified.  (`DATA_STOP = DATA_START + N_d`, as the configuration defines it.) -/
theorem launch_staging_centred {α : Type} [Zero α] (cfg : IFFTConfig)
    (dl : Nat → complex_float α) (ifft_out : Nat → α)
    (hstop : cfg.OFDM_DATA_STOP = cfg.OFDM_DATA_START + cfg.OFDM_DATA_NUM)
    (hca : cfg.OFDM_DATA_START + cfg.OFDM_DATA_STOP = cfg.OFDM_CA_NUM) :
    (∀ k, cfg.OFDM_DATA_START ≤ k → k < cfg.OFDM_DATA_STOP →
      ofFloats (DoIFFT.launch_staging cfg (asFloats dl) ifft_out).2.2 k = dl k) ∧
    (∀ k, k < cfg.OFDM_DATA_START →
      ofFloats (DoIFFT.launch_staging cfg (asFloats dl) ifft_out).2.2 k = ⟨0, 0⟩) ∧
    (∀ k, cfg.OFDM_DATA_STOP ≤ k → k < cfg.OFDM_DATA_STOP + cfg.OFDM_DATA_START →
      ofFloats (DoIFFT.launch_staging cfg (asFloats dl) ifft_out).2.2 k = ⟨0, 0⟩) ∧
    (∀ k, k < cfg.OFDM_CA_NUM → ¬ (cfg.OFDM_DATA_START ≤ k ∧ k < cfg.OFDM_DATA_STOP) →
      ofFloats (DoIFFT.launch_staging cfg (asFloats dl) ifft_out).2.2 k = ⟨0, 0⟩) ∧
    (∀ k, cfg.OFDM_CA_NUM ≤ k →
      ofFloats (DoIFFT.launch_staging cfg (asFloats dl) ifft_out).2.2 k = ofFloats ifft_out k) ∧
    (DoIFFT.launch_staging cfg (asFloats dl) ifft_out).2.2
      = (DoIFFT.launch_staging cfg (asFloats dl) ifft_out).2.1 ∧
    (DoIFFT.launch_staging cfg (asFloats dl) ifft_out).1 = asFloats dl := by
  refine ⟨?_, ?_, ?_, ?_, ?_, rfl, rfl⟩
  · intro k h1 h2
    rw [launch_staging_input, if_pos ⟨h1, by omega⟩]
  · intro k h1
    rw [launch_staging_input, if_neg (by omega), if_neg (by omega), if_pos h1]
  · intro k h1 h2
    rw [launch_staging_input, if_neg (by omega), if_pos ⟨h1, h2⟩]
  · intro k h1 h2
    rw [launch_staging_input, if_neg (by omega)]
    by_cases h3 : k < cfg.OFDM_DATA_START
    · rw [if_neg (by omega), if_pos h3]
    · rw [if_pos (by omega)]
  · intro k h1
    rw [launch_staging_input, if_neg (by omega), if_neg (by omega), if_neg (by omega)]

theorem launch_staging_centred_witness :
    (exampleIFFTConfig.OFDM_DATA_STOP
        = exampleIFFTConfig.OFDM_DATA_START + exampleIFFTConfig.OFDM_DATA_NUM ∧
      exampleIFFTConfig.OFDM_DATA_START + exampleIFFTConfig.OFDM_DATA_STOP
        = exampleIFFTConfig.OFDM_CA_NUM) ∧
    (∀ k, k < exampleIFFTConfig.OFDM_CA_NUM →
      ¬ (exampleIFFTConfig.OFDM_DATA_START ≤ k ∧ k < exampleIFFTConfig.OFDM_DATA_STOP) →
      ofFloats (DoIFFT.launch_staging exampleIFFTConfig (asFloats exampleEqualized)
        (fun _ => (7 : Int))).2.2 k = ⟨0, 0⟩) :=
  ⟨by decide,
   (launch_staging_centred exampleIFFTConfig exampleEqualized (fun _ => (7 : Int)) (by decide)
      (by decide)).2.2.2.1⟩

/-! ## `print_evm_stats` writes the accumulators -/

/-- A value `y ≥ 0` is left in place by `y ↦ sqrt(y) / N` only if it is `0` or
`1 / N^2`. -/
theorem sqrt_div_fixed {y N : ℝ} (hy : 0 ≤ y) (hN : 0 < N) (h : Real.sqrt y / N = y) :
    y = 0 ∨ y = 1 / N ^ 2 := by
  have h1 : Real.sqrt y = y * N := (div_eq_iff (ne_of_gt hN)).1 h
  have h2 : y = (y * N) ^ 2 := by
    rw [← h1, Real.sq_sqrt hy]
  by_cases h0 : y = 0
  · exact Or.inl h0
  · right
    have h3 : y * (1 - y * N ^ 2) = 0 := by
      have : y * (1 - y * N ^ 2) = y - (y * N) ^ 2 := by ring
      rw [this, ← h2, sub_self]
    rcases mul_eq_zero.1 h3 with h4 | h4
    · exact absurd h4 h0
    · have hN2 : N ^ 2 ≠ 0 := pow_ne_zero _ (ne_of_gt hN)
      rw [eq_div_iff hN2]
      linarith

/-- C30. `PhyStats::print_evm_stats(frame_id)` is not read-only: it overwrites
`evm_buffer[frame_id mod W][u]` with `sqrt(old value) / N_d` for every
`u < UE_NUM` and leaves every other frame slot (and every other entry) unchanged.
So a second call on the same frame prints `100 * sqrt(sqrt(old) / N_d) / N_d`
instead of `100 * sqrt(old) / N_d` (a different number unless the rescaled value
is `0` or `1 / N_d^2`), and a later well-formed `update_evm_stats` call
accumulates onto the rescaled value. -/
theorem print_evm_stats_overwrites (cfg : PhyStatsConfig) (ul_iq_f : Nat → Nat → ℂ)
    (evm_buffer_ : Nat → Nat → ℝ) (frame_id sc_id : Nat) (eq : cx_fmat) :
    (∀ u, u < cfg.UE_NUM →
      (PhyStats.print_evm_stats cfg evm_buffer_ frame_id).1
          (frame_id % cfg.TASK_BUFFER_FRAME_NUM) u
        = Real.sqrt (evm_buffer_ (frame_id % cfg.TASK_BUFFER_FRAME_NUM) u)
            / (cfg.OFDM_DATA_NUM : ℝ)) ∧
    (∀ slot u, slot ≠ frame_id % cfg.TASK_BUFFER_FRAME_NUM ∨ cfg.UE_NUM ≤ u →
      (PhyStats.print_evm_stats cfg evm_buffer_ frame_id).1 slot u = evm_buffer_ slot u) ∧
    (PhyStats.print_evm_stats cfg evm_buffer_ frame_id).2.1
      = (List.range cfg.UE_NUM).map (fun u =>
          100 * (Real.sqrt (evm_buffer_ (frame_id % cfg.TASK_BUFFER_FRAME_NUM) u)
            / (cfg.OFDM_DATA_NUM : ℝ))) ∧
    (PhyStats.print_evm_stats cfg
        (PhyStats.print_evm_stats cfg evm_buffer_ frame_id).1 frame_id).2.1
      = (List.range cfg.UE_NUM).map (fun u =>
          100 * (Real.sqrt (Real.sqrt (evm_buffer_ (frame_id % cfg.TASK_BUFFER_FRAME_NUM) u)
            / (cfg.OFDM_DATA_NUM : ℝ)) / (cfg.OFDM_DATA_NUM : ℝ))) ∧
    (∀ u, u < cfg.UE_NUM → 0 < cfg.OFDM_DATA_NUM →
      Real.sqrt (evm_buffer_ (frame_id % cfg.TASK_BUFFER_FRAME_NUM) u)
          / (cfg.OFDM_DATA_NUM : ℝ) ≠ 0 →
      Real.sqrt (evm_buffer_ (frame_id % cfg.TASK_BUFFER_FRAME_NUM) u)
          / (cfg.OFDM_DATA_NUM : ℝ) ≠ 1 / (cfg.OFDM_DATA_NUM : ℝ) ^ 2 →
      (PhyStats.print_evm_stats cfg
          (PhyStats.print_evm_stats cfg evm_buffer_ frame_id).1 frame_id).1
          (frame_id % cfg.TASK_BUFFER_FRAME_NUM) u
        ≠ (PhyStats.print_evm_stats cfg evm_buffer_ frame_id).1
            (frame_id % cfg.TASK_BUFFER_FRAME_NUM) u) ∧
    (sc_id < cfg.OFDM_DATA_STOP - cfg.OFDM_DATA_START →
      eq.n_rows = cfg.UE_NUM ∧ eq.n_cols = 1 → cfg.UE_ANT_NUM = cfg.UE_NUM →
      ∃ evm' : Nat → Nat → ℝ,
        PhyStats.update_evm_stats cfg (PhyStats.ul_gt_mat cfg ul_iq_f)
            (PhyStats.print_evm_stats cfg evm_buffer_ frame_id).1 frame_id sc_id eq
          = Except.ok evm' ∧
        ∀ u, u < cfg.UE_NUM →
          evm' (frame_id % cfg.TASK_BUFFER_FRAME_NUM) u
            = Real.sqrt (evm_buffer_ (frame_id % cfg.TASK_BUFFER_FRAME_NUM) u)
                / (cfg.OFDM_DATA_NUM : ℝ)
              + Complex.abs (eq.at u 0 - (PhyStats.ul_gt_mat cfg ul_iq_f).at u sc_id) ^ 2) := by
  have hfirst : ∀ (buf : Nat → Nat → ℝ) u, u < cfg.UE_NUM →
      (PhyStats.print_evm_stats cfg buf frame_id).1 (frame_id % cfg.TASK_BUFFER_FRAME_NUM) u
        = Real.sqrt (buf (frame_id % cfg.TASK_BUFFER_FRAME_NUM) u)
            / (cfg.OFDM_DATA_NUM : ℝ) := by
    intro buf u hu
    simp only [PhyStats.print_evm_stats, Function.update_same, if_pos hu]
  refine ⟨hfirst evm_buffer_, ?_, rfl, ?_, ?_, ?_⟩
  · intro slot u h
    simp only [PhyStats.print_evm_stats]
    by_cases hslot : slot = frame_id % cfg.TASK_BUFFER_FRAME_NUM
    · subst hslot
      rcases h with h | h
      · exact absurd rfl h
      · rw [Function.update_same, if_neg (by omega)]
    · rw [Function.update_noteq hslot]
  · simp only [PhyStats.print_evm_stats]
    apply List.map_congr_left
    intro u hu
    rw [Function.update_same, if_pos (List.mem_range.1 hu)]
  · intro u hu hN h0 h1 hc
    rw [hfirst _ u hu, hfirst _ u hu] at hc
    have hNr : (0 : ℝ) < (cfg.OFDM_DATA_NUM : ℝ) := by exact_mod_cast hN
    have hy : 0 ≤ Real.sqrt (evm_buffer_ (frame_id % cfg.TASK_BUFFER_FRAME_NUM) u)
        / (cfg.OFDM_DATA_NUM : ℝ) := div_nonneg (Real.sqrt_nonneg _) (le_of_lt hNr)
    rcases sqrt_div_fixed hy hNr hc with h | h
    · exact h0 h
    · exact h1 h
  · intro hsc heq hU
    have h1 : sc_id < (PhyStats.ul_gt_mat cfg ul_iq_f).n_cols := hsc
    have h2 : eq.n_rows = (PhyStats.ul_gt_mat cfg ul_iq_f).n_rows ∧ eq.n_cols = 1 :=
      ⟨by rw [heq.1]; exact hU.symm, heq.2⟩
    have h3 : cfg.UE_NUM = eq.n_rows := heq.1.symm
    refine ⟨_, by
      unfold PhyStats.update_evm_stats
      rw [if_neg (not_not.2 h1), if_neg (not_not.2 h2), if_neg (not_not.2 h3)], ?_⟩
    intro u hu
    rw [Function.update_same, if_pos hu, hfirst _ u hu, sq]

theorem print_evm_stats_overwrites_witness :
    (PhyStats.print_evm_stats examplePhyStatsConfig (fun _ _ => 4) 5).1
        (5 % examplePhyStatsConfig.TASK_BUFFER_FRAME_NUM) 0
      = Real.sqrt ((fun _ _ => (4 : ℝ)) (5 % examplePhyStatsConfig.TASK_BUFFER_FRAME_NUM) 0)
          / (examplePhyStatsConfig.OFDM_DATA_NUM : ℝ) :=
  (print_evm_stats_overwrites examplePhyStatsConfig (fun _ _ => 0) (fun _ _ => 4) 5 3
    exampleEq).1 0 (by decide)

/-! ## `partial_transposeGather` where it agrees with the all-scalar gather -/

/-- The all-scalar gather, index by index. -/
theorem partial_transposeGather_scalar_loop {α : Type} (g : Nat → complex_float α) :
    ∀ (n a : Nat) (mem : Nat → complex_float α) (k : Nat),
      ((List.range' a n).foldl
          (fun (st : Nat × (Nat → complex_float α)) ant_i =>
            (st.1 + 1, Function.update st.2 st.1 (g ant_i))) (a, mem)).2 k
        = if a ≤ k ∧ k < a + n then g k else mem k := by
  intro n
  induction n with
  | zero =>
    intro a mem k
    rw [if_neg (by omega)]
    rfl
  | succ n ih =>
    intro a mem k
    simp only [List.range'_succ, List.foldl_cons]
    rw [ih]
    by_cases h1 : a + 1 ≤ k ∧ k < a + 1 + n
    · rw [if_pos h1, if_pos (by omega)]
    · rw [if_neg h1]
      by_cases h2 : k = a
      · subst h2
        rw [Function.update_same, if_pos (by omega)]
      · rw [Function.update_noteq h2, if_neg (by omega)]

theorem partial_transposeGather_scalar_apply {α : Type} (cfg : Config) (cur_sc_id : Nat)
    (src dst : Nat → complex_float α) (bs_ant_num k : Nat) :
    partial_transposeGather_scalar cfg cur_sc_id src dst bs_ant_num k
      = if k < bs_ant_num then
          src (cur_sc_id / cfg.kTransposeBlockSize * (cfg.kTransposeBlockSize * bs_ant_num)
            + k * cfg.kTransposeBlockSize + cur_sc_id % cfg.kTransposeBlockSize)
        else dst k := by
  unfold partial_transposeGather_scalar
  refine (partial_transposeGather_scalar_loop
    (fun ant_i => src (cur_sc_id / cfg.kTransposeBlockSize
      * (cfg.kTransposeBlockSize * bs_ant_num)
      + ant_i * cfg.kTransposeBlockSize + cur_sc_id % cfg.kTransposeBlockSize))
    bs_ant_num 0 dst k).trans ?_
  by_cases hk : k < bs_ant_num
  · rw [if_pos hk, if_pos (by omega)]
  · rw [if_neg hk, if_neg (by omega)]

/-- The scalar tail of `partial_transposeGather` as a loop of sample writes through
a float pointer. -/
theorem write_complex_float_loop {α : Type} (g : Nat → complex_float α) :
    ∀ (n a : Nat) (mem : Nat → α) (k : Nat),
      ofFloats ((List.range' a n).foldl
          (fun (st : Nat × (Nat → α)) ant_i =>
            (st.1 + 2, write_complex_float st.2 st.1 (g ant_i))) (2 * a, mem)).2 k
        = if a ≤ k ∧ k < a + n then g k else ofFloats mem k := by
  intro n
  induction n with
  | zero =>
    intro a mem k
    rw [if_neg (by omega)]
    rfl
  | succ n ih =>
    intro a mem k
    simp only [List.range'_succ, List.foldl_cons]
    have e : 2 * a + 2 = 2 * (a + 1) := by ring
    rw [e, ih]
    by_cases h1 : a + 1 ≤ k ∧ k < a + 1 + n
    · rw [if_pos h1, if_pos (by omega)]
    · rw [if_neg h1]
      by_cases h2 : k = a
      · subst h2
        rw [if_pos (by omega)]
        simp [ofFloats, write_complex_float]
      · rw [if_neg (by omega)]
        have n1 : 2 * k ≠ 2 * a := by omega
        have n2 : 2 * k ≠ 2 * a + 1 := by omega
        have n3 : 2 * k + 1 ≠ 2 * a := by omega
        have n4 : 2 * k + 1 ≠ 2 * a + 1 := by omega
        simp only [ofFloats, write_complex_float, if_neg n1, if_neg n2, if_neg n3, if_neg n4]

/-- The SIMD loop of `partial_transposeGather` started with `src` at sample `e` and
`dst` at sample `t`: each iteration moves four samples, `B_tr` apart in the
source. -/
theorem partial_transposeGather_simd_loop {α : Type} (cfg : Config)
    (src : Nat → complex_float α) (k : Nat) :
    ∀ (l : List Nat) (e t : Nat) (mem : Nat → α),
      ofFloats (l.foldl
          (fun (st : Nat × Nat × (Nat → α)) _ant_idx =>
            (st.1 + 8 * cfg.kTransposeBlockSize, st.2.1 + 8,
             _mm256_storeu_ps st.2.2 st.2.1
              (_mm256_i32gather_ps (asFloats src) st.1 (Launch_index cfg) 4)))
          (2 * e, 2 * t, mem)).2.2 k
        = if t ≤ k ∧ k < t + 4 * l.length then src (e + (k - t) * cfg.kTransposeBlockSize)
          else ofFloats mem k := by
  intro l
  induction l with
  | nil =>
    intro e t mem
    rw [if_neg (by simp)]
    rfl
  | cons x l ih =>
    intro e t mem
    have e1 : 2 * e + 8 * cfg.kTransposeBlockSize = 2 * (e + 4 * cfg.kTransposeBlockSize) := by
      ring
    have e2 : 2 * t + 8 = 2 * (t + 4) := by ring
    simp only [List.foldl_cons, e1, e2]
    rw [ih, _mm256_storeu_ps, ofFloats_mm256_store]
    simp only [List.length_cons]
    by_cases h1 : t + 4 ≤ k ∧ k < t + 4 + 4 * l.length
    · have h2 : t ≤ k ∧ k < t + 4 * (l.length + 1) := by omega
      rw [if_pos h1, if_pos h2]
      congr 1
      have e3 : k - t = (k - (t + 4)) + 4 := by omega
      rw [e3, Nat.add_mul]
      omega
    · rw [if_neg h1]
      by_cases h3 : t ≤ k ∧ k < t + 4
      · have h2 : t ≤ k ∧ k < t + 4 * (l.length + 1) := by omega
        rw [if_pos h3, if_pos h2]
        have hm : k - t < 4 := by omega
        simp only [_mm256_i32gather_ps, Launch_index_even cfg _ hm, Launch_index_odd cfg _ hm,
          Nat.mul_div_cancel _ (show 0 < 4 by decide)]
        have e4 : 2 * e + 2 * ((k - t) * cfg.kTransposeBlockSize)
            = 2 * (e + (k - t) * cfg.kTransposeBlockSize) := by ring
        have e5 : 2 * e + (2 * ((k - t) * cfg.kTransposeBlockSize) + 1)
            = 2 * (e + (k - t) * cfg.kTransposeBlockSize) + 1 := by ring
        rw [e4, e5, asFloats_even, asFloats_odd]
      · have h2 : ¬ (t ≤ k ∧ k < t + 4 * (l.length + 1)) := by omega
        rw [if_neg h3, if_neg h2]

/-- For fewer than four antennas, and for an antenna count that is a multiple of
four, `partial_transposeGather` leaves at the destination exactly what the
all-scalar gather leaves: `dst[ant] = src[(cur_sc_id / B_tr) * B_tr * bs_ant_num +
ant * B_tr + cur_sc_id % B_tr]` for `ant < bs_ant_num`, nothing else written. -/
theorem partial_transposeGather_eq_scalar {α : Type} (cfg : Config) (cur_sc_id : Nat)
    (src dst : Nat → complex_float α) (bs_ant_num : Nat)
    (hA : bs_ant_num < 4 ∨ 4 ∣ bs_ant_num) (k : Nat) :
    (partial_transposeGather cfg cur_sc_id src dst bs_ant_num).2 k
      = partial_transposeGather_scalar cfg cur_sc_id src dst bs_ant_num k := by
  rw [partial_transposeGather_scalar_apply]
  unfold partial_transposeGather
  by_cases h4 : bs_ant_num ≥ 4
  · have hd : 4 ∣ bs_ant_num := by
      rcases hA with h | h
      · omega
      · exact h
    have hstart : ¬ (bs_ant_num / 4 * 4 < bs_ant_num) := by
      rw [Nat.div_mul_cancel hd]
      omega
    simp only [if_pos h4, if_neg hstart]
    have hlen : 4 * (loopSteps bs_ant_num 4).length = bs_ant_num := by
      rw [Nat.mul_comm]
      exact loopSteps_length_of_dvd (by decide) hd
    have hoff : (cur_sc_id / cfg.kTransposeBlockSize * bs_ant_num * cfg.kTransposeBlockSize
          + cur_sc_id % cfg.kTransposeBlockSize) * 2
        = 2 * (cur_sc_id / cfg.kTransposeBlockSize * bs_ant_num * cfg.kTransposeBlockSize
          + cur_sc_id % cfg.kTransposeBlockSize) := Nat.mul_comm _ _
    rw [hoff]
    refine (partial_transposeGather_simd_loop cfg src k (loopSteps bs_ant_num 4)
      (cur_sc_id / cfg.kTransposeBlockSize * bs_ant_num * cfg.kTransposeBlockSize
        + cur_sc_id % cfg.kTransposeBlockSize) 0 (asFloats dst)).trans ?_
    rw [ofFloats_asFloats, hlen]
    by_cases hk : k < bs_ant_num
    · rw [if_pos hk, if_pos ⟨Nat.zero_le _, by omega⟩, Nat.sub_zero]
      congr 1
      ring
    · rw [if_neg hk, if_neg (by omega)]
  · simp only [if_neg h4]
    by_cases h0 : 0 < bs_ant_num
    · simp only [if_pos h0]
      refine (write_complex_float_loop
        (fun ant_i => (⟨asFloats src (0 + 2 * (cur_sc_id / cfg.kTransposeBlockSize
            * (cfg.kTransposeBlockSize * bs_ant_num) + ant_i * cfg.kTransposeBlockSize
            + cur_sc_id % cfg.kTransposeBlockSize)),
          asFloats src (0 + 2 * (cur_sc_id / cfg.kTransposeBlockSize
            * (cfg.kTransposeBlockSize * bs_ant_num) + ant_i * cfg.kTransposeBlockSize
            + cur_sc_id % cfg.kTransposeBlockSize) + 1)⟩ : complex_float α))
        bs_ant_num 0 (asFloats dst) k).trans ?_
      rw [ofFloats_asFloats]
      by_cases hk : k < bs_ant_num
      · rw [if_pos hk, if_pos ⟨Nat.zero_le _, by omega⟩]
        simp only [Nat.zero_add, asFloats_even, asFloats_odd]
      · rw [if_neg hk, if_neg (by omega)]
    · simp only [if_neg h0]
      rw [ofFloats_asFloats, if_neg (by omega)]

end Agora
